import Mathlib

/-!
# ARM simulator: core facade, RESET entry and GDB remote protocol stub

A shallow embedding of `arm_core.c`, `arm_exception.c` and `gdb_protocol.c`
of arm_simulator-1.4, followed by the properties established about them.

Conventions of the embedding.

* `uint32_t`, `unsigned int`, `unsigned char` values are natural numbers and
  every wrapping operation of the source carries an explicit `%`.
* The register file (`registers.h`) and the memory (`memory.h`) are external
  to these three files.  They enter as records of operations (`Registers`,
  `Memory`) over an abstract state; what a property needs of them is a named
  hypothesis.
* Calls into the trace and debug sinks (`trace_register`, `trace_memory`,
  `trace_disable`, `trace_enable`, `debug`, `debug_raw`) only observe their
  arguments and write to a log outside the modelled state; they are left out.
* A `char *` is the list of bytes found from the pointer up to the end of the
  underlying array.  An access past that end, or a C string function applied
  to bytes with no terminating NUL, has no defined behaviour in C and yields
  `none`.
* An uninitialised local that the source may read (`value` in `read_uint32`,
  `given` in `gdb_packet_analysis`) has its content passed in as `junk`.
* The session reaches one memory, the one its core runs over: `gdb->mem` and
  `gdb->arm->mem` are the same object.
-/

namespace ArmSim

/-! ## Part I. Definitions -/

/-- Modulus of `uint32_t` arithmetic. -/
def U32 : Nat := 4294967296

/-! ### External interfaces -/

/-- Operations of `registers.h` used by the core, over a register file state `R`.
Reads return the value, writes return the updated register file. -/
structure Registers (R : Type) where
  registers_create : R
  get_mode : R → Nat
  current_mode_has_spsr : R → Int
  in_a_privileged_mode : R → Int
  read_register : R → Nat → Nat
  read_usr_register : R → Nat → Nat
  read_cpsr : R → Nat
  read_spsr : R → Nat
  write_register : R → Nat → Nat → R
  write_usr_register : R → Nat → Nat → R
  write_cpsr : R → Nat → R
  write_spsr : R → Nat → R

/-- Operations of `memory.h` used by the core and the stub, over a memory
state `M`.  A read takes the memory, the address and the content of the
destination `*value` before the call; it returns the status and the content of
`*value` after the call.  A write returns the status and the updated memory. -/
structure Memory (M : Type) where
  memory_get_size : M → Nat
  memory_read_byte : M → Nat → Nat → Int × Nat
  memory_read_half : M → Nat → Nat → Int × Nat
  memory_read_word : M → Nat → Nat → Int × Nat
  memory_write_byte : M → Nat → Nat → Int × M
  memory_write_half : M → Nat → Nat → Int × M
  memory_write_word : M → Nat → Nat → Int × M

/-- Modelled from the spec: `arm_constants.h` is not among the sources; the
exception identifiers are numbered in the order the spec lists them, with 0
for "no exception". -/
def RESET : Nat := 1

/-- Modelled from the spec: see `RESET`. -/
def UNDEFINED_INSTRUCTION : Nat := 2

/-- Modelled from the spec: see `RESET`. -/
def SOFTWARE_INTERRUPT : Nat := 3

/-- Modelled from the spec: see `RESET`. -/
def PREFETCH_ABORT : Nat := 4

/-- Modelled from the spec: see `RESET`. -/
def DATA_ABORT : Nat := 5

/-- Modelled from the spec: see `RESET`. -/
def INTERRUPT : Nat := 6

/-- Modelled from the spec: see `RESET`. -/
def FAST_INTERRUPT : Nat := 7

/-! ### arm_core.c -/

/-- The `struct arm_core_data`; `reg` and `mem` hold the pointees. -/
structure arm_core_data (R M : Type) where
  cycle_count : Nat
  reg : R
  mem : M

variable {R M : Type}

def arm_current_mode_has_spsr (rf : Registers R) (p : arm_core_data R M) : Int :=
  rf.current_mode_has_spsr p.reg

def arm_in_a_privileged_mode (rf : Registers R) (p : arm_core_data R M) : Int :=
  rf.in_a_privileged_mode p.reg

def arm_get_cycle_count (p : arm_core_data R M) : Nat :=
  p.cycle_count

/-- The program counter is incremented during the fetch, so 4 is added (and
bit 1 masked off) whenever register 15 is read. -/
def arm_read_register (rf : Registers R) (p : arm_core_data R M) (reg : Nat) : Nat :=
  let value := rf.read_register p.reg reg
  if reg = 15 then ((value + 4) % U32) &&& 0xFFFFFFFD else value

def arm_read_usr_register (rf : Registers R) (p : arm_core_data R M) (reg : Nat) : Nat :=
  let value := rf.read_usr_register p.reg reg
  if reg = 15 then ((value + 4) % U32) &&& 0xFFFFFFFD else value

def arm_read_cpsr (rf : Registers R) (p : arm_core_data R M) : Nat :=
  rf.read_cpsr p.reg

def arm_read_spsr (rf : Registers R) (p : arm_core_data R M) : Nat :=
  rf.read_spsr p.reg

def arm_write_register (rf : Registers R) (p : arm_core_data R M) (reg value : Nat) :
    arm_core_data R M :=
  { p with reg := rf.write_register p.reg reg value }

def arm_write_usr_register (rf : Registers R) (p : arm_core_data R M) (reg value : Nat) :
    arm_core_data R M :=
  { p with reg := rf.write_usr_register p.reg reg value }

def arm_write_cpsr (rf : Registers R) (p : arm_core_data R M) (value : Nat) :
    arm_core_data R M :=
  { p with reg := rf.write_cpsr p.reg value }

def arm_write_spsr (rf : Registers R) (p : arm_core_data R M) (value : Nat) :
    arm_core_data R M :=
  { p with reg := rf.write_spsr p.reg value }

/-- The fetch: returns the status of the memory read, the content of `*value`
after the call and the updated core.  `value` is the content of `*value`
before the call. -/
def arm_fetch (rf : Registers R) (mm : Memory M) (p : arm_core_data R M) (value : Nat) :
    Int × Nat × arm_core_data R M :=
  let p1 := { p with cycle_count := (p.cycle_count + 1) % U32 }
  let address := (arm_read_register rf p1 15 + U32 - 4) % U32
  let r := mm.memory_read_word p1.mem address value
  let p2 := arm_write_register rf p1 15 ((address + 4) % U32)
  (r.1, r.2, p2)

def arm_read_byte (mm : Memory M) (p : arm_core_data R M) (address value : Nat) : Int × Nat :=
  mm.memory_read_byte p.mem address value

def arm_read_half (mm : Memory M) (p : arm_core_data R M) (address value : Nat) : Int × Nat :=
  mm.memory_read_half p.mem address value

def arm_read_word (mm : Memory M) (p : arm_core_data R M) (address value : Nat) : Int × Nat :=
  mm.memory_read_word p.mem address value

def arm_write_byte (mm : Memory M) (p : arm_core_data R M) (address value : Nat) :
    Int × arm_core_data R M :=
  let r := mm.memory_write_byte p.mem address value
  (r.1, { p with mem := r.2 })

def arm_write_half (mm : Memory M) (p : arm_core_data R M) (address value : Nat) :
    Int × arm_core_data R M :=
  let r := mm.memory_write_half p.mem address value
  (r.1, { p with mem := r.2 })

def arm_write_word (mm : Memory M) (p : arm_core_data R M) (address value : Nat) :
    Int × arm_core_data R M :=
  let r := mm.memory_write_word p.mem address value
  (r.1, { p with mem := r.2 })

/-! ### arm_exception.c -/

/-- Not supported below ARMv6, reads as 0. -/
def CP15_reg1_EEbit : Nat := 0

def Exception_bit_9 : Nat := CP15_reg1_EEbit <<< 9

/-- Only RESET is acted upon. -/
def arm_exception (rf : Registers R) (p : arm_core_data R M) (exception : Nat) :
    arm_core_data R M :=
  if exception = RESET then
    arm_write_usr_register rf (arm_write_cpsr rf p (0x1d3 ||| Exception_bit_9)) 15 0
  else p

/-- The constructor of `arm_core.c`.  `malloc_ok` tells whether the allocation
succeeds and `junk` is the content of the fresh `cycle_count` field; a failed
allocation returns the null pointer, `none`. -/
def arm_create (rf : Registers R) (malloc_ok : Bool) (junk : Nat) (mem : M) :
    Option (arm_core_data R M) :=
  if malloc_ok then
    let p : arm_core_data R M := { cycle_count := junk, reg := rf.registers_create, mem := mem }
    let p1 := arm_exception rf p RESET
    some { p1 with cycle_count := 0 }
  else none

/-! ### Reference register file and memory -/

/-- Modelled from the spec: `registers.c` is not among the sources.  A banked
register file: thirty-one general registers, CPSR and one SPSR slot per mode,
the bank being selected by the mode field (low five bits) of CPSR. -/
structure BankedRegs where
  storage : Nat → Nat
  cpsr : Nat
  spsr : Nat → Nat

/-- Modelled from the spec: slot of register `r` seen from `mode`.  R0 to R7 and
R15 are shared, FIQ (0x11) banks R8 to R14, IRQ (0x12), SVC (0x13), ABT (0x17)
and UND (0x1b) bank R13 and R14, USR and SYS share the base bank. -/
def BankedRegs.slot (mode r : Nat) : Nat :=
  if r < 8 ∨ r = 15 then r
  else if mode = 0x11 then r + 8
  else if r < 13 then r
  else if mode = 0x12 then r + 10
  else if mode = 0x13 then r + 12
  else if mode = 0x17 then r + 14
  else if mode = 0x1b then r + 16
  else r

/-- Modelled from the spec: overwrite one entry of a table. -/
def BankedRegs.put (f : Nat → Nat) (i v : Nat) : Nat → Nat :=
  fun j => if j = i then v else f j

/-- Modelled from the spec: the register file contract of the spec as a
`Registers` record over `BankedRegs`, every register being zero at creation. -/
def bankedRegisters : Registers BankedRegs where
  registers_create := { storage := fun _ => 0, cpsr := 0, spsr := fun _ => 0 }
  get_mode := fun s => s.cpsr % 32
  current_mode_has_spsr := fun s =>
    if s.cpsr % 32 = 0x10 ∨ s.cpsr % 32 = 0x1f then 0 else 1
  in_a_privileged_mode := fun s => if s.cpsr % 32 = 0x10 then 0 else 1
  read_register := fun s r => s.storage (BankedRegs.slot (s.cpsr % 32) r)
  read_usr_register := fun s r => s.storage (BankedRegs.slot 0x10 r)
  read_cpsr := fun s => s.cpsr
  read_spsr := fun s => s.spsr (s.cpsr % 32)
  write_register := fun s r v =>
    { s with storage := BankedRegs.put s.storage (BankedRegs.slot (s.cpsr % 32) r) v }
  write_usr_register := fun s r v =>
    { s with storage := BankedRegs.put s.storage (BankedRegs.slot 0x10 r) v }
  write_cpsr := fun s v => { s with cpsr := v }
  write_spsr := fun s v => { s with spsr := BankedRegs.put s.spsr (s.cpsr % 32) v }

/-- Modelled from the spec: little-endian value of a list of bytes. -/
def leValue : List Nat → Nat
  | [] => 0
  | b :: bs => b + 256 * leValue bs

/-- Modelled from the spec: the `n` little-endian bytes of `v`. -/
def leBytes : Nat → Nat → List Nat
  | 0, _ => []
  | n + 1, v => v % 256 :: leBytes n (v / 256)

/-- Modelled from the spec: read `n` bytes of a flat memory at `a`; status 0 on
success, -1 (destination untouched) when the range leaves the memory. -/
def flatRead (m : List Nat) (n a old : Nat) : Int × Nat :=
  if a + n ≤ m.length then (0, leValue ((m.drop a).take n)) else (-1, old)

/-- Modelled from the spec: write `n` bytes of a flat memory at `a`; status 0 on
success, -1 (memory untouched) when the range leaves the memory. -/
def flatWrite (m : List Nat) (n a v : Nat) : Int × List Nat :=
  if a + n ≤ m.length then (0, m.take a ++ leBytes n v ++ m.drop (a + n)) else (-1, m)

/-- Modelled from the spec: `memory.c` is not among the sources.  A flat
little-endian byte memory obeying the memory contract of the spec. -/
def flatMemory : Memory (List Nat) where
  memory_get_size := fun m => m.length
  memory_read_byte := fun m a old => flatRead m 1 a old
  memory_read_half := fun m a old => flatRead m 2 a old
  memory_read_word := fun m a old => flatRead m 4 a old
  memory_write_byte := fun m a v => flatWrite m 1 a v
  memory_write_half := fun m a v => flatWrite m 2 a v
  memory_write_word := fun m a v => flatWrite m 4 a v

/-- A banked register file in Supervisor mode whose stored PC is `pc`, all
other registers zero. -/
def regsWithPc (pc : Nat) : BankedRegs :=
  { storage := BankedRegs.put (fun _ => 0) 15 pc, cpsr := 0x1d3, spsr := fun _ => 0 }

/-! ### Contract of the external register file -/

/-- A register read returns the 32-bit value last written to that register in
the current mode. -/
def ReadsLastWrite (rf : Registers R) : Prop :=
  ∀ (s : R) (r v : Nat), r < 16 → v < U32 → rf.read_register (rf.write_register s r v) r = v

/-- A USR-bank read returns the 32-bit value last written to that USR register. -/
def UsrReadsLastWrite (rf : Registers R) : Prop :=
  ∀ (s : R) (r v : Nat), r < 16 → v < U32 →
    rf.read_usr_register (rf.write_usr_register s r v) r = v

/-- Reading CPSR returns the value last written to it, and writes to USR
registers leave it alone. -/
def CpsrKept (rf : Registers R) : Prop :=
  (∀ (s : R) (v : Nat), v < U32 → rf.read_cpsr (rf.write_cpsr s v) = v) ∧
  (∀ (s : R) (r v : Nat), rf.read_cpsr (rf.write_usr_register s r v) = rf.read_cpsr s)

/-- Writes of the register file touch nothing but their target: a register
write leaves the other registers of the current mode and CPSR alone, CPSR reads
the value last written to it, and writing CPSR back with the value it holds
leaves the registers of the current mode alone. -/
def WritesAreLocal (rf : Registers R) : Prop :=
  (∀ (s : R) (r r2 v : Nat), r < 16 → r2 < 16 → r2 ≠ r →
    rf.read_register (rf.write_register s r v) r2 = rf.read_register s r2) ∧
  (∀ (s : R) (r v : Nat), r < 16 → rf.read_cpsr (rf.write_register s r v) = rf.read_cpsr s) ∧
  (∀ (s : R) (v : Nat), v < U32 → rf.read_cpsr (rf.write_cpsr s v) = v) ∧
  (∀ (s : R) (r : Nat), r < 16 →
    rf.read_register (rf.write_cpsr s (rf.read_cpsr s)) r = rf.read_register s r)

/-! ### C library: characters, `sprintf`, `sscanf`, buffers -/

/-- Overwrite `bytes` into the array `b` from index `i` on; `none` when the
range leaves the array. -/
def poke (b : List Nat) (i : Nat) (bytes : List Nat) : Option (List Nat) :=
  if i + bytes.length ≤ b.length then
    some (b.take i ++ bytes ++ b.drop (i + bytes.length))
  else none

/-- The C string found at a pointer: the bytes before the first NUL; `none`
when the array holds no NUL from the pointer on. -/
def c_string (data : List Nat) : Option (List Nat) :=
  if 0 ∈ data then some (data.takeWhile (fun c => c ≠ 0)) else none

/-- The lowercase hexadecimal digit of a value below 16, as printed by `%x`. -/
def hexDigitChar (d : Nat) : Nat :=
  if d < 10 then 48 + d else 87 + d

/-- Hexadecimal digits of `v`, most significant first, in front of `acc`. -/
def hexDigitsAux : Nat → Nat → List Nat → List Nat
  | 0, _, acc => acc
  | fuel + 1, v, acc =>
    if v < 16 then hexDigitChar v :: acc
    else hexDigitsAux fuel (v / 16) (hexDigitChar (v % 16) :: acc)

/-- The characters `sprintf(s, "%02x", v)` prints: the lowercase hexadecimal
digits of `v`, padded with a zero to two characters. -/
def sprintf_02x (v : Nat) : List Nat :=
  let ds := hexDigitsAux (v + 1) v []
  if ds.length < 2 then 48 :: ds else ds

/-- Hexadecimal digit characters, as accepted by `%x` (either case). -/
def isHexDigit (c : Nat) : Prop :=
  (48 ≤ c ∧ c ≤ 57) ∨ (97 ≤ c ∧ c ≤ 102) ∨ (65 ≤ c ∧ c ≤ 70)

instance (c : Nat) : Decidable (isHexDigit c) := by
  unfold isHexDigit
  infer_instance

def hexDigitValue (c : Nat) : Nat :=
  if 48 ≤ c ∧ c ≤ 57 then c - 48 else if 97 ≤ c ∧ c ≤ 102 then c - 87 else c - 55

/-- White space as skipped by `scanf` conversions. -/
def isSpace (c : Nat) : Prop :=
  c = 32 ∨ (9 ≤ c ∧ c ≤ 13)

instance (c : Nat) : Decidable (isSpace c) := by
  unfold isSpace
  infer_instance

def dropSpaces : List Nat → List Nat
  | [] => []
  | c :: cs => if isSpace c then dropSpaces cs else c :: cs

/-- Optional sign of a `%x` input item: whether it is a minus, the field width
left and the remaining input. -/
def scanSign (w : Nat) (s : List Nat) : Bool × Nat × List Nat :=
  match w, s with
  | w + 1, c :: r =>
    if c = 43 then (false, w, r) else if c = 45 then (true, w, r) else (false, w + 1, c :: r)
  | w, s => (false, w, s)

/-- Optional `0x` or `0X` in front of the digits of a `%x` input item. -/
def scan0x (w : Nat) (s : List Nat) : Nat × List Nat :=
  match w, s with
  | w + 2, c :: x :: r =>
    if c = 48 ∧ (x = 120 ∨ x = 88) then (w, r) else (w + 2, c :: x :: r)
  | w, s => (w, s)

/-- Hexadecimal digits of a `%x` input item within the field width: the value
read, the number of digits and the remaining input. -/
def scanDigits : Nat → List Nat → Nat → Nat → Nat × Nat × List Nat
  | 0, s, acc, n => (acc, n, s)
  | _ + 1, [], acc, n => (acc, n, [])
  | w + 1, c :: cs, acc, n =>
    if isHexDigit c then scanDigits w cs (acc * 16 + hexDigitValue c) (n + 1)
    else (acc, n, c :: cs)

/-- One `%x` conversion of `scanf` with field width `width` on the string `s`.
White space is skipped, a sign and a `0x` are accepted as `strtoul` does in
base 16.  The outcome is `some (some (v, rest))` when `v` is stored in the
`unsigned int` and `rest` is the input left, `some none` for a matching failure
(no digit and no `0x`), and `none` where the source and ISO C do not fix what
is stored: a number that does not fit 32 bits (undefined behaviour in ISO C;
the GNU C library stores the low 32 bits of what `strtoul` returns, which is
`ULONG_MAX` once the number exceeds `unsigned long`), and a `0x` with no digit
after it within the width (a matching failure in ISO C, converted as 0 by the
GNU C library). -/
def scan_x (width : Nat) (s : List Nat) : Option (Option (Nat × List Nat)) :=
  let sg := scanSign width (dropSpaces s)
  let px := scan0x sg.2.1 sg.2.2
  let ds := scanDigits px.1 px.2 0 0
  if ds.2.1 = 0 then (if px.1 = sg.2.1 then some none else none)
  else if ds.1 < U32 then some (some ((if sg.1 then (U32 - ds.1) % U32 else ds.1), ds.2.2))
  else none

/-- The content of `*out` after `sscanf(data, "%x", out)` (`width` the length of
the string) or `sscanf(data, "%02x", out)` (`width` 2), `old` being its content
before: unchanged when nothing is converted.  `none` when `data` is not a
NUL-terminated string, and where `scan_x` fixes no outcome. -/
def sscanf_x (width : Option Nat) (data : List Nat) (old : Nat) : Option Nat :=
  (c_string data).bind fun s =>
    (scan_x (width.getD s.length) s).map fun r =>
      match r with
      | some r => r.1
      | none => old

/-! ### gdb_protocol.c -/

def MAX_PACKET_SIZE : Nat := 1024

/-- The `struct gdb_protocol_data`.  `arm` holds the pointee of `gdb->arm`;
`gdb->mem` designates the memory the core runs over, held in `arm.mem`.
`written` is the sequence of bytes written to the descriptor `fd` so far and
`shut_wr` tells whether its write side was shut down; `buffer` is the constant
`packet + 1`.  The mutex is not modelled. -/
structure gdb_protocol_data (R M : Type) where
  arm : arm_core_data R M
  target_exception : Int
  written : List Nat
  shut_wr : Bool
  packet : List Nat
  len : Nat

/-- The type `gdb_handler_t`: a handler receives the session and the bytes
from `packet + 2` on; `none` stands for an execution with no defined result. -/
abbrev gdb_handler_t (R M : Type) : Type :=
  gdb_protocol_data R M → List Nat → Option (gdb_protocol_data R M)

def gdb_send_ack (gdb : gdb_protocol_data R M) : gdb_protocol_data R M :=
  { gdb with written := gdb.written ++ [43] }

/-- Writes `len` bytes of the packet buffer to the descriptor. -/
def gdb_transmit_packet (gdb : gdb_protocol_data R M) : Option (gdb_protocol_data R M) :=
  if gdb.len ≤ gdb.packet.length then
    some { gdb with written := gdb.written ++ gdb.packet.take gdb.len }
  else none

/-- The `while` loop of `gdb_send_buffer` over the bytes found from index `i`
on: the checksum and the index of the terminating NUL. -/
def gdb_send_buffer_loop : List Nat → Nat → Nat → Option (Nat × Nat)
  | [], _, _ => none
  | c :: rest, check, i =>
    if c = 0 then some (check, i) else gdb_send_buffer_loop rest ((check + c) % 256) (i + 1)

def gdb_send_buffer (gdb : gdb_protocol_data R M) : Option (gdb_protocol_data R M) :=
  (poke gdb.packet 0 [36]).bind fun p0 =>
  (gdb_send_buffer_loop (p0.drop 1) 0 1).bind fun ci =>
  (poke p0 ci.2 [35]).bind fun p1 =>
  (poke p1 (ci.2 + 1) (sprintf_02x ci.1 ++ [0])).bind fun p2 =>
  (poke p2 (ci.2 + 3) [0]).bind fun p3 =>
  gdb_transmit_packet { gdb with packet := p3, len := ci.2 + 3 }

/-- Copies the string `data` (given without its NUL) into `buffer` and sends. -/
def gdb_send_data (gdb : gdb_protocol_data R M) (data : List Nat) :
    Option (gdb_protocol_data R M) :=
  (poke gdb.packet 1 (data ++ [0])).bind fun p => gdb_send_buffer { gdb with packet := p }

/-- The byte `mem.bytes[i]` of the union after `mem.integer = value`, on a host
of the given byte order. -/
def union_byte (host_big_endian : Bool) (value i : Nat) : Nat :=
  if host_big_endian then value / 256 ^ (3 - i) % 256 else value / 256 ^ i % 256

/-- The value `mem.integer` of the union holding the four bytes `bytes`, on a
host of the given byte order. -/
def union_integer (host_big_endian : Bool) (bytes : List Nat) : Nat :=
  if host_big_endian then
    bytes.getD 3 0 + 256 * bytes.getD 2 0 + 65536 * bytes.getD 1 0 + 16777216 * bytes.getD 0 0
  else
    bytes.getD 0 0 + 256 * bytes.getD 1 0 + 65536 * bytes.getD 2 0 + 16777216 * bytes.getD 3 0

/-- The `for` loop of `read_uint32`, with `i` and `step` unsigned.  `fuel`
bounds the number of tests of the loop condition. -/
def read_uint32_loop : Nat → Nat → Nat → List Nat → Nat → List Nat → Option (List Nat)
  | 0, _, _, _, _, _ => none
  | fuel + 1, i, step, data, value, bytes =>
    if i < 4 ∧ 0 ≤ i then
      (sscanf_x (some 2) data value).bind fun value1 =>
        read_uint32_loop fuel ((i + step) % U32) step (data.drop 2) value1
          (bytes.set i (value1 % 256))
    else some bytes

/-- Reads a 32-bit value from hexadecimal text.  `host_big_endian` is the
result of `is_big_endian()`, `target_big_endian` tells whether
`BIG_ENDIAN_SIMULATOR` is defined, `junk` is the content of the uninitialised
locals.  The counter leaves the range after four rounds, so the fuel never
runs out. -/
def read_uint32 (host_big_endian target_big_endian : Bool) (junk : Nat) (data : List Nat) :
    Option Nat :=
  let i := if host_big_endian = target_big_endian then 0 else 3
  let step := if host_big_endian = target_big_endian then 1 else U32 - 1
  (read_uint32_loop 5 i step data junk (List.replicate 4 (junk % 256))).map
    (union_integer host_big_endian)

/-- The `for` loop of `write_uint32`: the buffer and the position reached. -/
def write_uint32_loop (host_big_endian : Bool) (value : Nat) :
    Nat → Nat → Nat → List Nat → Nat → Option (List Nat × Nat)
  | 0, _, _, _, _ => none
  | fuel + 1, i, step, b, pos =>
    if i < 4 ∧ 0 ≤ i then
      (poke b pos (sprintf_02x (union_byte host_big_endian value i) ++ [0])).bind fun b1 =>
        write_uint32_loop host_big_endian value fuel ((i + step) % U32) step b1 (pos + 2)
    else some (b, pos)

/-- Writes a 32-bit value as hexadecimal text at index `pos` of the array `b`. -/
def write_uint32 (host_big_endian target_big_endian : Bool) (b : List Nat) (pos value : Nat) :
    Option (List Nat) :=
  let i := if host_big_endian = target_big_endian then 0 else 3
  let step := if host_big_endian = target_big_endian then 1 else U32 - 1
  (write_uint32_loop host_big_endian value 5 i step b pos).bind fun r => poke r.1 r.2 [0]

/-- The loop over r0..r14 of `read_general_registers`, from register `i` on,
`n` registers being left. -/
def read_general_registers_loop (rf : Registers R) (host_big_endian target_big_endian : Bool)
    (arm : arm_core_data R M) : Nat → Nat → List Nat → Nat → Option (List Nat × Nat)
  | 0, _, b, pos => some (b, pos)
  | n + 1, i, b, pos =>
    (write_uint32 host_big_endian target_big_endian b pos (arm_read_register rf arm i)).bind
      fun b1 => read_general_registers_loop rf host_big_endian target_big_endian arm n (i + 1)
        b1 (pos + 8)

/-- Repeats `sprintf(position, "xxxxxxxx"); position += 8;` `n` times. -/
def sprintf_x8_loop : Nat → List Nat → Nat → Option (List Nat × Nat)
  | 0, b, pos => some (b, pos)
  | n + 1, b, pos =>
    (poke b pos (List.replicate 8 120 ++ [0])).bind fun b1 => sprintf_x8_loop n b1 (pos + 8)

/-- The loop over f0..f7 of `read_general_registers`, three words each. -/
def read_general_registers_fp : Nat → List Nat → Nat → Option (List Nat × Nat)
  | 0, b, pos => some (b, pos)
  | n + 1, b, pos =>
    (sprintf_x8_loop 3 b pos).bind fun r => read_general_registers_fp n r.1 r.2

/-- Handler of `g`. -/
def read_general_registers (rf : Registers R) (host_big_endian target_big_endian : Bool)
    (gdb : gdb_protocol_data R M) (_data : List Nat) : Option (gdb_protocol_data R M) :=
  (read_general_registers_loop rf host_big_endian target_big_endian gdb.arm 15 0
      gdb.packet 1).bind fun r1 =>
  (write_uint32 host_big_endian target_big_endian r1.1 r1.2
      ((arm_read_register rf gdb.arm 15 + U32 - 4) % U32)).bind fun b2 =>
  (read_general_registers_fp 8 b2 (r1.2 + 8)).bind fun r3 =>
  (sprintf_x8_loop 1 r3.1 r3.2).bind fun r4 =>
  (write_uint32 host_big_endian target_big_endian r4.1 r4.2 (arm_read_cpsr rf gdb.arm)).bind
    fun b5 => gdb_send_buffer { gdb with packet := b5 }

/-- Fresh session of `gdb_init_data` on a successful allocation; `junk` gives
the content of the uninitialised packet array. -/
def gdb_init_data (arm : arm_core_data R M) (junk : Nat → Nat) : gdb_protocol_data R M :=
  { arm := arm, target_exception := 0, written := [], shut_wr := false,
    packet := (List.range MAX_PACKET_SIZE).map junk, len := 0 }

def gdb_require_retransmission (gdb : gdb_protocol_data R M) : gdb_protocol_data R M :=
  { gdb with written := gdb.written ++ [45] }

/-- The checksum loop of `gdb_packet_analysis` over `n` bytes. -/
def gdb_packet_analysis_loop : Nat → List Nat → Nat → Option Nat
  | 0, _, check => some check
  | _ + 1, [], _ => none
  | n + 1, c :: rest, check => gdb_packet_analysis_loop n rest ((check + c) % 256)

/-- The end of `gdb_packet_analysis`, after the acknowledgement: the payload is
terminated in place at index `i` and the handler registered for its first byte
is run on the bytes from `packet + 2` on; with no handler an empty answer is
sent.  `handler` is the global table of handlers. -/
def gdb_dispatch (handler : Nat → Option (gdb_handler_t R M)) (gdb : gdb_protocol_data R M)
    (packet : List Nat) (i : Nat) : Option (gdb_protocol_data R M) :=
  (poke packet i [0]).bind fun packet1 =>
  (packet1.get? 1).bind fun index =>
    match handler (index % 256) with
    | some h => h gdb (packet1.drop 2)
    | none => gdb_send_data gdb []

/-- Analysis of a received packet of `length` bytes.  `junk` is the content of
the uninitialised local `given`. -/
def gdb_packet_analysis (handler : Nat → Option (gdb_handler_t R M)) (junk : Nat)
    (gdb : gdb_protocol_data R M) (packet : List Nat) (length : Int) :
    Option (gdb_protocol_data R M) :=
  let n := (length - 3 - 1).toNat
  (gdb_packet_analysis_loop n (packet.drop 1) 0).bind fun check =>
  (sscanf_x none (packet.drop (1 + n + 1)) junk).bind fun given =>
    if check = given then gdb_dispatch handler (gdb_send_ack gdb) packet (1 + n)
    else some (gdb_require_retransmission gdb)

/-- Eight lowercase hexadecimal digits spelling the four bytes of `v` in target
byte order: least significant byte first on a little-endian target. -/
def wire32 (target_big_endian : Bool) (v : Nat) : List Nat :=
  if target_big_endian then
    sprintf_02x (v / 16777216 % 256) ++ sprintf_02x (v / 65536 % 256) ++
      sprintf_02x (v / 256 % 256) ++ sprintf_02x (v % 256)
  else
    sprintf_02x (v % 256) ++ sprintf_02x (v / 256 % 256) ++
      sprintf_02x (v / 65536 % 256) ++ sprintf_02x (v / 16777216 % 256)

/-- A core in Supervisor mode with stored PC `pc`, cycle count 0, over an
eight-byte flat memory holding the bytes 1 to 8. -/
def coreWithPc (pc : Nat) : arm_core_data BankedRegs (List Nat) :=
  { cycle_count := 0, reg := regsWithPc pc, mem := [1, 2, 3, 4, 5, 6, 7, 8] }

/-- A session over the core `coreWithPc 0` with nothing written yet, whose
packet buffer holds a zero byte, the payload `P`, a NUL, and zeros up to
`MAX_PACKET_SIZE` bytes. -/
def sessionStaging (P : List Nat) : gdb_protocol_data BankedRegs (List Nat) :=
  { arm := coreWithPc 0, target_exception := 0, written := [], shut_wr := false,
    packet := 0 :: (P ++ 0 :: List.replicate (MAX_PACKET_SIZE - P.length - 2) 0), len := 0 }

/-- The text of `n` consecutive registers from register `i` on, as the loop of
`read_general_registers` lays it out. -/
def registerFields (rf : Registers R) (target_big_endian : Bool) (arm : arm_core_data R M) :
    Nat → Nat → List Nat
  | 0, _ => []
  | n + 1, i =>
    wire32 target_big_endian (arm_read_register rf arm i)
      ++ registerFields rf target_big_endian arm n (i + 1)

/-- The text `read_general_registers` stages: r0..r14, the R15 read value minus
4, twenty-four and one more placeholder words of `x`, CPSR. -/
def general_registers_text (rf : Registers R) (target_big_endian : Bool)
    (arm : arm_core_data R M) : List Nat :=
  registerFields rf target_big_endian arm 15 0 ++
    (wire32 target_big_endian ((arm_read_register rf arm 15 + U32 - 4) % U32) ++
      (List.replicate (8 * (3 * 8)) 120 ++
        (List.replicate (8 * 1) 120 ++ wire32 target_big_endian (arm_read_cpsr rf arm))))

/-- A session over the core `arm` with nothing written yet and a zeroed packet
buffer of `MAX_PACKET_SIZE` bytes. -/
def sessionOver (arm : arm_core_data BankedRegs (List Nat)) :
    gdb_protocol_data BankedRegs (List Nat) :=
  gdb_init_data arm (fun _ => 0)

/-- R0 reads 0 in the register file as RESET leaves it: created, CPSR written
with 0x1d3, USR R15 written with 0. -/
def ResetLeavesR0Zero (rf : Registers R) : Prop :=
  rf.read_register (rf.write_usr_register (rf.write_cpsr rf.registers_create 0x1d3) 15 0) 0 = 0

/-! ### C library: `atoi`, `index`, `sscanf` with two conversions -/

/-- Decimal digit characters. -/
def isDigit (c : Nat) : Prop :=
  48 ≤ c ∧ c ≤ 57

instance (c : Nat) : Decidable (isDigit c) := by
  unfold isDigit
  infer_instance

/-- Value of the decimal digits at the head of `s`, continuing from `acc`. -/
def scanDecimal : List Nat → Nat → Nat
  | [], acc => acc
  | c :: cs, acc => if isDigit c then scanDecimal cs (acc * 10 + (c - 48)) else acc

/-- Optional sign in front of the digits read by `atoi`: whether it is a minus
and the remaining input. -/
def atoiSign (s : List Nat) : Bool × List Nat :=
  match s with
  | [] => (false, [])
  | c :: cs => if c = 45 then (true, cs) else if c = 43 then (false, cs) else (false, c :: cs)

/-- The result of `atoi(data)`: white space is skipped, then an optional sign and
the decimal digits are read (no digit gives 0).  `none` when `data` is not a
NUL-terminated string or the value does not fit `int`, which C leaves
undefined. -/
def atoi (data : List Nat) : Option Int :=
  (c_string data).bind fun s =>
    let r := atoiSign (dropSpaces s)
    let v : Int := if r.1 then -(scanDecimal r.2 0 : Int) else (scanDecimal r.2 0 : Int)
    if -2147483648 ≤ v ∧ v ≤ 2147483647 then some v else none

/-- The bytes from the first occurrence of the character `c` (not NUL) of the
string `data` on, as `index(data, c)` points to them.  `none` when `data` is not
a NUL-terminated string, and when the string holds no `c`: `index` then returns
the null pointer, which both callers in the source increment and read from. -/
def index (data : List Nat) (c : Nat) : Option (List Nat) :=
  (c_string data).bind fun s =>
    if c ∈ s then some (data.dropWhile (fun x => x ≠ c)) else none

/-- The contents of `*a` and `*b` after `sscanf(data, "%x,%x", a, b)`, `old_a`
and `old_b` being their contents before; a conversion that fails, or a missing
comma, leaves the remaining destinations unchanged.  `none` when `data` is not
a NUL-terminated string, and where `scan_x` fixes no outcome. -/
def sscanf_x_x (data : List Nat) (old_a old_b : Nat) : Option (Nat × Nat) :=
  (c_string data).bind fun s =>
    (scan_x s.length s).bind fun r =>
      match r with
      | none => some (old_a, old_b)
      | some r1 =>
        match r1.2 with
        | [] => some (r1.1, old_b)
        | c :: rest =>
          if c = 44 then
            (scan_x rest.length rest).map fun r =>
              match r with
              | none => (r1.1, old_b)
              | some r2 => (r1.1, r2.1)
          else some (r1.1, old_b)

/-! ### gdb_protocol.c: command handlers -/

/-- The text "S04". -/
def text_S04 : List Nat := [83, 48, 52]

/-- The text "S10". -/
def text_S10 : List Nat := [83, 49, 48]

/-- The text "S05". -/
def text_S05 : List Nat := [83, 48, 53]

/-- The text "OK". -/
def text_OK : List Nat := [79, 75]

/-- The text "E01". -/
def text_E01 : List Nat := [69, 48, 49]

/-- The text "E02". -/
def text_E02 : List Nat := [69, 48, 50]

/-- The text "Offsets". -/
def text_Offsets : List Nat := [79, 102, 102, 115, 101, 116, 115]

/-- The text "Text=0;Data=0;Bss=0". -/
def text_Text_Data_Bss : List Nat :=
  [84, 101, 120, 116, 61, 48, 59, 68, 97, 116, 97, 61, 48, 59, 66, 115, 115, 61, 48]

/-- The text "Supported". -/
def text_Supported : List Nat := [83, 117, 112, 112, 111, 114, 116, 101, 100]

/-- The text "PacketSize=400". -/
def text_PacketSize : List Nat :=
  [80, 97, 99, 107, 101, 116, 83, 105, 122, 101, 61, 52, 48, 48]

/-- The text "TStatus". -/
def text_TStatus : List Nat := [84, 83, 116, 97, 116, 117, 115]

/-- The text "T0;tnotrun:0". -/
def text_T0_tnotrun : List Nat := [84, 48, 59, 116, 110, 111, 116, 114, 117, 110, 58, 48]

/-- The text "Symbol::". -/
def text_Symbol : List Nat := [83, 121, 109, 98, 111, 108, 58, 58]

/-- Handling of an exception raised in the target: the stop reply for the
retained exception code. -/
def gdb_send_stop_reason (gdb : gdb_protocol_data R M) : Option (gdb_protocol_data R M) :=
  if gdb.target_exception = (UNDEFINED_INSTRUCTION : Int) then gdb_send_data gdb text_S04
  else if gdb.target_exception = (PREFETCH_ABORT : Int) ∨
      gdb.target_exception = (DATA_ABORT : Int) then gdb_send_data gdb text_S10
  else gdb_send_data gdb text_S05

/-- The `while (!end)` loop of `cont`.  `arm_step` is the external step
primitive, `instruction` the content of the local `instruction` before the
round, `fuel` bounds the number of rounds: `none` when they do not suffice. -/
def cont_loop (rf : Registers R) (mm : Memory M)
    (arm_step : arm_core_data R M → Int × arm_core_data R M) :
    Nat → gdb_protocol_data R M → Nat → Option (gdb_protocol_data R M)
  | 0, _, _ => none
  | fuel + 1, gdb, instruction =>
    let r15 := (arm_read_register rf gdb.arm 15 + U32 - 4) % U32
    let instruction1 := (arm_read_word mm gdb.arm r15 instruction).2
    if instruction1 &&& 0xFFF000F0 = 0xE7F000F0 then gdb_send_stop_reason gdb
    else
      cont_loop rf mm arm_step fuel
        { gdb with target_exception := (arm_step gdb.arm).1, arm := (arm_step gdb.arm).2 }
        instruction1

/-- Handler of `c`. -/
def cont (rf : Registers R) (mm : Memory M)
    (arm_step : arm_core_data R M → Int × arm_core_data R M) (fuel junk : Nat)
    (gdb : gdb_protocol_data R M) (_data : List Nat) : Option (gdb_protocol_data R M) :=
  cont_loop rf mm arm_step fuel gdb junk

/-- Handler of `k`: shuts the write side of the connection down. -/
def kill_request (gdb : gdb_protocol_data R M) (_data : List Nat) :
    Option (gdb_protocol_data R M) :=
  some { gdb with shut_wr := true }

/-- Handler of `q`. -/
def query (gdb : gdb_protocol_data R M) (data : List Nat) : Option (gdb_protocol_data R M) :=
  (c_string data).bind fun s =>
    if s = text_Offsets then gdb_send_data gdb text_Text_Data_Bss
    else if s.take 9 = text_Supported then gdb_send_data gdb text_PacketSize
    else if s = text_TStatus then gdb_send_data gdb text_T0_tnotrun
    else if s = text_Symbol then gdb_send_data gdb []
    else gdb_send_data gdb []

/-- The `while` loop of `read_memory`: `size` bytes left to read, the buffer
and the position in it. -/
def read_memory_loop (mm : Memory M) (m : M) :
    Nat → Nat → Nat → List Nat → Nat → Option (List Nat)
  | 0, _, _, b, _ => some b
  | size + 1, address, value, b, pos =>
    let r := mm.memory_read_byte m address value
    if r.1 ≠ -1 then
      (poke b pos (sprintf_02x (r.2 % 256) ++ [0])).bind fun b1 =>
        read_memory_loop mm m size ((address + 1) % U32) (r.2 % 256) b1 (pos + 2)
    else some b

/-- Handler of `m`. -/
def read_memory (mm : Memory M) (junk : Nat) (gdb : gdb_protocol_data R M)
    (data : List Nat) : Option (gdb_protocol_data R M) :=
  (sscanf_x_x data junk junk).bind fun as =>
  (poke gdb.packet 1 [0]).bind fun b0 =>
  (read_memory_loop mm gdb.arm.mem as.2 as.1 (junk % 256) b0 1).bind fun b1 =>
    gdb_send_buffer { gdb with packet := b1 }

/-- Handler of `p`.  A register index of 16 or more fails the assertion and the
program aborts: `none`. -/
def read_register (rf : Registers R) (host_big_endian target_big_endian : Bool)
    (gdb : gdb_protocol_data R M) (data : List Nat) : Option (gdb_protocol_data R M) :=
  (atoi data).bind fun n =>
    let reg := (n % (U32 : Int)).toNat
    if reg < 16 then
      (write_uint32 host_big_endian target_big_endian gdb.packet 1
          ((arm_read_register rf gdb.arm (reg % 256) + U32 - (if reg = 15 then 4 else 0))
            % U32)).bind
        fun b => gdb_send_buffer { gdb with packet := b }
    else none

/-- Handler of `?`. -/
def reason (gdb : gdb_protocol_data R M) (_data : List Nat) : Option (gdb_protocol_data R M) :=
  gdb_send_stop_reason gdb

/-- Handler of `H`. -/
def set_thread (gdb : gdb_protocol_data R M) (data : List Nat) :
    Option (gdb_protocol_data R M) :=
  match data with
  | [] => none
  | type :: rest =>
    (atoi rest).bind fun value =>
      if (type = 99 ∨ type = 103) ∧ value < 1 ∧ value > -2 then gdb_send_data gdb text_OK
      else gdb_send_data gdb text_E01

/-- Handler of `s`. -/
def step (arm_step : arm_core_data R M → Int × arm_core_data R M)
    (gdb : gdb_protocol_data R M) (_data : List Nat) : Option (gdb_protocol_data R M) :=
  gdb_send_stop_reason
    { gdb with target_exception := (arm_step gdb.arm).1, arm := (arm_step gdb.arm).2 }

/-- The loop over r0..r15 of `write_general_registers`, from register `i` on,
`n` registers being left: the core and the position reached in the text. -/
def write_general_registers_loop (rf : Registers R) (host_big_endian target_big_endian : Bool)
    (junk : Nat) :
    Nat → Nat → arm_core_data R M → List Nat → Option (arm_core_data R M × List Nat)
  | 0, _, arm, position => some (arm, position)
  | n + 1, i, arm, position =>
    (read_uint32 host_big_endian target_big_endian junk position).bind fun value =>
      write_general_registers_loop rf host_big_endian target_big_endian junk n (i + 1)
        (arm_write_register rf arm i value) (position.drop 8)

/-- Repeats `value = read_uint32(position); position += 8;` `n` times, the
values being dropped. -/
def read_uint32_skip (host_big_endian target_big_endian : Bool) (junk : Nat) :
    Nat → List Nat → Option (List Nat)
  | 0, position => some position
  | n + 1, position =>
    (read_uint32 host_big_endian target_big_endian junk position).bind fun _ =>
      read_uint32_skip host_big_endian target_big_endian junk n (position.drop 8)

/-- The loop over f0..f7 of `write_general_registers`, three words each. -/
def write_general_registers_fp (host_big_endian target_big_endian : Bool) (junk : Nat) :
    Nat → List Nat → Option (List Nat)
  | 0, position => some position
  | n + 1, position =>
    (read_uint32_skip host_big_endian target_big_endian junk 3 position).bind fun p1 =>
      write_general_registers_fp host_big_endian target_big_endian junk n p1

/-- Handler of `G`. -/
def write_general_registers (rf : Registers R) (host_big_endian target_big_endian : Bool)
    (junk : Nat) (gdb : gdb_protocol_data R M) (data : List Nat) :
    Option (gdb_protocol_data R M) :=
  (write_general_registers_loop rf host_big_endian target_big_endian junk 16 0 gdb.arm
      data).bind fun r1 =>
  (write_general_registers_fp host_big_endian target_big_endian junk 8 r1.2).bind fun p2 =>
  (read_uint32 host_big_endian target_big_endian junk p2).bind fun _ =>
  (read_uint32 host_big_endian target_big_endian junk (p2.drop 8)).bind fun value =>
    gdb_send_data { gdb with arm := arm_write_cpsr rf r1.1 value } text_OK

/-- The `for` loop of `write_memory_binary` entered with `write_ok` set: `n`
bytes left to write, the address, the body from `content` on and the memory.
Returns the final `write_ok` and the memory. -/
def write_memory_binary_loop (mm : Memory M) : Nat → Nat → List Nat → M → Option (Bool × M)
  | 0, _, _, m => some (true, m)
  | n + 1, address, content, m =>
    match content with
    | [] => none
    | c :: rest =>
      if c = 0x7d then
        match rest with
        | [] => none
        | c2 :: rest2 =>
          if (mm.memory_write_byte m address ((c2 ^^^ 0x20) % 256)).1 = 0 then
            write_memory_binary_loop mm n ((address + 1) % U32) rest2
              (mm.memory_write_byte m address ((c2 ^^^ 0x20) % 256)).2
          else some (false, (mm.memory_write_byte m address ((c2 ^^^ 0x20) % 256)).2)
      else
        if (mm.memory_write_byte m address (c % 256)).1 = 0 then
          write_memory_binary_loop mm n ((address + 1) % U32) rest
            (mm.memory_write_byte m address (c % 256)).2
        else some (false, (mm.memory_write_byte m address (c % 256)).2)

/-- Handler of `X`. -/
def write_memory_binary (mm : Memory M) (junk : Nat) (gdb : gdb_protocol_data R M)
    (data : List Nat) : Option (gdb_protocol_data R M) :=
  (sscanf_x_x data junk junk).bind fun as =>
  (index data 58).bind fun p =>
    if as.1 < mm.memory_get_size gdb.arm.mem then
      (write_memory_binary_loop mm as.2 as.1 (p.drop 1) gdb.arm.mem).bind fun r =>
        gdb_send_data { gdb with arm := { gdb.arm with mem := r.2 } }
          (if r.1 then text_OK else text_E02)
    else gdb_send_data gdb text_E02

/-- Handler of `P`.  A register index of 16 or more fails the assertion and the
program aborts: `none`. -/
def write_register (rf : Registers R) (host_big_endian target_big_endian : Bool) (junk : Nat)
    (gdb : gdb_protocol_data R M) (data : List Nat) : Option (gdb_protocol_data R M) :=
  (sscanf_x none data junk).bind fun reg =>
  (index data 61).bind fun p =>
  (read_uint32 host_big_endian target_big_endian junk (p.drop 1)).bind fun value =>
    if reg < 16 then
      gdb_send_data { gdb with arm := arm_write_register rf gdb.arm (reg % 256) value } text_OK
    else none

/-- The table `handler` as `gdb_init` fills it: every slot empty but those of
`c`, `k`, `q`, `g`, `m`, `p`, `?`, `H`, `s`, `G`, `X`, `P`. -/
def gdb_init (rf : Registers R) (mm : Memory M) (host_big_endian target_big_endian : Bool)
    (arm_step : arm_core_data R M → Int × arm_core_data R M) (fuel junk : Nat) :
    Nat → Option (gdb_handler_t R M) := fun i =>
  if i = 99 then some (cont rf mm arm_step fuel junk)
  else if i = 107 then some kill_request
  else if i = 113 then some query
  else if i = 103 then some (read_general_registers rf host_big_endian target_big_endian)
  else if i = 109 then some (read_memory mm junk)
  else if i = 112 then some (read_register rf host_big_endian target_big_endian)
  else if i = 63 then some reason
  else if i = 72 then some set_thread
  else if i = 115 then some (step arm_step)
  else if i = 71 then some (write_general_registers rf host_big_endian target_big_endian junk)
  else if i = 88 then some (write_memory_binary mm junk)
  else if i = 80 then some (write_register rf host_big_endian target_big_endian junk)
  else none

/-- The packet `$payload#cc` with its checksum digits, as `gdb_send_buffer`
frames a payload. -/
def framed (payload : List Nat) : List Nat :=
  36 :: (payload ++ 35 :: sprintf_02x (payload.sum % 256))

/-- What a handler run from `gdb` to `gdb1` did to the connection: nothing, or
one reply frame whose payload has at most `n` characters; the packet buffer
keeps its size. -/
def RepliedWithin (n : Nat) (gdb gdb1 : gdb_protocol_data R M) : Prop :=
  gdb1.packet.length = MAX_PACKET_SIZE ∧
  (gdb1.written = gdb.written ∨
    ∃ T, T.length ≤ n ∧ gdb1.written = gdb.written ++ framed T ∧ gdb1.len = T.length + 4)

/-- The payload of the stop reply for the exception code `e`. -/
def stop_text (e : Int) : List Nat :=
  if e = (UNDEFINED_INSTRUCTION : Int) then text_S04
  else if e = (PREFETCH_ABORT : Int) ∨ e = (DATA_ABORT : Int) then text_S10
  else text_S05

/-- The number a string of hexadecimal digits spells. -/
def hexValue (ds : List Nat) : Nat :=
  ds.foldl (fun acc d => acc * 16 + hexDigitValue d) 0

/-- The body bytes that carry one byte in an `X` packet: the byte itself, or,
escaped, 0x7d followed by the byte XOR 0x20. -/
def escape_item (item : Nat × Bool) : List Nat :=
  if item.2 then [0x7d, item.1 ^^^ 0x20] else [item.1]

/-- The body of an `X` packet carrying the bytes `items`, each with the choice
of escaping it. -/
def escape_body : List (Nat × Bool) → List Nat
  | [] => []
  | item :: items => escape_item item ++ escape_body items

/-- Successive byte writes of `bs` from address `a` on, given up after the first
write that fails: whether all succeeded, and the memory left. -/
def store_bytes (mm : Memory M) : M → Nat → List Nat → Bool × M
  | m, _, [] => (true, m)
  | m, a, b :: bs =>
    if (mm.memory_write_byte m a b).1 = 0 then
      store_bytes mm (mm.memory_write_byte m a b).2 ((a + 1) % U32) bs
    else (false, (mm.memory_write_byte m a b).2)

/-- The bytes delivered by the consecutive successful (status 0) byte reads from
address `a` on, at most `size` of them, up to the first read that fails.
`value` is the content of the destination before the first read. -/
def read_run (mm : Memory M) (m : M) : Nat → Nat → Nat → List Nat
  | 0, _, _ => []
  | size + 1, a, value =>
    if (mm.memory_read_byte m a value).1 = 0 then
      (mm.memory_read_byte m a value).2 % 256 ::
        read_run mm m size ((a + 1) % U32) ((mm.memory_read_byte m a value).2 % 256)
    else []

/-- Two lowercase hexadecimal digits for each byte of `bs`. -/
def hex_pairs : List Nat → List Nat
  | [] => []
  | b :: bs => sprintf_02x b ++ hex_pairs bs

/-- The text the loop of `read_memory` stages: two digits for each read whose
status is not -1, up to the first read whose status is -1. -/
def memory_text (mm : Memory M) (m : M) : Nat → Nat → Nat → List Nat
  | 0, _, _ => []
  | size + 1, a, value =>
    if (mm.memory_read_byte m a value).1 ≠ -1 then
      sprintf_02x ((mm.memory_read_byte m a value).2 % 256) ++
        memory_text mm m size ((a + 1) % U32) ((mm.memory_read_byte m a value).2 % 256)
    else []

/-- A fresh session over a core in Supervisor mode with stored PC 0 running
over the flat memory `mem`. -/
def sessionWithMemory (mem : List Nat) : gdb_protocol_data BankedRegs (List Nat) :=
  sessionOver { cycle_count := 0, reg := regsWithPc 0, mem := mem }

/-- Modelled from the spec: a memory none of whose bytes can be read or
written, every access failing with the non-zero status 1 and leaving its
destination untouched. -/
def refusingMemory : Memory Unit where
  memory_get_size := fun _ => 0
  memory_read_byte := fun _ _ old => (1, old)
  memory_read_half := fun _ _ old => (1, old)
  memory_read_word := fun _ _ old => (1, old)
  memory_write_byte := fun m _ _ => (1, m)
  memory_write_half := fun m _ _ => (1, m)
  memory_write_word := fun m _ _ => (1, m)

/-- A step primitive used to exercise `cont`: it counts one cycle, moves the
stored PC to 4 and reports an undefined instruction. -/
def stepRaisingUndefined (p : arm_core_data BankedRegs (List Nat)) :
    Int × arm_core_data BankedRegs (List Nat) :=
  ((UNDEFINED_INSTRUCTION : Int),
    { p with cycle_count := p.cycle_count + 1,
             reg := bankedRegisters.write_register p.reg 15 4 })

/-- A fresh session over a core in Supervisor mode with stored PC `pc` running
over the flat memory `mem`. -/
def sessionAt (pc : Nat) (mem : List Nat) : gdb_protocol_data BankedRegs (List Nat) :=
  sessionOver { cycle_count := 0, reg := regsWithPc pc, mem := mem }

/-! ### Sequences of calls of the facade -/

/-- A call of one operation of the facade of `arm_core.c`, or of
`arm_exception`, with its arguments; for the operations that store through a
pointer, `value` is the content of the destination before the call. -/
inductive facade_call where
  | read_register (reg : Nat)
  | read_usr_register (reg : Nat)
  | read_cpsr
  | read_spsr
  | write_register (reg value : Nat)
  | write_usr_register (reg value : Nat)
  | write_cpsr (value : Nat)
  | write_spsr (value : Nat)
  | fetch (value : Nat)
  | read_byte (address value : Nat)
  | read_half (address value : Nat)
  | read_word (address value : Nat)
  | write_byte (address value : Nat)
  | write_half (address value : Nat)
  | write_word (address value : Nat)
  | exception (e : Nat)

/-- The core a call leaves.  The operations `arm_read_*` assign nothing in the
core, their embeddings return the value read and no core: the core they leave
is the core they are given. -/
def core_after (rf : Registers R) (mm : Memory M) :
    facade_call → arm_core_data R M → arm_core_data R M
  | .read_register _, p => p
  | .read_usr_register _, p => p
  | .read_cpsr, p => p
  | .read_spsr, p => p
  | .write_register reg value, p => arm_write_register rf p reg value
  | .write_usr_register reg value, p => arm_write_usr_register rf p reg value
  | .write_cpsr value, p => arm_write_cpsr rf p value
  | .write_spsr value, p => arm_write_spsr rf p value
  | .fetch value, p => (arm_fetch rf mm p value).2.2
  | .read_byte _ _, p => p
  | .read_half _ _, p => p
  | .read_word _ _, p => p
  | .write_byte address value, p => (arm_write_byte mm p address value).2
  | .write_half address value, p => (arm_write_half mm p address value).2
  | .write_word address value, p => (arm_write_word mm p address value).2
  | .exception e, p => arm_exception rf p e

/-- The core a sequence of calls leaves. -/
def cores_after (rf : Registers R) (mm : Memory M) :
    List facade_call → arm_core_data R M → arm_core_data R M
  | [], p => p
  | c :: cs, p => cores_after rf mm cs (core_after rf mm c p)

/-- The number of calls of `arm_fetch` in a sequence of calls. -/
def fetch_calls : List facade_call → Nat
  | [] => 0
  | .fetch _ :: cs => fetch_calls cs + 1
  | _ :: cs => fetch_calls cs

/-! ## Part II. Properties -/

theorem bankedRegisters_readsLastWrite : ReadsLastWrite bankedRegisters := by
  intro s r v _ _
  simp [bankedRegisters, BankedRegs.put]

theorem bankedRegisters_usrReadsLastWrite : UsrReadsLastWrite bankedRegisters := by
  intro s r v _ _
  simp [bankedRegisters, BankedRegs.put]

theorem bankedRegisters_cpsrKept : CpsrKept bankedRegisters := by
  constructor
  · intro s v _
    simp [bankedRegisters]
  · intro s r v
    simp [bankedRegisters]

/-! ### Bit 1 mask -/

theorem and_two_eq (x : Nat) : x &&& 2 = 2 * (x / 2 % 2) := by
  have h := Nat.and_two_pow x 1
  rw [Nat.testBit_to_div_mod] at h
  simp only [pow_one] at h
  rw [h]
  rcases Nat.mod_two_eq_zero_or_one (x / 2) with h0 | h1
  · simp [h0]
  · simp [h1]

theorem and_mask_of_bit1_clear (x : Nat) (hx : x < U32) (hb : x &&& 2 = 0) :
    x &&& 0xFFFFFFFD = x := by
  have e : (0xFFFFFFFD : Nat) = 0xFFFFFFFF ^^^ 2 := by decide
  rw [e, Nat.and_xor_distrib_left, hb]
  have e2 : (0xFFFFFFFF : Nat) = 2 ^ 32 - 1 := by decide
  rw [e2, Nat.and_pow_two_sub_one_eq_mod, Nat.xor_zero]
  exact Nat.mod_eq_of_lt hx

/-- With bit 1 of the stored PC clear, reading R15 and taking 4 off gives the
stored PC back. -/
theorem pc_read_minus_four (pc : Nat) (hpc : pc < U32) (hb : pc &&& 2 = 0) :
    ((((pc + 4) % U32) &&& 0xFFFFFFFD) + U32 - 4) % U32 = pc := by
  have h1 : (pc + 4) % U32 < U32 := Nat.mod_lt _ (by decide)
  have h2 : ((pc + 4) % U32) &&& 2 = 0 := by
    rw [and_two_eq] at hb ⊢
    unfold U32 at *
    omega
  rw [and_mask_of_bit1_clear _ h1 h2]
  unfold U32 at *
  omega

/-! ### Core facade -/

/-- C1: for every register index r < 16 and 32-bit value v, writing v to r
through the facade and reading r back returns v when r is not 15 and
(v + 4) & 0xFFFFFFFD modulo 2^32 when r is 15, provided the register file
returns the value last written to a register in the current mode. -/
theorem arm_write_then_read_register (rf : Registers R) (hrf : ReadsLastWrite rf)
    (p : arm_core_data R M) (r v : Nat) (hr : r < 16) (hv : v < U32) :
    arm_read_register rf (arm_write_register rf p r v) r =
      if r = 15 then ((v + 4) % U32) &&& 0xFFFFFFFD else v := by
  simp [arm_read_register, arm_write_register, hrf p.reg r v hr hv]

theorem arm_write_then_read_register_witness :
    ReadsLastWrite bankedRegisters ∧
    arm_read_register bankedRegisters (arm_write_register bankedRegisters (coreWithPc 0) 15 7) 15
      = 9 ∧
    arm_read_register bankedRegisters (arm_write_register bankedRegisters (coreWithPc 0) 3 7) 3
      = 7 :=
  ⟨bankedRegisters_readsLastWrite,
   arm_write_then_read_register bankedRegisters bankedRegisters_readsLastWrite
     (coreWithPc 0) 15 7 (by decide) (by decide),
   arm_write_then_read_register bankedRegisters bankedRegisters_readsLastWrite
     (coreWithPc 0) 3 7 (by decide) (by decide)⟩

/-- What `arm_fetch` does on any core: the word is read at the R15 read value
minus 4, and that address plus 4 is written back to R15. -/
theorem arm_fetch_eq (rf : Registers R) (mm : Memory M) (p : arm_core_data R M) (value : Nat) :
    arm_fetch rf mm p value =
      ((mm.memory_read_word p.mem
          (((((rf.read_register p.reg 15 + 4) % U32) &&& 0xFFFFFFFD) + U32 - 4) % U32) value).1,
       (mm.memory_read_word p.mem
          (((((rf.read_register p.reg 15 + 4) % U32) &&& 0xFFFFFFFD) + U32 - 4) % U32) value).2,
       { cycle_count := (p.cycle_count + 1) % U32,
         reg := rf.write_register p.reg 15
           ((((((rf.read_register p.reg 15 + 4) % U32) &&& 0xFFFFFFFD) + U32 - 4) % U32 + 4)
             % U32),
         mem := p.mem }) := by
  simp [arm_fetch, arm_read_register, arm_write_register]

/-- C2 (as stated, refuted): with stored PC 2 the fetch reads the word at
address 0, not at address 2, and leaves R15 at 4, not at 6. -/
theorem arm_fetch_pc2_counterexample :
    bankedRegisters.read_register (coreWithPc 2).reg 15 = 2 ∧
    (arm_fetch bankedRegisters flatMemory (coreWithPc 2) 0).2.1
      = (flatMemory.memory_read_word (coreWithPc 2).mem 0 0).2 ∧
    (arm_fetch bankedRegisters flatMemory (coreWithPc 2) 0).2.1
      ≠ (flatMemory.memory_read_word (coreWithPc 2).mem 2 0).2 ∧
    bankedRegisters.read_register
      (arm_fetch bankedRegisters flatMemory (coreWithPc 2) 0).2.2.reg 15 = 4 ∧
    (4 : Nat) ≠ (2 + 4) % U32 := by
  decide

/-- C2 (amended): for every core state with cycle count c and stored PC pc whose
bit 1 is clear, `arm_fetch` reads the instruction word at address pc, leaves the
cycle counter at c + 1 modulo 2^32 and the stored R15 at pc + 4 modulo 2^32, and
returns the status of the memory layer, whether or not the read succeeds. -/
theorem arm_fetch_bit1_clear (rf : Registers R) (mm : Memory M) (hrf : ReadsLastWrite rf)
    (p : arm_core_data R M) (value : Nat)
    (hpc : rf.read_register p.reg 15 < U32) (hbit : rf.read_register p.reg 15 &&& 2 = 0) :
    (arm_fetch rf mm p value).1
      = (mm.memory_read_word p.mem (rf.read_register p.reg 15) value).1 ∧
    (arm_fetch rf mm p value).2.1
      = (mm.memory_read_word p.mem (rf.read_register p.reg 15) value).2 ∧
    arm_get_cycle_count (arm_fetch rf mm p value).2.2 = (arm_get_cycle_count p + 1) % U32 ∧
    rf.read_register (arm_fetch rf mm p value).2.2.reg 15
      = (rf.read_register p.reg 15 + 4) % U32 ∧
    (arm_fetch rf mm p value).2.2.mem = p.mem := by
  rw [arm_fetch_eq, pc_read_minus_four _ hpc hbit]
  refine ⟨rfl, rfl, rfl, ?_, rfl⟩
  exact hrf _ _ _ (by decide) (Nat.mod_lt _ (by decide))

theorem arm_fetch_bit1_clear_witness :
    (arm_fetch bankedRegisters flatMemory (coreWithPc 4) 0).1
      = (flatMemory.memory_read_word (coreWithPc 4).mem
          (bankedRegisters.read_register (coreWithPc 4).reg 15) 0).1 ∧
    (arm_fetch bankedRegisters flatMemory (coreWithPc 4) 0).2.1
      = (flatMemory.memory_read_word (coreWithPc 4).mem
          (bankedRegisters.read_register (coreWithPc 4).reg 15) 0).2 ∧
    arm_get_cycle_count (arm_fetch bankedRegisters flatMemory (coreWithPc 4) 0).2.2
      = (arm_get_cycle_count (coreWithPc 4) + 1) % U32 ∧
    bankedRegisters.read_register
      (arm_fetch bankedRegisters flatMemory (coreWithPc 4) 0).2.2.reg 15
      = (bankedRegisters.read_register (coreWithPc 4).reg 15 + 4) % U32 ∧
    (arm_fetch bankedRegisters flatMemory (coreWithPc 4) 0).2.2.mem = (coreWithPc 4).mem :=
  arm_fetch_bit1_clear bankedRegisters flatMemory bankedRegisters_readsLastWrite
    (coreWithPc 4) 0 (by decide) (by decide)

/-! ### RESET entry -/

/-- C3: after `arm_create` (construction followed by RESET entry) `arm_read_cpsr`
returns exactly 0x1d3, which is 0x1d3 | (E << 9) with E = 0, has low five bits
0x13, the I and F bits set and the Thumb bit clear, and `arm_get_cycle_count`
returns 0, for every memory and every register file that keeps CPSR. -/
theorem arm_create_cpsr_and_cycles (rf : Registers R) (hrf : CpsrKept rf) (junk : Nat)
    (mem : M) :
    ∃ p, arm_create rf true junk mem = some p ∧
      arm_read_cpsr rf p = 0x1d3 ∧ arm_get_cycle_count p = 0 ∧
      (0x1d3 : Nat) = 0x1d3 ||| (CP15_reg1_EEbit <<< 9) ∧ CP15_reg1_EEbit = 0 ∧
      (0x1d3 : Nat) % 32 = 0x13 ∧ (0x1d3 : Nat) &&& 0x80 = 0x80 ∧
      (0x1d3 : Nat) &&& 0x40 = 0x40 ∧ (0x1d3 : Nat) &&& 0x20 = 0 := by
  refine ⟨_, rfl, ?_, rfl, by decide, rfl, by decide, by decide, by decide, by decide⟩
  simp only [arm_read_cpsr, arm_exception, arm_write_usr_register, arm_write_cpsr, if_true]
  rw [hrf.2, hrf.1 _ _ (by decide)]
  decide

theorem arm_create_cpsr_and_cycles_witness :
    CpsrKept bankedRegisters ∧
    ∃ p, arm_create bankedRegisters true 99 [1, 2, 3, 4] = some p ∧
      arm_read_cpsr bankedRegisters p = 0x1d3 ∧ arm_get_cycle_count p = 0 ∧
      (0x1d3 : Nat) = 0x1d3 ||| (CP15_reg1_EEbit <<< 9) ∧ CP15_reg1_EEbit = 0 ∧
      (0x1d3 : Nat) % 32 = 0x13 ∧ (0x1d3 : Nat) &&& 0x80 = 0x80 ∧
      (0x1d3 : Nat) &&& 0x40 = 0x40 ∧ (0x1d3 : Nat) &&& 0x20 = 0 :=
  ⟨bankedRegisters_cpsrKept,
   arm_create_cpsr_and_cycles bankedRegisters bankedRegisters_cpsrKept 99 [1, 2, 3, 4]⟩

/-- C4 (as stated, refuted): on the reference register file, after `arm_create`
the facade read `arm_read_usr_register(p, 15)` returns 4, not 0. -/
theorem arm_create_usr_pc_counterexample :
    (arm_create bankedRegisters true 0 ([] : List Nat)).map
        (fun p => arm_read_usr_register bankedRegisters p 15) = some 4 ∧
    (arm_create bankedRegisters true 0 ([] : List Nat)).map
        (fun p => arm_read_usr_register bankedRegisters p 15) ≠ some 0 := by
  decide

/-- C4 (amended): after `arm_create` (RESET entry) the USR-view R15 held in the
register file is 0, and the facade read `arm_read_usr_register(p, 15)`, which
adds 4 and clears bit 1, returns 4. -/
theorem arm_create_usr_pc (rf : Registers R) (hrf : UsrReadsLastWrite rf) (junk : Nat)
    (mem : M) :
    ∃ p, arm_create rf true junk mem = some p ∧
      rf.read_usr_register p.reg 15 = 0 ∧ arm_read_usr_register rf p 15 = 4 := by
  refine ⟨_, rfl, ?_, ?_⟩
  · simp only [arm_exception, arm_write_usr_register, arm_write_cpsr, if_true]
    exact hrf _ 15 0 (by decide) (by decide)
  · simp only [arm_read_usr_register, arm_exception, arm_write_usr_register, arm_write_cpsr,
      if_true]
    rw [hrf _ 15 0 (by decide) (by decide)]
    decide

theorem arm_create_usr_pc_witness :
    UsrReadsLastWrite bankedRegisters ∧
    ∃ p, arm_create bankedRegisters true 99 [1, 2, 3, 4] = some p ∧
      bankedRegisters.read_usr_register p.reg 15 = 0 ∧
      arm_read_usr_register bankedRegisters p 15 = 4 :=
  ⟨bankedRegisters_usrReadsLastWrite,
   arm_create_usr_pc bankedRegisters bankedRegisters_usrReadsLastWrite 99 [1, 2, 3, 4]⟩

/-! ### Buffers and hexadecimal text -/

theorem poke_length (b : List Nat) (i : Nat) (s b1 : List Nat) (h : poke b i s = some b1) :
    b1.length = b.length := by
  unfold poke at h
  split at h
  · injection h with h
    subst h
    simp
    omega
  · exact absurd h (by simp)

theorem poke_append_at (pre rest t : List Nat) (pos : Nat) (hpos : pos = pre.length) :
    poke (pre ++ rest) pos t
      = if t.length ≤ rest.length then some (pre ++ t ++ rest.drop t.length) else none := by
  subst hpos
  unfold poke
  by_cases h : t.length ≤ rest.length
  · rw [if_pos h, if_pos (by simp; omega)]
    simp [List.take_append_eq_append_take, List.drop_append_eq_append_drop]
  · rw [if_neg h, if_neg (by simp; omega)]

theorem poke_beyond (b : List Nat) (pos : Nat) (t : List Nat) (h : b.length < pos + t.length) :
    poke b pos t = none := by
  unfold poke
  rw [if_neg (by omega)]

/-- Writing `s` and a NUL, then `t` over that NUL, is writing `s ++ t`. -/
theorem poke_poke (b : List Nat) (pos q : Nat) (s t : List Nat) (ht : t ≠ [])
    (hq : q = pos + s.length) :
    (poke b pos (s ++ [0])).bind (fun b1 => poke b1 q t) = poke b pos (s ++ t) := by
  subst hq
  obtain ⟨a, t1, rfl⟩ := List.exists_cons_of_ne_nil ht
  by_cases hp : pos ≤ b.length
  · obtain ⟨pre, rest, hb, hpre⟩ : ∃ pre rest, b = pre ++ rest ∧ pos = pre.length :=
      ⟨b.take pos, b.drop pos, (List.take_append_drop pos b).symm, by simp [hp]⟩
    subst hb
    rw [poke_append_at pre rest (s ++ [0]) pos hpre, poke_append_at pre rest (s ++ a :: t1) pos hpre]
    by_cases h1 : (s ++ [0]).length ≤ rest.length
    · rw [if_pos h1]
      simp only [Option.some_bind]
      have e : pre ++ (s ++ [0]) ++ List.drop (s ++ [0]).length rest
          = (pre ++ s) ++ (0 :: List.drop (s.length + 1) rest) := by simp
      rw [e, poke_append_at (pre ++ s) _ (a :: t1) _ (by simp [hpre])]
      simp only [List.length_cons, List.length_drop, List.length_append, List.drop_succ_cons,
        List.drop_drop, List.length_singleton] at h1 ⊢
      by_cases h2 : s.length + (t1.length + 1) ≤ rest.length
      · rw [if_pos h2, if_pos (by omega)]
        simp
        congr 1
        omega
      · rw [if_neg h2, if_neg (by omega)]
    · rw [if_neg h1, if_neg (by simp at h1 ⊢; omega)]
      rfl
  · rw [poke_beyond _ _ _ (by simp; omega), poke_beyond _ _ _ (by simp; omega)]
    rfl

theorem poke_poke_bind {α : Type} (b : List Nat) (pos q : Nat) (s t : List Nat) (ht : t ≠ [])
    (hq : q = pos + s.length) (F : List Nat → Option α) :
    (poke b pos (s ++ [0])).bind (fun b1 => (poke b1 q t).bind F)
      = (poke b pos (s ++ t)).bind F := by
  rw [← poke_poke b pos q s t ht hq, Option.bind_assoc]


theorem sprintf_02x_byte (v : Nat) (hv : v < 256) :
    sprintf_02x v = [hexDigitChar (v / 16), hexDigitChar (v % 16)] := by
  unfold sprintf_02x
  by_cases h : v < 16
  · have e1 : v / 16 = 0 := by omega
    have e2 : v % 16 = v := by omega
    simp [hexDigitsAux, h, e1, e2, hexDigitChar]
  · obtain ⟨w, rfl⟩ : ∃ w, v = w + 1 := ⟨v - 1, by omega⟩
    have h3 : (w + 1) / 16 < 16 := by omega
    simp [hexDigitsAux, h, h3]

theorem sprintf_02x_length (v : Nat) (hv : v < 256) : (sprintf_02x v).length = 2 := by
  rw [sprintf_02x_byte v hv]
  rfl

theorem union_byte_lt (host : Bool) (v i : Nat) : union_byte host v i < 256 := by
  unfold union_byte
  split <;> exact Nat.mod_lt _ (by decide)

/-- `write_uint32` stores the eight digits of the wire encoding and a NUL. -/
theorem write_uint32_eq (host target : Bool) (b : List Nat) (pos v : Nat) :
    write_uint32 host target b pos v = poke b pos (wire32 target v ++ [0]) := by
  have key : ∀ (x0 x1 x2 x3 : Nat), x0 < 256 → x1 < 256 → x2 < 256 → x3 < 256 →
      (poke b pos (sprintf_02x x0 ++ [0])).bind (fun b1 =>
        (poke b1 (pos + 2) (sprintf_02x x1 ++ [0])).bind (fun b2 =>
          (poke b2 (pos + 2 + 2) (sprintf_02x x2 ++ [0])).bind (fun b3 =>
            (poke b3 (pos + 2 + 2 + 2) (sprintf_02x x3 ++ [0])).bind (fun b4 =>
              poke b4 (pos + 2 + 2 + 2 + 2) [0]))))
      = poke b pos (sprintf_02x x0 ++ sprintf_02x x1 ++ sprintf_02x x2 ++ sprintf_02x x3 ++ [0]) := by
    intro x0 x1 x2 x3 h0 h1 h2 h3
    have e3 : ∀ b3, (poke b3 (pos + 2 + 2 + 2) (sprintf_02x x3 ++ [0])).bind (fun b4 =>
              poke b4 (pos + 2 + 2 + 2 + 2) [0]) = poke b3 (pos + 2 + 2 + 2) (sprintf_02x x3 ++ [0]) :=
      fun b3 => poke_poke b3 _ _ _ [0] (by simp) (by rw [sprintf_02x_length x3 h3])
    simp only [e3]
    have e2 : ∀ b2, (poke b2 (pos + 2 + 2) (sprintf_02x x2 ++ [0])).bind (fun b3 =>
              poke b3 (pos + 2 + 2 + 2) (sprintf_02x x3 ++ [0]))
              = poke b2 (pos + 2 + 2) (sprintf_02x x2 ++ (sprintf_02x x3 ++ [0])) :=
      fun b2 => poke_poke b2 _ _ _ _ (by simp) (by rw [sprintf_02x_length x2 h2])
    simp only [e2]
    have e1 : ∀ b1, (poke b1 (pos + 2) (sprintf_02x x1 ++ [0])).bind (fun b2 =>
              poke b2 (pos + 2 + 2) (sprintf_02x x2 ++ (sprintf_02x x3 ++ [0])))
              = poke b1 (pos + 2) (sprintf_02x x1 ++ (sprintf_02x x2 ++ (sprintf_02x x3 ++ [0]))) :=
      fun b1 => poke_poke b1 _ _ _ _ (by simp) (by rw [sprintf_02x_length x1 h1])
    simp only [e1]
    rw [poke_poke b pos (pos + 2) _ _ (by simp) (by rw [sprintf_02x_length x0 h0])]
    simp only [List.append_assoc]
  have m3 : (3 + (U32 - 1)) % U32 = 2 := by decide
  have m2 : (2 + (U32 - 1)) % U32 = 1 := by decide
  have m1 : (1 + (U32 - 1)) % U32 = 0 := by decide
  have m0 : (0 + (U32 - 1)) % U32 = U32 - 1 := by decide
  have mU : ¬ (U32 - 1 < 4 ∧ 0 ≤ U32 - 1) := by decide
  have n1 : (0 + 1) % U32 = 1 := by decide
  have n2 : (1 + 1) % U32 = 2 := by decide
  have n3 : (2 + 1) % U32 = 3 := by decide
  have n4 : (3 + 1) % U32 = 4 := by decide
  unfold write_uint32
  cases host <;> cases target <;>
    simp only [write_uint32_loop, m3, m2, m1, m0, mU, n1, n2, n3, n4, if_true, if_false,
      Option.bind_assoc, Option.some_bind, Bool.true_eq_false, Bool.false_eq_true,
      show (3 < 4 ∧ 0 ≤ 3) = True from by decide, show (2 < 4 ∧ 0 ≤ 2) = True from by decide,
      show (1 < 4 ∧ 0 ≤ 1) = True from by decide, show ((0:Nat) < 4 ∧ (0:Nat) ≤ 0) = True from by decide,
      show ((4:Nat) < 4 ∧ 0 ≤ 4) = False from by decide, mU] <;>
    rw [key _ _ _ _ (union_byte_lt _ _ _) (union_byte_lt _ _ _) (union_byte_lt _ _ _)
      (union_byte_lt _ _ _)] <;>
    simp [wire32, union_byte]

/-! ### Outbound framing -/

theorem gdb_send_buffer_loop_eq (P rest : List Nat) (hP : ∀ c ∈ P, c ≠ 0) (check i : Nat)
    (hc : check < 256) :
    gdb_send_buffer_loop (P ++ 0 :: rest) check i
      = some ((check + P.sum) % 256, i + P.length) := by
  induction P generalizing check i with
  | nil => simp [gdb_send_buffer_loop, Nat.mod_eq_of_lt hc]
  | cons a P ih =>
    have ha : a ≠ 0 := hP a (by simp)
    have hP1 : ∀ c ∈ P, c ≠ 0 := fun c hc => hP c (by simp [hc])
    have e : gdb_send_buffer_loop (a :: (P ++ 0 :: rest)) check i
        = gdb_send_buffer_loop (P ++ 0 :: rest) ((check + a) % 256) (i + 1) := by
      simp [gdb_send_buffer_loop, ha]
    rw [List.cons_append, e, ih hP1 _ _ (Nat.mod_lt _ (by decide))]
    simp only [List.sum_cons, List.length_cons, Option.some.injEq, Prod.mk.injEq]
    constructor <;> omega

/-- The result of `gdb_send_buffer` on a buffer holding the NUL-terminated
payload `P` at offset 1, `rest` being the bytes after the terminator. -/
theorem gdb_send_buffer_eq (gdb : gdb_protocol_data R M) (c0 : Nat) (P rest : List Nat)
    (hP : ∀ c ∈ P, c ≠ 0) (hb : gdb.packet = c0 :: (P ++ 0 :: rest)) :
    gdb_send_buffer gdb =
      if 3 ≤ rest.length then
        some { gdb with
          packet := 36 :: (P ++ 35 :: (sprintf_02x (P.sum % 256) ++ 0 :: rest.drop 3)),
          len := P.length + 4,
          written := gdb.written ++ 36 :: (P ++ 35 :: sprintf_02x (P.sum % 256)) }
      else none := by
  have hx : (sprintf_02x (P.sum % 256)).length = 2 :=
    sprintf_02x_length _ (Nat.mod_lt _ (by decide))
  unfold gdb_send_buffer
  rw [hb]
  have e0 : poke (c0 :: (P ++ 0 :: rest)) 0 [36] = some (36 :: (P ++ 0 :: rest)) := by
    have := poke_append_at [] (c0 :: (P ++ 0 :: rest)) [36] 0 rfl
    simpa using this
  rw [e0]
  simp only [Option.some_bind, List.drop_succ_cons, List.drop_zero]
  rw [gdb_send_buffer_loop_eq P rest hP 0 1 (by decide)]
  simp only [Option.some_bind, Nat.zero_add]
  have e1 : poke (36 :: (P ++ 0 :: rest)) (1 + P.length) [35] = some (36 :: (P ++ 35 :: rest)) := by
    have := poke_append_at (36 :: P) (0 :: rest) [35] (1 + P.length) (by simp; omega)
    simpa using this
  rw [e1]
  simp only [Option.some_bind]
  have e2 : poke (36 :: (P ++ 35 :: rest)) (1 + P.length + 1) (sprintf_02x (P.sum % 256) ++ [0])
      = if 3 ≤ rest.length then
          some (36 :: (P ++ 35 :: (sprintf_02x (P.sum % 256) ++ 0 :: rest.drop 3)))
        else none := by
    have := poke_append_at (36 :: (P ++ [35])) rest (sprintf_02x (P.sum % 256) ++ [0])
      (1 + P.length + 1) (by simp; omega)
    simpa [hx] using this
  rw [e2]
  by_cases h3 : 3 ≤ rest.length
  · rw [if_pos h3, if_pos h3]
    simp only [Option.some_bind]
    have e3 : poke (36 :: (P ++ 35 :: (sprintf_02x (P.sum % 256) ++ 0 :: rest.drop 3)))
        (1 + P.length + 3) [0]
        = some (36 :: (P ++ 35 :: (sprintf_02x (P.sum % 256) ++ 0 :: rest.drop 3))) := by
      have := poke_append_at (36 :: (P ++ 35 :: sprintf_02x (P.sum % 256))) (0 :: rest.drop 3) [0]
        (1 + P.length + 3) (by simp [hx]; omega)
      simpa using this
    rw [e3]
    simp only [Option.some_bind, gdb_transmit_packet]
    have hl : 1 + P.length + 3 ≤
        (36 :: (P ++ 35 :: (sprintf_02x (P.sum % 256) ++ 0 :: rest.drop 3))).length := by
      simp [hx]; omega
    rw [if_pos hl]
    have ht : List.take (1 + P.length + 3)
        (36 :: (P ++ 35 :: (sprintf_02x (P.sum % 256) ++ 0 :: rest.drop 3)))
        = 36 :: (P ++ 35 :: sprintf_02x (P.sum % 256)) := by
      have := List.take_left (36 :: (P ++ 35 :: sprintf_02x (P.sum % 256))) (0 :: rest.drop 3)
      have hlen : (36 :: (P ++ 35 :: sprintf_02x (P.sum % 256))).length = 1 + P.length + 3 := by
        simp [hx]; omega
      rw [hlen] at this
      simpa using this
    rw [ht]
    congr 2
    omega
  · rw [if_neg h3, if_neg h3]
    rfl

/-- A payload whose frame and closing NUL do not fit the packet buffer has no
defined transmission. -/
theorem gdb_send_buffer_overflow (gdb : gdb_protocol_data R M) (c0 : Nat) (P rest : List Nat)
    (hP : ∀ c ∈ P, c ≠ 0) (hb : gdb.packet = c0 :: (P ++ 0 :: rest))
    (hlen : gdb.packet.length = MAX_PACKET_SIZE) (hbig : MAX_PACKET_SIZE < P.length + 5) :
    gdb_send_buffer gdb = none := by
  rw [gdb_send_buffer_eq gdb c0 P rest hP hb, if_neg]
  rw [hb] at hlen
  simp only [List.length_cons, List.length_append] at hlen
  omega

/-- C5 (as stated, refuted): a payload of 1022 letters `a` is staged at offset 1
of the 1024-byte packet buffer, its NUL in the last byte, yet `gdb_send_buffer`
has no defined transmission: the checksum digits and the closing NUL fall at
indices 1024 to 1026, outside the buffer. -/
theorem gdb_send_buffer_1022_counterexample :
    (∀ c ∈ List.replicate 1022 97, c ≠ 0) ∧
    (sessionStaging (List.replicate 1022 97)).packet
      = 0 :: (List.replicate 1022 97 ++ 0 :: List.replicate 0 0) ∧
    (sessionStaging (List.replicate 1022 97)).packet.length = MAX_PACKET_SIZE ∧
    gdb_send_buffer (sessionStaging (List.replicate 1022 97)) = none := by
  have hP : ∀ c ∈ List.replicate 1022 97, c ≠ 0 := by
    intro c hc
    rw [List.eq_of_mem_replicate hc]
    decide
  have hb : (sessionStaging (List.replicate 1022 97)).packet
      = 0 :: (List.replicate 1022 97 ++ 0 :: List.replicate 0 0) := by
    simp only [sessionStaging, List.length_replicate, MAX_PACKET_SIZE]
  have hlen : (sessionStaging (List.replicate 1022 97)).packet.length = MAX_PACKET_SIZE := by
    simp only [sessionStaging, List.length_cons, List.length_append, List.length_replicate,
      MAX_PACKET_SIZE]
  exact ⟨hP, hb, hlen,
    gdb_send_buffer_overflow _ 0 _ _ hP hb hlen
      (by simp only [List.length_replicate, MAX_PACKET_SIZE]; decide)⟩

/-- C5 (amended): for every NUL-free payload P of at most 1019 bytes staged at
offset 1 of the 1024-byte packet buffer, `gdb_send_buffer` transmits exactly the
bytes `$`, P, `#`, cc, where cc is the sum of the bytes of P modulo 256 as two
lowercase hexadecimal digits, and sets the transmitted length to |P| + 4; the
payload "OK" is sent as "$OK#9a" and the empty payload as "$#00". -/
theorem gdb_send_buffer_frames (gdb : gdb_protocol_data R M) (c0 : Nat) (P rest : List Nat)
    (hP : ∀ c ∈ P, c ≠ 0) (hb : gdb.packet = c0 :: (P ++ 0 :: rest))
    (hlen : gdb.packet.length = MAX_PACKET_SIZE) (hfit : P.length ≤ 1019) :
    (∃ gdb1, gdb_send_buffer gdb = some gdb1 ∧
      gdb1.written = gdb.written ++ 36 :: (P ++ 35 :: sprintf_02x (P.sum % 256)) ∧
      gdb1.len = P.length + 4 ∧
      sprintf_02x (P.sum % 256)
        = [hexDigitChar (P.sum % 256 / 16), hexDigitChar (P.sum % 256 % 16)] ∧
      gdb1.arm = gdb.arm ∧ gdb1.target_exception = gdb.target_exception) ∧
    36 :: ([79, 75] ++ 35 :: sprintf_02x (([79, 75] : List Nat).sum % 256))
      = [36, 79, 75, 35, 57, 97] ∧
    36 :: ([] ++ 35 :: sprintf_02x (([] : List Nat).sum % 256)) = [36, 35, 48, 48] := by
  refine ⟨?_, by decide, by decide⟩
  have h3 : 3 ≤ rest.length := by
    rw [hb] at hlen
    simp only [List.length_cons, List.length_append, MAX_PACKET_SIZE] at hlen
    omega
  rw [gdb_send_buffer_eq gdb c0 P rest hP hb, if_pos h3]
  exact ⟨_, rfl, rfl, rfl, sprintf_02x_byte _ (Nat.mod_lt _ (by decide)), rfl, rfl⟩

theorem gdb_send_buffer_frames_witness :
    ∃ gdb1, gdb_send_buffer (sessionStaging [79, 75]) = some gdb1 ∧
      gdb1.written = [36, 79, 75, 35, 57, 97] ∧ gdb1.len = 6 := by
  have hb : (sessionStaging [79, 75]).packet
      = 0 :: ([79, 75] ++ 0 :: List.replicate 1020 0) := by
    simp only [sessionStaging, List.length_cons, List.length_nil, MAX_PACKET_SIZE]
  have hlen : (sessionStaging [79, 75]).packet.length = MAX_PACKET_SIZE := by
    simp only [sessionStaging, List.length_cons, List.length_append, List.length_replicate,
      List.length_nil, MAX_PACKET_SIZE]
  obtain ⟨⟨gdb1, h1, h2, h3, _⟩, _⟩ :=
    gdb_send_buffer_frames (sessionStaging [79, 75]) 0 [79, 75] (List.replicate 1020 0)
      (by decide) hb hlen (by decide)
  refine ⟨gdb1, h1, ?_, h3⟩
  rw [h2]
  decide

/-! ### Inbound text: C strings and `%x` -/

theorem c_string_eq (s tail : List Nat) (hs : ∀ c ∈ s, c ≠ 0) :
    c_string (s ++ 0 :: tail) = some s := by
  unfold c_string
  rw [if_pos (by simp)]
  congr 1
  induction s with
  | nil => simp
  | cons a s ih =>
    have ha : a ≠ 0 := hs a (by simp)
    have hs1 : ∀ c ∈ s, c ≠ 0 := fun c hc => hs c (by simp [hc])
    simp only [List.cons_append, List.takeWhile, ha, ne_eq, not_false_eq_true, decide_True,
      List.cons.injEq, true_and]
    exact ih hs1

theorem c_string_cons (a : Nat) (data : List Nat) (ha : a ≠ 0) :
    c_string (a :: data) = (c_string data).map (fun s => a :: s) := by
  unfold c_string
  by_cases h : 0 ∈ data
  · have h1 : 0 ∈ a :: data := by simp [h]
    rw [if_pos h, if_pos h1]
    simp [List.takeWhile, ha]
  · have h1 : ¬ 0 ∈ a :: data := by simp [h, Ne.symm ha]
    rw [if_neg h, if_neg h1]
    rfl

theorem isHexDigit_ne_zero (c : Nat) (h : isHexDigit c) : c ≠ 0 := by
  unfold isHexDigit at h
  omega

theorem hexDigitValue_lt (c : Nat) (h : isHexDigit c) : hexDigitValue c < 16 := by
  unfold isHexDigit at h
  unfold hexDigitValue
  split
  · omega
  · split <;> omega

theorem isHexDigit_hexDigitChar (d : Nat) (h : d < 16) : isHexDigit (hexDigitChar d) := by
  unfold isHexDigit hexDigitChar
  split <;> omega

theorem hexDigitValue_hexDigitChar (d : Nat) (h : d < 16) :
    hexDigitValue (hexDigitChar d) = d := by
  unfold hexDigitValue hexDigitChar
  by_cases h1 : d < 10
  · rw [if_pos h1, if_pos (by omega)]
    omega
  · rw [if_neg h1, if_neg (by omega), if_pos (by omega)]
    omega

/-- Two hexadecimal digits under a field width of 2 convert to their value. -/
theorem scan_x_pair (a b : Nat) (s : List Nat) (ha : isHexDigit a) (hb : isHexDigit b) :
    scan_x 2 (a :: b :: s) = some (some (16 * hexDigitValue a + hexDigitValue b, s)) := by
  have hva := hexDigitValue_lt a ha
  have hvb := hexDigitValue_lt b hb
  have ha1 : ¬ isSpace a := by
    unfold isHexDigit at ha
    unfold isSpace
    omega
  have ha2 : a ≠ 43 ∧ a ≠ 45 := by
    unfold isHexDigit at ha
    omega
  have hb1 : ¬ (a = 48 ∧ (b = 120 ∨ b = 88)) := by
    unfold isHexDigit at hb
    omega
  have hlt : (0 * 16 + hexDigitValue a) * 16 + hexDigitValue b < U32 := by
    unfold U32
    omega
  simp only [scan_x, dropSpaces, if_neg ha1, scanSign, if_neg ha2.1, if_neg ha2.2, scan0x,
    if_neg hb1, scanDigits, if_pos ha, if_pos hb, Nat.mod_eq_of_lt hlt]
  simp
  omega

theorem sscanf_x_pair (a b : Nat) (rest : List Nat) (old : Nat) (ha : isHexDigit a)
    (hb : isHexDigit b) (h0 : 0 ∈ rest) :
    sscanf_x (some 2) (a :: b :: rest) old = some (16 * hexDigitValue a + hexDigitValue b) := by
  unfold sscanf_x
  rw [c_string_cons a _ (isHexDigit_ne_zero a ha), c_string_cons b _ (isHexDigit_ne_zero b hb)]
  unfold c_string
  rw [if_pos h0]
  simp [scan_x_pair _ _ _ ha hb]

theorem sscanf_x_checksum (a b : Nat) (tail : List Nat) (old : Nat) (ha : isHexDigit a)
    (hb : isHexDigit b) :
    sscanf_x none (a :: b :: 0 :: tail) old = some (16 * hexDigitValue a + hexDigitValue b) := by
  unfold sscanf_x
  have e : c_string (a :: b :: 0 :: tail) = some [a, b] := by
    have := c_string_eq [a, b] tail (by
      intro c hc
      simp at hc
      rcases hc with rfl | rfl
      · exact isHexDigit_ne_zero _ ha
      · exact isHexDigit_ne_zero _ hb)
    simpa using this
  rw [e]
  simp [scan_x_pair _ _ _ ha hb]

theorem gdb_packet_analysis_loop_eq (P rest : List Nat) (check : Nat) (hc : check < 256) :
    gdb_packet_analysis_loop P.length (P ++ rest) check = some ((check + P.sum) % 256) := by
  induction P generalizing check with
  | nil => simp [gdb_packet_analysis_loop, Nat.mod_eq_of_lt hc]
  | cons a P ih =>
    have e : gdb_packet_analysis_loop (a :: P).length (a :: (P ++ rest)) check
        = gdb_packet_analysis_loop P.length (P ++ rest) ((check + a) % 256) := by
      simp [gdb_packet_analysis_loop]
    rw [List.cons_append, e, ih _ (Nat.mod_lt _ (by decide))]
    simp only [List.sum_cons, Option.some.injEq]
    omega

/-- What `gdb_packet_analysis` does with a packet `$payload#cc` held as a
NUL-terminated string. -/
theorem gdb_packet_analysis_eq (handler : Nat → Option (gdb_handler_t R M)) (junk : Nat)
    (gdb : gdb_protocol_data R M) (payload tail : List Nat) (c1 c2 : Nat)
    (h1 : isHexDigit c1) (h2 : isHexDigit c2) :
    gdb_packet_analysis handler junk gdb (36 :: (payload ++ 35 :: c1 :: c2 :: 0 :: tail))
        ((payload.length + 4 : Nat) : Int)
      = if payload.sum % 256 = 16 * hexDigitValue c1 + hexDigitValue c2 then
          gdb_dispatch handler (gdb_send_ack gdb)
            (36 :: (payload ++ 35 :: c1 :: c2 :: 0 :: tail)) (payload.length + 1)
        else some (gdb_require_retransmission gdb) := by
  have hn : (((payload.length + 4 : Nat) : Int) - 3 - 1).toNat = payload.length := by
    omega
  unfold gdb_packet_analysis
  simp only [hn, List.drop_succ_cons, List.drop_zero]
  rw [gdb_packet_analysis_loop_eq payload _ 0 (by decide)]
  have hd : List.drop (1 + payload.length) (payload ++ 35 :: c1 :: c2 :: 0 :: tail)
      = c1 :: c2 :: 0 :: tail := by
    have : 1 + payload.length = (payload ++ [35]).length := by simp; omega
    rw [this]
    have e : payload ++ 35 :: c1 :: c2 :: 0 :: tail
        = (payload ++ [35]) ++ (c1 :: c2 :: 0 :: tail) := by simp
    rw [e, List.drop_left]
  simp only [Option.some_bind, Nat.zero_add, hd, sscanf_x_checksum c1 c2 tail junk h1 h2]
  rw [Nat.add_comm 1 payload.length]

/-- The dispatch on a packet whose payload is `P`: the payload is terminated in
place. -/
theorem gdb_dispatch_eq (handler : Nat → Option (gdb_handler_t R M))
    (gdb : gdb_protocol_data R M) (P rest : List Nat) (c : Nat) :
    gdb_dispatch handler gdb (36 :: (P ++ c :: rest)) (P.length + 1)
      = match handler ((P ++ 0 :: rest).headD 0 % 256) with
        | some h => h gdb ((P ++ 0 :: rest).drop 1)
        | none => gdb_send_data gdb [] := by
  unfold gdb_dispatch
  have e : poke (36 :: (P ++ c :: rest)) (P.length + 1) [0] = some (36 :: (P ++ 0 :: rest)) := by
    have := poke_append_at (36 :: P) (c :: rest) [0] (P.length + 1) (by simp)
    simpa using this
  rw [e]
  cases P with
  | nil => simp
  | cons a P => simp

/-- C7: for every inbound packet `$payload#cc` with cc two hexadecimal digits,
handed over as a NUL-terminated string with its length, `gdb_packet_analysis`
writes exactly one `+` and dispatches if and only if the value of cc equals the
sum of the payload bytes modulo 256; otherwise it writes exactly one `-`, runs
no handler, sends no reply packet, and leaves the processor state, the memory
and the retained exception code unchanged. -/
theorem gdb_packet_analysis_checksum (handler : Nat → Option (gdb_handler_t R M)) (junk : Nat)
    (gdb : gdb_protocol_data R M) (payload tail : List Nat) (c1 c2 : Nat)
    (h1 : isHexDigit c1) (h2 : isHexDigit c2) :
    gdb_packet_analysis handler junk gdb (36 :: (payload ++ 35 :: c1 :: c2 :: 0 :: tail))
        ((payload.length + 4 : Nat) : Int)
      = if 16 * hexDigitValue c1 + hexDigitValue c2 = payload.sum % 256 then
          gdb_dispatch handler { gdb with written := gdb.written ++ [43] }
            (36 :: (payload ++ 35 :: c1 :: c2 :: 0 :: tail)) (payload.length + 1)
        else some { gdb with written := gdb.written ++ [45] } := by
  rw [gdb_packet_analysis_eq handler junk gdb payload tail c1 c2 h1 h2]
  by_cases h : payload.sum % 256 = 16 * hexDigitValue c1 + hexDigitValue c2
  · rw [if_pos h, if_pos h.symm]
    rfl
  · rw [if_neg h, if_neg (fun e => h e.symm)]
    rfl

theorem gdb_packet_analysis_checksum_witness :
    gdb_packet_analysis (fun _ => none) 0 (sessionStaging [])
        (36 :: ([103] ++ 35 :: 54 :: 55 :: 0 :: [])) ((([103] : List Nat).length + 4 : Nat) : Int)
      = gdb_dispatch (fun _ => none)
          { sessionStaging [] with written := (sessionStaging []).written ++ [43] }
          (36 :: ([103] ++ 35 :: 54 :: 55 :: 0 :: [])) (([103] : List Nat).length + 1) ∧
    gdb_packet_analysis (fun _ => none) 0 (sessionStaging [])
        (36 :: ([103] ++ 35 :: 54 :: 56 :: 0 :: [])) ((([103] : List Nat).length + 4 : Nat) : Int)
      = some { sessionStaging [] with written := (sessionStaging []).written ++ [45] } :=
  ⟨(gdb_packet_analysis_checksum (fun _ => none) 0 (sessionStaging []) [103] [] 54 55
      (by decide) (by decide)).trans (if_pos (by decide)),
   (gdb_packet_analysis_checksum (fun _ => none) 0 (sessionStaging []) [103] [] 54 56
      (by decide) (by decide)).trans (if_neg (by decide))⟩

/-- C6 (as stated, refuted): a payload of 1020 letters `a` is NUL-free and
staged at offset 1 of the 1024-byte packet buffer, yet `gdb_send_buffer` has no
defined result on it, hence no framed packet to hand to `gdb_packet_analysis`:
the closing NUL of the frame is written at index 1024, outside the buffer. -/
theorem framing_round_trip_1020_counterexample :
    (∀ c ∈ List.replicate 1020 97, c ≠ 0) ∧
    (sessionStaging (List.replicate 1020 97)).packet
      = 0 :: (List.replicate 1020 97 ++ 0 :: List.replicate 2 0) ∧
    (sessionStaging (List.replicate 1020 97)).packet.length = MAX_PACKET_SIZE ∧
    gdb_send_buffer (sessionStaging (List.replicate 1020 97)) = none ∧
    ¬ ∃ gdb1 frame, gdb_send_buffer (sessionStaging (List.replicate 1020 97)) = some gdb1 ∧
      gdb1.written = (sessionStaging (List.replicate 1020 97)).written ++ frame := by
  have hP : ∀ c ∈ List.replicate 1020 97, c ≠ 0 := by
    intro c hc
    rw [List.eq_of_mem_replicate hc]
    decide
  have hb : (sessionStaging (List.replicate 1020 97)).packet
      = 0 :: (List.replicate 1020 97 ++ 0 :: List.replicate 2 0) := by
    simp only [sessionStaging, List.length_replicate, MAX_PACKET_SIZE]
  have hlen : (sessionStaging (List.replicate 1020 97)).packet.length = MAX_PACKET_SIZE := by
    simp only [sessionStaging, List.length_cons, List.length_append, List.length_replicate,
      MAX_PACKET_SIZE]
  have hn : gdb_send_buffer (sessionStaging (List.replicate 1020 97)) = none :=
    gdb_send_buffer_overflow _ 0 _ _ hP hb hlen
      (by simp only [List.length_replicate, MAX_PACKET_SIZE]; decide)
  refine ⟨hP, hb, hlen, hn, ?_⟩
  rintro ⟨gdb1, frame, h, _⟩
  rw [hn] at h
  exact absurd h (by simp)

/-- C6 (amended): framing round trip.  For every NUL-free payload P of at most
1019 bytes staged at offset 1 of the 1024-byte packet buffer, `gdb_send_buffer`
produces a framed packet for P, and that packet, handed as a NUL-terminated
string with its length to `gdb_packet_analysis`, passes the checksum comparison
(a `+` is written, not a `-`) and is decoded to payload P: the string left at
`packet + 1` is P, the command byte dispatched on is the first byte of P and
the handler argument is the rest of P. -/
theorem framing_round_trip (handler : Nat → Option (gdb_handler_t R M)) (junk : Nat)
    (gdb session : gdb_protocol_data R M) (c0 : Nat) (P rest tail : List Nat)
    (hP : ∀ c ∈ P, c ≠ 0) (hb : gdb.packet = c0 :: (P ++ 0 :: rest))
    (hlen : gdb.packet.length = MAX_PACKET_SIZE) (hfit : P.length ≤ 1019) :
    ∃ gdb1 frame, gdb_send_buffer gdb = some gdb1 ∧
      gdb1.written = gdb.written ++ frame ∧ frame.length = gdb1.len ∧
      gdb_packet_analysis handler junk session (frame ++ 0 :: tail) (frame.length : Int)
        = (match handler
              ((P ++ 0 :: (sprintf_02x (P.sum % 256) ++ 0 :: tail)).headD 0 % 256) with
          | some h => h { session with written := session.written ++ [43] }
              ((P ++ 0 :: (sprintf_02x (P.sum % 256) ++ 0 :: tail)).drop 1)
          | none => gdb_send_data { session with written := session.written ++ [43] } []) ∧
      c_string (P ++ 0 :: (sprintf_02x (P.sum % 256) ++ 0 :: tail)) = some P ∧
      ∀ a P1, P = a :: P1 →
        (P ++ 0 :: (sprintf_02x (P.sum % 256) ++ 0 :: tail)).headD 0 = a ∧
        c_string ((P ++ 0 :: (sprintf_02x (P.sum % 256) ++ 0 :: tail)).drop 1) = some P1 := by
  have hx := sprintf_02x_byte (P.sum % 256) (Nat.mod_lt _ (by decide))
  have hd1 : P.sum % 256 / 16 < 16 := by omega
  have hd2 : P.sum % 256 % 16 < 16 := by omega
  have h3 : 3 ≤ rest.length := by
    rw [hb] at hlen
    simp only [List.length_cons, List.length_append, MAX_PACKET_SIZE] at hlen
    omega
  have hsend := gdb_send_buffer_eq gdb c0 P rest hP hb
  rw [if_pos h3] at hsend
  refine ⟨_, 36 :: (P ++ 35 :: sprintf_02x (P.sum % 256)), hsend, rfl, ?_, ?_,
    c_string_eq P _ hP, ?_⟩
  · simp [hx]
  · have hl : ((36 :: (P ++ 35 :: sprintf_02x (P.sum % 256))).length : Int)
        = ((P.length + 4 : Nat) : Int) := by
      simp [hx]
      omega
    have hf : 36 :: (P ++ 35 :: sprintf_02x (P.sum % 256)) ++ 0 :: tail
        = 36 :: (P ++ 35 :: hexDigitChar (P.sum % 256 / 16) ::
            hexDigitChar (P.sum % 256 % 16) :: 0 :: tail) := by
      simp [hx]
    rw [hl, hf, gdb_packet_analysis_eq handler junk session P tail _ _
      (isHexDigit_hexDigitChar _ hd1) (isHexDigit_hexDigitChar _ hd2),
      hexDigitValue_hexDigitChar _ hd1, hexDigitValue_hexDigitChar _ hd2,
      if_pos (by omega), gdb_dispatch_eq, hx]
    rfl
  · intro a P1 hP1
    subst hP1
    refine ⟨rfl, ?_⟩
    have := c_string_eq P1 (sprintf_02x ((a :: P1).sum % 256) ++ 0 :: tail)
      (fun c hc => hP c (by simp [hc]))
    simpa using this

theorem framing_round_trip_witness :
    (∀ c ∈ ([79, 75] : List Nat), c ≠ 0) ∧
    (sessionStaging [79, 75]).packet = 0 :: ([79, 75] ++ 0 :: List.replicate 1020 0) ∧
    (sessionStaging [79, 75]).packet.length = MAX_PACKET_SIZE ∧
    ([79, 75] : List Nat).length ≤ 1019 ∧
    ∃ gdb1 frame, gdb_send_buffer (sessionStaging [79, 75]) = some gdb1 ∧
      gdb1.written = (sessionStaging [79, 75]).written ++ frame ∧
      gdb_packet_analysis (fun _ => none) 0 (sessionStaging []) (frame ++ 0 :: [])
          (frame.length : Int)
        = (match (fun _ => none : Nat → Option (gdb_handler_t BankedRegs (List Nat)))
              (([79, 75] ++ 0 :: (sprintf_02x (([79, 75] : List Nat).sum % 256) ++ 0 :: [])).headD 0
                % 256) with
          | some h => h { sessionStaging [] with written := (sessionStaging []).written ++ [43] }
              (([79, 75] ++ 0 :: (sprintf_02x (([79, 75] : List Nat).sum % 256) ++ 0 :: [])).drop 1)
          | none => gdb_send_data
              { sessionStaging [] with written := (sessionStaging []).written ++ [43] } []) := by
  have hP : ∀ c ∈ ([79, 75] : List Nat), c ≠ 0 := by decide
  have hb : (sessionStaging [79, 75]).packet
      = 0 :: ([79, 75] ++ 0 :: List.replicate 1020 0) := by
    simp only [sessionStaging, List.length_cons, List.length_nil, MAX_PACKET_SIZE]
  have hlen : (sessionStaging [79, 75]).packet.length = MAX_PACKET_SIZE := by
    simp only [sessionStaging, List.length_cons, List.length_append, List.length_replicate,
      List.length_nil, MAX_PACKET_SIZE]
  obtain ⟨gdb1, frame, h0, h1, _, h3, _⟩ :=
    framing_round_trip (fun _ => none) 0 (sessionStaging [79, 75]) (sessionStaging []) 0
      [79, 75] (List.replicate 1020 0) [] hP hb hlen (by decide)
  exact ⟨hP, hb, hlen, by decide, gdb1, frame, h0, h1, h3⟩

/-! ### 32-bit values as hexadecimal text -/

/-- The value `read_uint32` returns on eight hexadecimal digits followed by a
string end somewhere: the four digit pairs are the bytes in target order. -/
theorem read_uint32_eq (host target : Bool) (junk : Nat) (d0 d1 d2 d3 d4 d5 d6 d7 : Nat)
    (tail : List Nat) (hd : ∀ c ∈ [d0, d1, d2, d3, d4, d5, d6, d7], isHexDigit c)
    (h0 : 0 ∈ tail) :
    read_uint32 host target junk (d0 :: d1 :: d2 :: d3 :: d4 :: d5 :: d6 :: d7 :: tail)
      = some (if target then
          (16 * hexDigitValue d6 + hexDigitValue d7)
            + 256 * (16 * hexDigitValue d4 + hexDigitValue d5)
            + 65536 * (16 * hexDigitValue d2 + hexDigitValue d3)
            + 16777216 * (16 * hexDigitValue d0 + hexDigitValue d1)
        else
          (16 * hexDigitValue d0 + hexDigitValue d1)
            + 256 * (16 * hexDigitValue d2 + hexDigitValue d3)
            + 65536 * (16 * hexDigitValue d4 + hexDigitValue d5)
            + 16777216 * (16 * hexDigitValue d6 + hexDigitValue d7)) := by
  have g0 : isHexDigit d0 := hd d0 (by simp)
  have g1 : isHexDigit d1 := hd d1 (by simp)
  have g2 : isHexDigit d2 := hd d2 (by simp)
  have g3 : isHexDigit d3 := hd d3 (by simp)
  have g4 : isHexDigit d4 := hd d4 (by simp)
  have g5 : isHexDigit d5 := hd d5 (by simp)
  have g6 : isHexDigit d6 := hd d6 (by simp)
  have g7 : isHexDigit d7 := hd d7 (by simp)
  have v0 := hexDigitValue_lt d0 g0
  have v1 := hexDigitValue_lt d1 g1
  have v2 := hexDigitValue_lt d2 g2
  have v3 := hexDigitValue_lt d3 g3
  have v4 := hexDigitValue_lt d4 g4
  have v5 := hexDigitValue_lt d5 g5
  have v6 := hexDigitValue_lt d6 g6
  have v7 := hexDigitValue_lt d7 g7
  have e0 : ∀ old, sscanf_x (some 2) (d0 :: d1 :: d2 :: d3 :: d4 :: d5 :: d6 :: d7 :: tail) old
      = some (16 * hexDigitValue d0 + hexDigitValue d1) :=
    fun old => sscanf_x_pair d0 d1 _ old g0 g1 (by simp [h0])
  have e1 : ∀ old, sscanf_x (some 2) (d2 :: d3 :: d4 :: d5 :: d6 :: d7 :: tail) old
      = some (16 * hexDigitValue d2 + hexDigitValue d3) :=
    fun old => sscanf_x_pair d2 d3 _ old g2 g3 (by simp [h0])
  have e2 : ∀ old, sscanf_x (some 2) (d4 :: d5 :: d6 :: d7 :: tail) old
      = some (16 * hexDigitValue d4 + hexDigitValue d5) :=
    fun old => sscanf_x_pair d4 d5 _ old g4 g5 (by simp [h0])
  have e3 : ∀ old, sscanf_x (some 2) (d6 :: d7 :: tail) old
      = some (16 * hexDigitValue d6 + hexDigitValue d7) :=
    fun old => sscanf_x_pair d6 d7 _ old g6 g7 h0
  have m3 : (3 + (U32 - 1)) % U32 = 2 := by decide
  have m2 : (2 + (U32 - 1)) % U32 = 1 := by decide
  have m1 : (1 + (U32 - 1)) % U32 = 0 := by decide
  have m0 : (0 + (U32 - 1)) % U32 = U32 - 1 := by decide
  have mU : ¬ (U32 - 1 < 4 ∧ 0 ≤ U32 - 1) := by decide
  have n1 : (0 + 1) % U32 = 1 := by decide
  have n2 : (1 + 1) % U32 = 2 := by decide
  have n3 : (2 + 1) % U32 = 3 := by decide
  have n4 : (3 + 1) % U32 = 4 := by decide
  have p0 : (16 * hexDigitValue d0 + hexDigitValue d1) % 256
      = 16 * hexDigitValue d0 + hexDigitValue d1 := by omega
  have p1 : (16 * hexDigitValue d2 + hexDigitValue d3) % 256
      = 16 * hexDigitValue d2 + hexDigitValue d3 := by omega
  have p2 : (16 * hexDigitValue d4 + hexDigitValue d5) % 256
      = 16 * hexDigitValue d4 + hexDigitValue d5 := by omega
  have p3 : (16 * hexDigitValue d6 + hexDigitValue d7) % 256
      = 16 * hexDigitValue d6 + hexDigitValue d7 := by omega
  unfold read_uint32
  cases host <;> cases target <;>
    simp only [read_uint32_loop, m3, m2, m1, m0, mU, n1, n2, n3, n4, if_true, if_false,
      Option.some_bind, Bool.true_eq_false, Bool.false_eq_true, e0, e1, e2, e3,
      List.drop_succ_cons, List.drop_zero, p0, p1, p2, p3,
      show (3 < 4 ∧ 0 ≤ 3) = True from by decide, show (2 < 4 ∧ 0 ≤ 2) = True from by decide,
      show (1 < 4 ∧ 0 ≤ 1) = True from by decide,
      show ((0:Nat) < 4 ∧ (0:Nat) ≤ 0) = True from by decide,
      show ((4:Nat) < 4 ∧ 0 ≤ 4) = False from by decide] <;>
    simp [union_integer, List.replicate]


theorem wire32_digits (target : Bool) (V : Nat) :
    wire32 target V =
      if target then
        [hexDigitChar (V / 16777216 % 256 / 16), hexDigitChar (V / 16777216 % 256 % 16),
         hexDigitChar (V / 65536 % 256 / 16), hexDigitChar (V / 65536 % 256 % 16),
         hexDigitChar (V / 256 % 256 / 16), hexDigitChar (V / 256 % 256 % 16),
         hexDigitChar (V % 256 / 16), hexDigitChar (V % 256 % 16)]
      else
        [hexDigitChar (V % 256 / 16), hexDigitChar (V % 256 % 16),
         hexDigitChar (V / 256 % 256 / 16), hexDigitChar (V / 256 % 256 % 16),
         hexDigitChar (V / 65536 % 256 / 16), hexDigitChar (V / 65536 % 256 % 16),
         hexDigitChar (V / 16777216 % 256 / 16), hexDigitChar (V / 16777216 % 256 % 16)] := by
  have h : ∀ x, sprintf_02x (x % 256) = [hexDigitChar (x % 256 / 16), hexDigitChar (x % 256 % 16)] :=
    fun x => sprintf_02x_byte _ (Nat.mod_lt _ (by decide))
  unfold wire32
  cases target <;> simp [h]

theorem wire32_length (target : Bool) (V : Nat) : (wire32 target V).length = 8 := by
  rw [wire32_digits]
  cases target <;> rfl

theorem wire32_isHexDigit (target : Bool) (V : Nat) : ∀ c ∈ wire32 target V, isHexDigit c := by
  have h : ∀ x, isHexDigit (hexDigitChar (x % 256 / 16)) ∧ isHexDigit (hexDigitChar (x % 256 % 16)) :=
    fun x => ⟨isHexDigit_hexDigitChar _ (by omega), isHexDigit_hexDigitChar _ (by omega)⟩
  intro c hc
  rw [wire32_digits] at hc
  cases target <;> simp at hc <;>
    rcases hc with rfl | rfl | rfl | rfl | rfl | rfl | rfl | rfl <;>
    first | exact (h _).1 | exact (h _).2

/-- Reading back the wire encoding of a 32-bit value. -/
theorem read_uint32_wire32 (host target : Bool) (junk V : Nat) (hV : V < U32) (tail : List Nat)
    (h0 : 0 ∈ tail) :
    read_uint32 host target junk (wire32 target V ++ tail) = some V := by
  have hh := wire32_isHexDigit target V
  have hv : ∀ x, 16 * hexDigitValue (hexDigitChar (x % 256 / 16))
      + hexDigitValue (hexDigitChar (x % 256 % 16)) = x % 256 := by
    intro x
    rw [hexDigitValue_hexDigitChar _ (by omega), hexDigitValue_hexDigitChar _ (by omega)]
    omega
  rw [wire32_digits] at hh ⊢
  cases target
  · simp only [Bool.false_eq_true, if_false] at hh ⊢
    rw [List.cons_append, List.cons_append, List.cons_append, List.cons_append, List.cons_append,
      List.cons_append, List.cons_append, List.cons_append, List.nil_append,
      read_uint32_eq host false junk _ _ _ _ _ _ _ _ tail hh h0]
    simp only [Bool.false_eq_true, if_false, hv, Option.some.injEq]
    unfold U32 at hV
    omega
  · simp only [if_true] at hh ⊢
    rw [List.cons_append, List.cons_append, List.cons_append, List.cons_append, List.cons_append,
      List.cons_append, List.cons_append, List.cons_append, List.nil_append,
      read_uint32_eq host true junk _ _ _ _ _ _ _ _ tail hh h0]
    simp only [if_true, hv, Option.some.injEq]
    unfold U32 at hV
    omega

/-- The array after a write that fits, seen from the position written. -/
theorem poke_drop (b : List Nat) (pos : Nat) (t : List Nat) (h : pos + t.length ≤ b.length) :
    ∃ b1, poke b pos t = some b1 ∧ b1.drop pos = t ++ b.drop (pos + t.length) ∧
      b1.take pos = b.take pos ∧ b1.length = b.length := by
  obtain ⟨pre, rest, rfl, hpre⟩ : ∃ pre rest, b = pre ++ rest ∧ pos = pre.length :=
    ⟨b.take pos, b.drop pos, (List.take_append_drop pos b).symm, by simp; omega⟩
  subst hpre
  have e := poke_append_at pre rest t pre.length rfl
  rw [if_pos (by simp at h; omega)] at e
  refine ⟨_, e, ?_, ?_, poke_length _ _ _ _ e⟩
  · rw [List.append_assoc, List.drop_left, ← List.drop_drop, List.drop_left]
  · rw [List.append_assoc, List.take_left, List.take_left]

/-- C8: for every 32-bit value V and for either host endianness (and either
target endianness), `write_uint32(buf, V)` into a buffer with room for the nine
bytes written, followed by `read_uint32(buf)`, returns V. -/
theorem write_then_read_uint32 (host target : Bool) (junk : Nat) (b : List Nat) (pos V : Nat)
    (hV : V < U32) (hroom : pos + 9 ≤ b.length) :
    ∃ b1, write_uint32 host target b pos V = some b1 ∧
      read_uint32 host target junk (b1.drop pos) = some V := by
  have hl : (wire32 target V ++ [0]).length = 9 := by simp [wire32_length]
  obtain ⟨b1, h1, h2, _, _⟩ := poke_drop b pos (wire32 target V ++ [0]) (by rw [hl]; exact hroom)
  refine ⟨b1, by rw [write_uint32_eq, h1], ?_⟩
  rw [h2, List.append_assoc]
  exact read_uint32_wire32 host target junk V hV _ (by simp)

theorem write_then_read_uint32_witness :
    ∃ b1, write_uint32 true false (List.replicate 9 7) 0 0x1d3 = some b1 ∧
      read_uint32 true false 5 (b1.drop 0) = some 0x1d3 :=
  write_then_read_uint32 true false 5 (List.replicate 9 7) 0 0x1d3 (by decide) (by decide)

/-- C9: in the default build (little-endian target), for every 32-bit V and
for a little-endian as for a big-endian host, `write_uint32` stores exactly
eight lowercase hexadecimal digits followed by NUL that spell the four bytes of
V least significant byte first (0x000001d3 gives "d3010000"), and `read_uint32`
of eight hexadecimal digits returns the value whose bytes, least significant
first, are the four digit pairs. -/
theorem wire_encoding_host_independent (host : Bool) (junk : Nat) (b : List Nat) (pos V : Nat)
    (d0 d1 d2 d3 d4 d5 d6 d7 : Nat) (tail : List Nat)
    (hd : ∀ c ∈ [d0, d1, d2, d3, d4, d5, d6, d7], isHexDigit c) (h0 : 0 ∈ tail) :
    write_uint32 host false b pos V
      = poke b pos
          ([hexDigitChar (V % 256 / 16), hexDigitChar (V % 256 % 16),
            hexDigitChar (V / 256 % 256 / 16), hexDigitChar (V / 256 % 256 % 16),
            hexDigitChar (V / 65536 % 256 / 16), hexDigitChar (V / 65536 % 256 % 16),
            hexDigitChar (V / 16777216 % 256 / 16), hexDigitChar (V / 16777216 % 256 % 16)]
            ++ [0]) ∧
    (∀ n, n < 16 → (48 ≤ hexDigitChar n ∧ hexDigitChar n ≤ 57) ∨
      (97 ≤ hexDigitChar n ∧ hexDigitChar n ≤ 102)) ∧
    write_uint32 host false b pos 0x1d3 = poke b pos [100, 51, 48, 49, 48, 48, 48, 48, 0] ∧
    read_uint32 host false junk (d0 :: d1 :: d2 :: d3 :: d4 :: d5 :: d6 :: d7 :: tail)
      = some ((16 * hexDigitValue d0 + hexDigitValue d1)
          + 256 * (16 * hexDigitValue d2 + hexDigitValue d3)
          + 65536 * (16 * hexDigitValue d4 + hexDigitValue d5)
          + 16777216 * (16 * hexDigitValue d6 + hexDigitValue d7)) := by
  refine ⟨?_, ?_, ?_, ?_⟩
  · rw [write_uint32_eq, wire32_digits]
    rfl
  · intro n hn
    unfold hexDigitChar
    split <;> omega
  · rw [write_uint32_eq, wire32_digits]
    rfl
  · rw [read_uint32_eq host false junk d0 d1 d2 d3 d4 d5 d6 d7 tail hd h0]
    rfl

theorem wire_encoding_host_independent_witness :
    write_uint32 true false (List.replicate 9 7) 0 0x1d3
      = poke (List.replicate 9 7) 0 [100, 51, 48, 49, 48, 48, 48, 48, 0] ∧
    read_uint32 true false 5 [100, 51, 48, 49, 48, 48, 48, 48, 0] = some 0x1d3 ∧
    read_uint32 false false 5 [100, 51, 48, 49, 48, 48, 48, 48, 0] = some 0x1d3 :=
  ⟨(wire_encoding_host_independent true 5 (List.replicate 9 7) 0 0x1d3 100 51 48 49 48 48 48 48
      [0] (by decide) (by decide)).2.2.1,
   (wire_encoding_host_independent true 5 (List.replicate 9 7) 0 0x1d3 100 51 48 49 48 48 48 48
      [0] (by decide) (by decide)).2.2.2,
   (wire_encoding_host_independent false 5 (List.replicate 9 7) 0 0x1d3 100 51 48 49 48 48 48 48
      [0] (by decide) (by decide)).2.2.2⟩

/-! ### The `g` reply -/

theorem append_ne_nil_right (a t : List Nat) (h : t ≠ []) : a ++ t ≠ [] := by
  intro e
  exact h (List.append_eq_nil.mp e).2

theorem append_nul_ne_nil (a : List Nat) : a ++ [0] ≠ [] :=
  append_ne_nil_right a [0] (List.cons_ne_nil 0 [])

theorem registerFields_length (rf : Registers R) (target : Bool) (arm : arm_core_data R M)
    (n i : Nat) : (registerFields rf target arm n i).length = 8 * n := by
  induction n generalizing i with
  | zero => rfl
  | succ n ih =>
    simp only [registerFields, List.length_append, wire32_length, ih]
    omega

theorem read_general_registers_loop_bind {α : Type} (rf : Registers R) (host target : Bool)
    (arm : arm_core_data R M) (n i : Nat) (b : List Nat) (pos : Nat) (t : List Nat)
    (ht : t ≠ []) (F : List Nat → Option α) :
    (read_general_registers_loop rf host target arm n i b pos).bind
        (fun r => (poke r.1 r.2 t).bind F)
      = (poke b pos (registerFields rf target arm n i ++ t)).bind F := by
  induction n generalizing i b pos with
  | zero => simp [read_general_registers_loop, registerFields]
  | succ n ih =>
    simp only [read_general_registers_loop, registerFields, write_uint32_eq, Option.bind_assoc]
    have e : ∀ b1, (read_general_registers_loop rf host target arm n (i + 1) b1 (pos + 8)).bind
        (fun r => (poke r.1 r.2 t).bind F)
        = (poke b1 (pos + 8) (registerFields rf target arm n (i + 1) ++ t)).bind F :=
      fun b1 => ih (i + 1) b1 (pos + 8)
    simp only [e]
    rw [poke_poke_bind b pos (pos + 8) _ _ (by simp [ht]) (by rw [wire32_length]) F,
      List.append_assoc]

theorem sprintf_x8_loop_bind {α : Type} (n : Nat) (b : List Nat) (pos : Nat) (t : List Nat)
    (ht : t ≠ []) (F : List Nat → Option α) :
    (sprintf_x8_loop n b pos).bind (fun r => (poke r.1 r.2 t).bind F)
      = (poke b pos (List.replicate (8 * n) 120 ++ t)).bind F := by
  induction n generalizing b pos with
  | zero => simp [sprintf_x8_loop]
  | succ n ih =>
    simp only [sprintf_x8_loop, Option.bind_assoc]
    have e : ∀ b1, (sprintf_x8_loop n b1 (pos + 8)).bind (fun r => (poke r.1 r.2 t).bind F)
        = (poke b1 (pos + 8) (List.replicate (8 * n) 120 ++ t)).bind F :=
      fun b1 => ih b1 (pos + 8)
    simp only [e]
    rw [poke_poke_bind b pos (pos + 8) _ _ (by simp [ht]) (by simp) F, ← List.append_assoc,
      ← List.replicate_add]
    congr 4
    omega

theorem read_general_registers_fp_bind {α : Type} (n : Nat) (b : List Nat) (pos : Nat)
    (t : List Nat) (ht : t ≠ []) (F : List Nat → Option α) :
    (read_general_registers_fp n b pos).bind (fun r => (poke r.1 r.2 t).bind F)
      = (poke b pos (List.replicate (8 * (3 * n)) 120 ++ t)).bind F := by
  induction n generalizing b pos with
  | zero => simp [read_general_registers_fp]
  | succ n ih =>
    simp only [read_general_registers_fp, Option.bind_assoc]
    have e : ∀ r : List Nat × Nat, (read_general_registers_fp n r.1 r.2).bind
          (fun r => (poke r.1 r.2 t).bind F)
        = (poke r.1 r.2 (List.replicate (8 * (3 * n)) 120 ++ t)).bind F :=
      fun r => ih r.1 r.2
    simp only [e]
    rw [sprintf_x8_loop_bind 3 b pos _ (by simp [ht]) F, ← List.append_assoc,
      ← List.replicate_add]
    congr 4
    omega

/-- The `g` handler stages `general_registers_text` and a NUL at `buffer`, then
sends the buffer. -/
theorem read_general_registers_stage (rf : Registers R) (host target : Bool)
    (gdb : gdb_protocol_data R M) (data : List Nat) :
    read_general_registers rf host target gdb data
      = (poke gdb.packet 1 (general_registers_text rf target gdb.arm ++ [0])).bind
          (fun b => gdb_send_buffer { gdb with packet := b }) := by
  unfold read_general_registers general_registers_text
  simp only [write_uint32_eq]
  have e4 : ∀ r3 : List Nat × Nat, (sprintf_x8_loop 1 r3.1 r3.2).bind (fun r4 =>
        (poke r4.1 r4.2 (wire32 target (arm_read_cpsr rf gdb.arm) ++ [0])).bind
          (fun b5 => gdb_send_buffer { gdb with packet := b5 }))
      = (poke r3.1 r3.2 (List.replicate (8 * 1) 120
          ++ (wire32 target (arm_read_cpsr rf gdb.arm) ++ [0]))).bind
          (fun b5 => gdb_send_buffer { gdb with packet := b5 }) :=
    fun r3 => sprintf_x8_loop_bind 1 r3.1 r3.2 _ (append_nul_ne_nil _) _
  simp only [e4]
  have e3 : ∀ (b2 : List Nat) (q : Nat), (read_general_registers_fp 8 b2 q).bind (fun r3 =>
        (poke r3.1 r3.2 (List.replicate (8 * 1) 120
          ++ (wire32 target (arm_read_cpsr rf gdb.arm) ++ [0]))).bind
          (fun b5 => gdb_send_buffer { gdb with packet := b5 }))
      = (poke b2 q (List.replicate (8 * (3 * 8)) 120 ++ (List.replicate (8 * 1) 120
          ++ (wire32 target (arm_read_cpsr rf gdb.arm) ++ [0])))).bind
          (fun b5 => gdb_send_buffer { gdb with packet := b5 }) :=
    fun b2 q => read_general_registers_fp_bind 8 b2 q _
      (append_ne_nil_right _ _ (append_nul_ne_nil _)) _
  simp only [e3]
  have e2 : ∀ r1 : List Nat × Nat,
      (poke r1.1 r1.2 (wire32 target ((arm_read_register rf gdb.arm 15 + U32 - 4) % U32)
          ++ [0])).bind (fun b2 =>
        (poke b2 (r1.2 + 8) (List.replicate (8 * (3 * 8)) 120 ++ (List.replicate (8 * 1) 120
          ++ (wire32 target (arm_read_cpsr rf gdb.arm) ++ [0])))).bind
          (fun b5 => gdb_send_buffer { gdb with packet := b5 }))
      = (poke r1.1 r1.2 (wire32 target ((arm_read_register rf gdb.arm 15 + U32 - 4) % U32)
          ++ (List.replicate (8 * (3 * 8)) 120 ++ (List.replicate (8 * 1) 120
          ++ (wire32 target (arm_read_cpsr rf gdb.arm) ++ [0]))))).bind
          (fun b5 => gdb_send_buffer { gdb with packet := b5 }) :=
    fun r1 => poke_poke_bind r1.1 r1.2 (r1.2 + 8) _ _
      (append_ne_nil_right _ _ (append_ne_nil_right _ _ (append_nul_ne_nil _)))
      (by rw [wire32_length]) _
  simp only [e2]
  rw [read_general_registers_loop_bind rf host target gdb.arm 15 0 gdb.packet 1 _
    (append_ne_nil_right _ _ (append_ne_nil_right _ _ (append_ne_nil_right _ _
      (append_nul_ne_nil _)))) _]
  simp only [List.append_assoc]

theorem wire32_ne_zero (target : Bool) (V : Nat) : ∀ c ∈ wire32 target V, c ≠ 0 :=
  fun c hc => isHexDigit_ne_zero c (wire32_isHexDigit target V c hc)

theorem registerFields_ne_zero (rf : Registers R) (target : Bool) (arm : arm_core_data R M)
    (n i : Nat) : ∀ c ∈ registerFields rf target arm n i, c ≠ 0 := by
  induction n generalizing i with
  | zero =>
    intro c hc
    simp [registerFields] at hc
  | succ n ih =>
    intro c hc
    simp only [registerFields, List.mem_append] at hc
    rcases hc with h | h
    · exact wire32_ne_zero _ _ c h
    · exact ih (i + 1) c h

theorem general_registers_text_ne_zero (rf : Registers R) (target : Bool)
    (arm : arm_core_data R M) : ∀ c ∈ general_registers_text rf target arm, c ≠ 0 := by
  intro c hc
  simp only [general_registers_text, List.mem_append, List.mem_replicate] at hc
  rcases hc with h | h | h | h | h
  · exact registerFields_ne_zero _ _ _ _ _ c h
  · exact wire32_ne_zero _ _ c h
  · rw [h.2]
    decide
  · rw [h.2]
    decide
  · exact wire32_ne_zero _ _ c h

theorem general_registers_text_length (rf : Registers R) (target : Bool)
    (arm : arm_core_data R M) : (general_registers_text rf target arm).length = 336 := by
  simp only [general_registers_text, List.length_append, registerFields_length, wire32_length,
    List.length_replicate]

/-- The reply of the `g` handler on a session whose packet buffer has
`MAX_PACKET_SIZE` bytes. -/
theorem read_general_registers_eq (rf : Registers R) (host target : Bool)
    (gdb : gdb_protocol_data R M) (data : List Nat)
    (hlen : gdb.packet.length = MAX_PACKET_SIZE) :
    ∃ gdb1, read_general_registers rf host target gdb data = some gdb1 ∧
      gdb1.written = gdb.written ++ 36 :: (general_registers_text rf target gdb.arm ++
        35 :: sprintf_02x ((general_registers_text rf target gdb.arm).sum % 256)) ∧
      gdb1.len = 340 ∧ gdb1.arm = gdb.arm ∧ gdb1.target_exception = gdb.target_exception ∧
      gdb1.shut_wr = gdb.shut_wr := by
  have hT := general_registers_text_length rf target gdb.arm
  obtain ⟨b1, h1, h2, h3, h4⟩ := poke_drop gdb.packet 1
    (general_registers_text rf target gdb.arm ++ [0])
    (by rw [hlen, List.length_append, hT]; decide)
  obtain ⟨c0, hc0⟩ : ∃ c0, b1.take 1 = [c0] := by
    have hl : 0 < b1.length := by rw [h4, hlen]; decide
    obtain ⟨c0, r, rfl⟩ := List.exists_cons_of_length_pos hl
    exact ⟨c0, rfl⟩
  have hb1 : b1 = c0 :: (general_registers_text rf target gdb.arm ++
      0 :: gdb.packet.drop (1 + (general_registers_text rf target gdb.arm ++ [0]).length)) := by
    rw [← List.take_append_drop 1 b1, hc0, h2]
    simp
  have hrest : 3 ≤ (gdb.packet.drop
      (1 + (general_registers_text rf target gdb.arm ++ [0]).length)).length := by
    rw [List.length_drop, hlen, List.length_append, hT]
    decide
  rw [read_general_registers_stage, h1, Option.some_bind,
    gdb_send_buffer_eq { gdb with packet := b1 } c0 _ _
      (general_registers_text_ne_zero rf target gdb.arm) hb1, if_pos hrest]
  exact ⟨_, rfl, rfl, by simp [hT], rfl, rfl, rfl⟩

/-- The staged text with its sixteen register fields written out. -/
theorem general_registers_text_fields (rf : Registers R) (target : Bool)
    (arm : arm_core_data R M) :
    general_registers_text rf target arm =
      wire32 target (rf.read_register arm.reg 0) ++ wire32 target (rf.read_register arm.reg 1) ++
      wire32 target (rf.read_register arm.reg 2) ++ wire32 target (rf.read_register arm.reg 3) ++
      wire32 target (rf.read_register arm.reg 4) ++ wire32 target (rf.read_register arm.reg 5) ++
      wire32 target (rf.read_register arm.reg 6) ++ wire32 target (rf.read_register arm.reg 7) ++
      wire32 target (rf.read_register arm.reg 8) ++ wire32 target (rf.read_register arm.reg 9) ++
      wire32 target (rf.read_register arm.reg 10) ++
      wire32 target (rf.read_register arm.reg 11) ++
      wire32 target (rf.read_register arm.reg 12) ++
      wire32 target (rf.read_register arm.reg 13) ++
      wire32 target (rf.read_register arm.reg 14) ++
      wire32 target
        (((((rf.read_register arm.reg 15 + 4) % U32) &&& 0xFFFFFFFD) + U32 - 4) % U32) ++
      List.replicate (8 * 24) 120 ++ List.replicate 8 120 ++
      wire32 target (rf.read_cpsr arm.reg) := by
  simp only [general_registers_text, registerFields, arm_read_register, arm_read_cpsr,
    List.append_assoc, List.nil_append, Nat.zero_add, Nat.reduceAdd, Nat.reduceEqDiff,
    if_false, if_true, Nat.reduceMul]

/-- The core `arm_create` returns. -/
theorem arm_create_eq (rf : Registers R) (junk : Nat) (mem : M) :
    arm_create rf true junk mem
      = some { cycle_count := 0,
               reg := rf.write_usr_register (rf.write_cpsr rf.registers_create 0x1d3) 15 0,
               mem := mem } := by
  have e : (0x1d3 ||| Exception_bit_9 : Nat) = 0x1d3 := by decide
  simp only [arm_create, arm_exception, arm_write_usr_register, arm_write_cpsr, if_true, e]

/-- C10 (as stated, refuted): with stored PC 2 in the register file, the R15
field of the `g` reply (characters 120 to 127 of the payload) is "00000000", not
the encoding "02000000" of the stored PC. -/
theorem read_general_registers_pc2_counterexample :
    ∃ gdb1 head tail,
      read_general_registers bankedRegisters false false (sessionOver (coreWithPc 2)) []
        = some gdb1 ∧
      gdb1.written = 36 :: (head ++ [48, 48, 48, 48, 48, 48, 48, 48] ++ tail) ∧
      head.length = 120 ∧
      bankedRegisters.read_register (coreWithPc 2).reg 15 = 2 ∧
      wire32 false 2 = [48, 50, 48, 48, 48, 48, 48, 48] ∧
      ([48, 48, 48, 48, 48, 48, 48, 48] : List Nat) ≠ wire32 false 2 := by
  obtain ⟨gdb1, h1, h2, _⟩ := read_general_registers_eq bankedRegisters false false
    (sessionOver (coreWithPc 2)) []
    (by simp only [sessionOver, gdb_init_data, List.length_map, List.length_range])
  refine ⟨gdb1, registerFields bankedRegisters false (coreWithPc 2) 15 0,
    List.replicate (8 * (3 * 8)) 120 ++ (List.replicate (8 * 1) 120 ++
      wire32 false (arm_read_cpsr bankedRegisters (coreWithPc 2))) ++
      35 :: sprintf_02x ((general_registers_text bankedRegisters false
        (sessionOver (coreWithPc 2)).arm).sum % 256),
    h1, ?_, registerFields_length _ _ _ _ _, by decide, by decide, by decide⟩
  rw [h2]
  have e : wire32 false ((arm_read_register bankedRegisters (coreWithPc 2) 15 + U32 - 4) % U32)
      = [48, 48, 48, 48, 48, 48, 48, 48] := by decide
  simp only [general_registers_text, sessionOver, gdb_init_data, e, List.nil_append,
    List.append_assoc, List.cons_append]

/-- C10 (amended): for every core state, the reply payload of the `g` command is
exactly 336 characters: sixteen 8-digit hexadecimal fields, the first fifteen
encoding R0..R14 of the current mode and the sixteenth encoding
((stored PC + 4) & 0xFFFFFFFD) - 4 modulo 2^32, which is the stored PC whenever
bit 1 of the stored PC is clear, then 8 x 24 characters `x` for the FP
registers, then 8 characters `x` for fps, then the 8-digit encoding of CPSR;
right after RESET, on a register file that keeps CPSR and whose R0 reads 0, the
payload begins with "00000000" and ends with "d3010000". -/
theorem read_general_registers_reply (rf : Registers R) (host target : Bool)
    (gdb : gdb_protocol_data R M) (data : List Nat)
    (hlen : gdb.packet.length = MAX_PACKET_SIZE) :
    (∃ gdb1 payload, read_general_registers rf host target gdb data = some gdb1 ∧
      gdb1.written = gdb.written ++ 36 :: (payload ++ 35 :: sprintf_02x (payload.sum % 256)) ∧
      payload.length = 336 ∧
      payload =
        wire32 target (rf.read_register gdb.arm.reg 0) ++
        wire32 target (rf.read_register gdb.arm.reg 1) ++
        wire32 target (rf.read_register gdb.arm.reg 2) ++
        wire32 target (rf.read_register gdb.arm.reg 3) ++
        wire32 target (rf.read_register gdb.arm.reg 4) ++
        wire32 target (rf.read_register gdb.arm.reg 5) ++
        wire32 target (rf.read_register gdb.arm.reg 6) ++
        wire32 target (rf.read_register gdb.arm.reg 7) ++
        wire32 target (rf.read_register gdb.arm.reg 8) ++
        wire32 target (rf.read_register gdb.arm.reg 9) ++
        wire32 target (rf.read_register gdb.arm.reg 10) ++
        wire32 target (rf.read_register gdb.arm.reg 11) ++
        wire32 target (rf.read_register gdb.arm.reg 12) ++
        wire32 target (rf.read_register gdb.arm.reg 13) ++
        wire32 target (rf.read_register gdb.arm.reg 14) ++
        wire32 target
          (((((rf.read_register gdb.arm.reg 15 + 4) % U32) &&& 0xFFFFFFFD) + U32 - 4) % U32) ++
        List.replicate (8 * 24) 120 ++ List.replicate 8 120 ++
        wire32 target (rf.read_cpsr gdb.arm.reg) ∧
      gdb1.arm = gdb.arm ∧ gdb1.target_exception = gdb.target_exception) ∧
    (rf.read_register gdb.arm.reg 15 < U32 → rf.read_register gdb.arm.reg 15 &&& 2 = 0 →
      ((((rf.read_register gdb.arm.reg 15 + 4) % U32) &&& 0xFFFFFFFD) + U32 - 4) % U32
        = rf.read_register gdb.arm.reg 15) ∧
    (∀ (junk : Nat) (mem : M) (fill : Nat → Nat), CpsrKept rf → ResetLeavesR0Zero rf →
      ∃ p gdb2 middle cc, arm_create rf true junk mem = some p ∧
        read_general_registers rf host false (gdb_init_data p fill) data = some gdb2 ∧
        middle.length = 320 ∧
        gdb2.written = 36 :: ([48, 48, 48, 48, 48, 48, 48, 48] ++ middle ++
          [100, 51, 48, 49, 48, 48, 48, 48] ++ 35 :: cc)) := by
  refine ⟨?_, fun hpc hbit => pc_read_minus_four _ hpc hbit, ?_⟩
  · obtain ⟨gdb1, h1, h2, _, h4, h5, _⟩ := read_general_registers_eq rf host target gdb data hlen
    exact ⟨gdb1, _, h1, h2, general_registers_text_length rf target gdb.arm,
      general_registers_text_fields rf target gdb.arm, h4, h5⟩
  · intro junk mem fill hc hz
    obtain ⟨gdb2, h1, h2, _⟩ := read_general_registers_eq rf host false
      (gdb_init_data (R := R) (M := M)
        { cycle_count := 0,
          reg := rf.write_usr_register (rf.write_cpsr rf.registers_create 0x1d3) 15 0,
          mem := mem } fill) data
      (by simp only [gdb_init_data, List.length_map, List.length_range])
    have e0 : wire32 false 0 = [48, 48, 48, 48, 48, 48, 48, 48] := by decide
    have e1 : wire32 false 0x1d3 = [100, 51, 48, 49, 48, 48, 48, 48] := by decide
    have hcpsr : rf.read_cpsr
        (rf.write_usr_register (rf.write_cpsr rf.registers_create 0x1d3) 15 0) = 0x1d3 := by
      rw [hc.2, hc.1 _ _ (by decide)]
    unfold ResetLeavesR0Zero at hz
    refine ⟨_, gdb2,
      wire32 false (rf.read_register
          (rf.write_usr_register (rf.write_cpsr rf.registers_create 0x1d3) 15 0) 1) ++
        registerFields rf false
          ({ cycle_count := 0,
             reg := rf.write_usr_register (rf.write_cpsr rf.registers_create 0x1d3) 15 0,
             mem := mem } : arm_core_data R M) 13 2 ++
        wire32 false ((arm_read_register rf
          ({ cycle_count := 0,
             reg := rf.write_usr_register (rf.write_cpsr rf.registers_create 0x1d3) 15 0,
             mem := mem } : arm_core_data R M) 15 + U32 - 4) % U32) ++
        List.replicate (8 * (3 * 8)) 120 ++ List.replicate (8 * 1) 120,
      sprintf_02x ((general_registers_text rf false
          ({ cycle_count := 0,
             reg := rf.write_usr_register (rf.write_cpsr rf.registers_create 0x1d3) 15 0,
             mem := mem } : arm_core_data R M)).sum % 256),
      arm_create_eq rf junk mem, h1, ?_, ?_⟩
    · simp only [List.length_append, wire32_length, registerFields_length,
        List.length_replicate]
    · simp only [gdb_init_data] at h2
      rw [h2]
      have ht : general_registers_text rf false
          ({ cycle_count := 0,
             reg := rf.write_usr_register (rf.write_cpsr rf.registers_create 0x1d3) 15 0,
             mem := mem } : arm_core_data R M)
          = [48, 48, 48, 48, 48, 48, 48, 48] ++
            (wire32 false (rf.read_register
              (rf.write_usr_register (rf.write_cpsr rf.registers_create 0x1d3) 15 0) 1) ++
            registerFields rf false
              ({ cycle_count := 0,
                 reg := rf.write_usr_register (rf.write_cpsr rf.registers_create 0x1d3) 15 0,
                 mem := mem } : arm_core_data R M) 13 2 ++
            wire32 false ((arm_read_register rf
              ({ cycle_count := 0,
                 reg := rf.write_usr_register (rf.write_cpsr rf.registers_create 0x1d3) 15 0,
                 mem := mem } : arm_core_data R M) 15 + U32 - 4) % U32) ++
            List.replicate (8 * (3 * 8)) 120 ++ List.replicate (8 * 1) 120) ++
            [100, 51, 48, 49, 48, 48, 48, 48] := by
        have r15 : registerFields rf false
            ({ cycle_count := 0,
               reg := rf.write_usr_register (rf.write_cpsr rf.registers_create 0x1d3) 15 0,
               mem := mem } : arm_core_data R M) 15 0
            = [48, 48, 48, 48, 48, 48, 48, 48] ++
              (wire32 false (rf.read_register
                (rf.write_usr_register (rf.write_cpsr rf.registers_create 0x1d3) 15 0) 1) ++
              registerFields rf false
                ({ cycle_count := 0,
                   reg := rf.write_usr_register (rf.write_cpsr rf.registers_create 0x1d3) 15 0,
                   mem := mem } : arm_core_data R M) 13 2) := by
          rw [registerFields, registerFields]
          simp only [arm_read_register, hz, e0, if_neg (show ¬ (0 = 15) from by decide),
            if_neg (show ¬ (0 + 1 = 15) from by decide)]
        rw [general_registers_text, r15]
        simp only [arm_read_cpsr, hcpsr, e1, List.append_assoc]
      rw [ht]
      simp only [List.nil_append, List.append_assoc, List.cons_append]

theorem bankedRegisters_resetLeavesR0Zero : ResetLeavesR0Zero bankedRegisters := by
  unfold ResetLeavesR0Zero
  decide

theorem read_general_registers_reply_witness :
    (∃ gdb1 payload,
      read_general_registers bankedRegisters false false (sessionOver (coreWithPc 4)) []
        = some gdb1 ∧
      gdb1.written = (sessionOver (coreWithPc 4)).written ++
        36 :: (payload ++ 35 :: sprintf_02x (payload.sum % 256)) ∧
      payload.length = 336) ∧
    ((((bankedRegisters.read_register (sessionOver (coreWithPc 4)).arm.reg 15 + 4) % U32)
        &&& 0xFFFFFFFD) + U32 - 4) % U32
      = bankedRegisters.read_register (sessionOver (coreWithPc 4)).arm.reg 15 ∧
    (∃ p gdb2 middle cc, arm_create bankedRegisters true 0 ([] : List Nat) = some p ∧
      read_general_registers bankedRegisters false false (gdb_init_data p (fun _ => 0)) []
        = some gdb2 ∧
      middle.length = 320 ∧
      gdb2.written = 36 :: ([48, 48, 48, 48, 48, 48, 48, 48] ++ middle ++
        [100, 51, 48, 49, 48, 48, 48, 48] ++ 35 :: cc)) := by
  have h := read_general_registers_reply bankedRegisters false false
    (sessionOver (coreWithPc 4)) []
    (by simp only [sessionOver, gdb_init_data, List.length_map, List.length_range])
  obtain ⟨⟨gdb1, payload, h1, h2, h3, _⟩, hpc, hreset⟩ := h
  exact ⟨⟨gdb1, payload, h1, h2, h3⟩, hpc (by decide) (by decide),
    hreset 0 [] (fun _ => 0) bankedRegisters_cpsrKept bankedRegisters_resetLeavesR0Zero⟩

/-! ### Staging a reply and sending it -/

/-- Staging a NUL-free text at `buffer` and sending it, on a packet buffer of
`MAX_PACKET_SIZE` bytes: the frame is written out when the text, its frame and
the closing NUL fit, and nothing is defined otherwise. -/
theorem stage_send_eq (gdb : gdb_protocol_data R M) (T : List Nat)
    (hlen : gdb.packet.length = MAX_PACKET_SIZE) (hT : ∀ c ∈ T, c ≠ 0) :
    (poke gdb.packet 1 (T ++ [0])).bind (fun b => gdb_send_buffer { gdb with packet := b })
      = if T.length + 5 ≤ MAX_PACKET_SIZE then
          some { gdb with
            packet := 36 :: (T ++ 35 :: (sprintf_02x (T.sum % 256) ++
              0 :: gdb.packet.drop (T.length + 5))),
            len := T.length + 4,
            written := gdb.written ++ framed T }
        else none := by
  by_cases hfit : 1 + (T ++ [0]).length ≤ gdb.packet.length
  · obtain ⟨b1, h1, h2, h3, h4⟩ := poke_drop gdb.packet 1 (T ++ [0]) hfit
    obtain ⟨c0, hc0⟩ : ∃ c0, b1.take 1 = [c0] := by
      have hl : 0 < b1.length := by rw [h4, hlen]; decide
      obtain ⟨c0, r, rfl⟩ := List.exists_cons_of_length_pos hl
      exact ⟨c0, rfl⟩
    have hb1 : b1 = c0 :: (T ++ 0 :: gdb.packet.drop (1 + (T ++ [0]).length)) := by
      rw [← List.take_append_drop 1 b1, hc0, h2]
      simp
    rw [h1, Option.some_bind, gdb_send_buffer_eq { gdb with packet := b1 } c0 _ _ hT hb1]
    simp only [List.length_append, List.length_singleton, List.length_drop, hlen,
      MAX_PACKET_SIZE] at hfit ⊢
    by_cases h5 : T.length + 5 ≤ 1024
    · rw [if_pos h5, if_pos (by omega)]
      simp only [framed, List.drop_drop]
      rw [show 1 + (T.length + 1) + 3 = T.length + 5 from by omega]
    · rw [if_neg h5, if_neg (by omega)]
  · rw [poke_beyond _ _ _ (by omega)]
    simp only [List.length_append, List.length_singleton, hlen, MAX_PACKET_SIZE] at hfit ⊢
    rw [if_neg (by omega)]
    rfl

theorem gdb_send_data_eq (gdb : gdb_protocol_data R M) (T : List Nat)
    (hlen : gdb.packet.length = MAX_PACKET_SIZE) (hT : ∀ c ∈ T, c ≠ 0) :
    gdb_send_data gdb T
      = if T.length + 5 ≤ MAX_PACKET_SIZE then
          some { gdb with
            packet := 36 :: (T ++ 35 :: (sprintf_02x (T.sum % 256) ++
              0 :: gdb.packet.drop (T.length + 5))),
            len := T.length + 4,
            written := gdb.written ++ framed T }
        else none :=
  stage_send_eq gdb T hlen hT

/-- The packet buffer keeps its size across a reply. -/
theorem sent_packet_length (packet T : List Nat) (hlen : packet.length = MAX_PACKET_SIZE)
    (hfit : T.length + 5 ≤ MAX_PACKET_SIZE) :
    (36 :: (T ++ 35 :: (sprintf_02x (T.sum % 256) ++ 0 :: packet.drop (T.length + 5)))).length
      = MAX_PACKET_SIZE := by
  simp only [List.length_cons, List.length_append, List.length_drop, hlen,
    sprintf_02x_length _ (Nat.mod_lt _ (show 0 < 256 by decide)), MAX_PACKET_SIZE] at hfit ⊢
  omega


/-! ### Stop replies, thread selection, unknown commands -/

/-- The stop reply: one frame whose payload depends on the retained code only. -/
theorem gdb_send_stop_reason_eq (gdb : gdb_protocol_data R M)
    (hlen : gdb.packet.length = MAX_PACKET_SIZE) :
    ∃ gdb1, gdb_send_stop_reason gdb = some gdb1 ∧
      gdb1.written = gdb.written ++ framed
        (if gdb.target_exception = (UNDEFINED_INSTRUCTION : Int) then text_S04
         else if gdb.target_exception = (PREFETCH_ABORT : Int) ∨
           gdb.target_exception = (DATA_ABORT : Int) then text_S10
         else text_S05) ∧
      gdb1.arm = gdb.arm ∧ gdb1.target_exception = gdb.target_exception ∧
      gdb1.shut_wr = gdb.shut_wr ∧ gdb1.packet.length = MAX_PACKET_SIZE ∧ gdb1.len = 7 := by
  have h4 : ∀ c ∈ text_S04, c ≠ 0 := by decide
  have h10 : ∀ c ∈ text_S10, c ≠ 0 := by decide
  have h5 : ∀ c ∈ text_S05, c ≠ 0 := by decide
  unfold gdb_send_stop_reason
  split
  · rw [gdb_send_data_eq gdb _ hlen h4, if_pos (by decide)]
    exact ⟨_, rfl, rfl, rfl, rfl, rfl, sent_packet_length _ _ hlen (by decide), rfl⟩
  · split
    · rw [gdb_send_data_eq gdb _ hlen h10, if_pos (by decide)]
      exact ⟨_, rfl, rfl, rfl, rfl, rfl, sent_packet_length _ _ hlen (by decide), rfl⟩
    · rw [gdb_send_data_eq gdb _ hlen h5, if_pos (by decide)]
      exact ⟨_, rfl, rfl, rfl, rfl, rfl, sent_packet_length _ _ hlen (by decide), rfl⟩

/-- What sending the buffer leaves alone: the core, the retained exception
code, the state of the connection and the size of the packet buffer; what it
writes is `len` bytes that fit the packet buffer together with a closing NUL. -/
theorem gdb_send_buffer_keeps (gdb gdb1 : gdb_protocol_data R M)
    (h : gdb_send_buffer gdb = some gdb1) :
    gdb1.arm = gdb.arm ∧ gdb1.target_exception = gdb.target_exception ∧
      gdb1.shut_wr = gdb.shut_wr ∧ gdb1.packet.length = gdb.packet.length ∧
      gdb1.len + 1 ≤ gdb.packet.length ∧
      ∃ frame, gdb1.written = gdb.written ++ frame ∧ frame.length = gdb1.len := by
  unfold gdb_send_buffer at h
  simp only [Option.bind_eq_some] at h
  obtain ⟨p0, hp0, ci, _, p1, hp1, p2, hp2, p3, hp3, ht⟩ := h
  have l0 := poke_length _ _ _ _ hp0
  have l1 := poke_length _ _ _ _ hp1
  have l2 := poke_length _ _ _ _ hp2
  have l3 := poke_length _ _ _ _ hp3
  have hfit : ci.2 + 3 + 1 ≤ p2.length := by
    unfold poke at hp3
    split at hp3
    · simpa using ‹ci.2 + 3 + [0].length ≤ p2.length›
    · exact absurd hp3 (by simp)
  unfold gdb_transmit_packet at ht
  split at ht
  · injection ht with ht
    subst ht
    refine ⟨rfl, rfl, rfl, ?_, ?_, _, rfl, ?_⟩
    · simp only [l3, l2, l1, l0]
    · simp only [← l0, ← l1, ← l2]
      exact hfit
    · simp only [List.length_take]
      omega
  · exact absurd ht (by simp)

theorem gdb_send_data_keeps (gdb gdb1 : gdb_protocol_data R M) (T : List Nat)
    (h : gdb_send_data gdb T = some gdb1) :
    gdb1.arm = gdb.arm ∧ gdb1.target_exception = gdb.target_exception ∧
      gdb1.shut_wr = gdb.shut_wr ∧ gdb1.packet.length = gdb.packet.length ∧
      gdb1.len + 1 ≤ gdb.packet.length := by
  unfold gdb_send_data at h
  simp only [Option.bind_eq_some] at h
  obtain ⟨p, hp, hs⟩ := h
  have l := poke_length _ _ _ _ hp
  obtain ⟨a, b, c, d, e, _⟩ := gdb_send_buffer_keeps _ _ hs
  exact ⟨a, b, c, by rw [d]; exact l, by rw [← l]; exact e⟩

theorem gdb_send_stop_reason_keeps (gdb gdb1 : gdb_protocol_data R M)
    (h : gdb_send_stop_reason gdb = some gdb1) :
    gdb1.arm = gdb.arm ∧ gdb1.target_exception = gdb.target_exception ∧
      gdb1.shut_wr = gdb.shut_wr ∧ gdb1.packet.length = gdb.packet.length ∧
      gdb1.len + 1 ≤ gdb.packet.length := by
  unfold gdb_send_stop_reason at h
  split at h
  · exact gdb_send_data_keeps _ _ _ h
  · split at h
    · exact gdb_send_data_keeps _ _ _ h
    · exact gdb_send_data_keeps _ _ _ h

/-- The twelve handlers `gdb_init` registers. -/
theorem gdb_init_cases (rf : Registers R) (mm : Memory M) (host target : Bool)
    (arm_step : arm_core_data R M → Int × arm_core_data R M) (fuel junk : Nat)
    (i : Nat) (h : gdb_handler_t R M)
    (hi : gdb_init rf mm host target arm_step fuel junk i = some h) :
    (i = 99 ∧ h = cont rf mm arm_step fuel junk) ∨ (i = 107 ∧ h = kill_request) ∨
    (i = 113 ∧ h = query) ∨ (i = 103 ∧ h = read_general_registers rf host target) ∨
    (i = 109 ∧ h = read_memory mm junk) ∨ (i = 112 ∧ h = read_register rf host target) ∨
    (i = 63 ∧ h = reason) ∨ (i = 72 ∧ h = set_thread) ∨ (i = 115 ∧ h = step arm_step) ∨
    (i = 71 ∧ h = write_general_registers rf host target junk) ∨
    (i = 88 ∧ h = write_memory_binary mm junk) ∨
    (i = 80 ∧ h = write_register rf host target junk) := by
  unfold gdb_init at hi
  by_cases h1 : i = 99
  · rw [if_pos h1] at hi
    exact Or.inl ⟨h1, (Option.some.inj hi).symm⟩
  rw [if_neg h1] at hi
  by_cases h2 : i = 107
  · rw [if_pos h2] at hi
    exact Or.inr (Or.inl ⟨h2, (Option.some.inj hi).symm⟩)
  rw [if_neg h2] at hi
  by_cases h3 : i = 113
  · rw [if_pos h3] at hi
    exact Or.inr (Or.inr (Or.inl ⟨h3, (Option.some.inj hi).symm⟩))
  rw [if_neg h3] at hi
  by_cases h4 : i = 103
  · rw [if_pos h4] at hi
    exact Or.inr (Or.inr (Or.inr (Or.inl ⟨h4, (Option.some.inj hi).symm⟩)))
  rw [if_neg h4] at hi
  by_cases h5 : i = 109
  · rw [if_pos h5] at hi
    exact Or.inr (Or.inr (Or.inr (Or.inr (Or.inl ⟨h5, (Option.some.inj hi).symm⟩))))
  rw [if_neg h5] at hi
  by_cases h6 : i = 112
  · rw [if_pos h6] at hi
    exact Or.inr (Or.inr (Or.inr (Or.inr (Or.inr (Or.inl ⟨h6, (Option.some.inj hi).symm⟩)))))
  rw [if_neg h6] at hi
  by_cases h7 : i = 63
  · rw [if_pos h7] at hi
    exact Or.inr (Or.inr (Or.inr (Or.inr (Or.inr (Or.inr
      (Or.inl ⟨h7, (Option.some.inj hi).symm⟩))))))
  rw [if_neg h7] at hi
  by_cases h8 : i = 72
  · rw [if_pos h8] at hi
    exact Or.inr (Or.inr (Or.inr (Or.inr (Or.inr (Or.inr (Or.inr
      (Or.inl ⟨h8, (Option.some.inj hi).symm⟩)))))))
  rw [if_neg h8] at hi
  by_cases h9 : i = 115
  · rw [if_pos h9] at hi
    exact Or.inr (Or.inr (Or.inr (Or.inr (Or.inr (Or.inr (Or.inr (Or.inr
      (Or.inl ⟨h9, (Option.some.inj hi).symm⟩))))))))
  rw [if_neg h9] at hi
  by_cases h10 : i = 71
  · rw [if_pos h10] at hi
    exact Or.inr (Or.inr (Or.inr (Or.inr (Or.inr (Or.inr (Or.inr (Or.inr (Or.inr
      (Or.inl ⟨h10, (Option.some.inj hi).symm⟩)))))))))
  rw [if_neg h10] at hi
  by_cases h11 : i = 88
  · rw [if_pos h11] at hi
    exact Or.inr (Or.inr (Or.inr (Or.inr (Or.inr (Or.inr (Or.inr (Or.inr (Or.inr (Or.inr
      (Or.inl ⟨h11, (Option.some.inj hi).symm⟩))))))))))
  rw [if_neg h11] at hi
  by_cases h12 : i = 80
  · rw [if_pos h12] at hi
    exact Or.inr (Or.inr (Or.inr (Or.inr (Or.inr (Or.inr (Or.inr (Or.inr (Or.inr (Or.inr
      (Or.inr ⟨h12, (Option.some.inj hi).symm⟩))))))))))
  rw [if_neg h12] at hi
  exact absurd hi (by simp)

/-- A command byte outside the twelve has no handler. -/
theorem gdb_init_none (rf : Registers R) (mm : Memory M) (host target : Bool)
    (arm_step : arm_core_data R M → Int × arm_core_data R M) (fuel junk : Nat) (i : Nat)
    (hi : i ∉ [99, 107, 113, 103, 109, 112, 63, 72, 115, 71, 88, 80]) :
    gdb_init rf mm host target arm_step fuel junk i = none := by
  simp only [List.mem_cons, List.mem_singleton, List.not_mem_nil, or_false, not_or] at hi
  obtain ⟨a1, a2, a3, a4, a5, a6, a7, a8, a9, a10, a11, a12⟩ := hi
  unfold gdb_init
  rw [if_neg a1, if_neg a2, if_neg a3, if_neg a4, if_neg a5, if_neg a6, if_neg a7, if_neg a8,
    if_neg a9, if_neg a10, if_neg a11, if_neg a12]

/-- A reply staged and sent on a packet buffer of `MAX_PACKET_SIZE` bytes: what
the session is afterwards. -/
theorem stage_send_some (gdb gdb1 : gdb_protocol_data R M) (T : List Nat)
    (hlen : gdb.packet.length = MAX_PACKET_SIZE) (hT : ∀ c ∈ T, c ≠ 0)
    (h : (poke gdb.packet 1 (T ++ [0])).bind
      (fun b => gdb_send_buffer { gdb with packet := b }) = some gdb1) :
    gdb1.written = gdb.written ++ framed T ∧ gdb1.len = T.length + 4 ∧
      gdb1.arm = gdb.arm ∧ gdb1.target_exception = gdb.target_exception ∧
      gdb1.shut_wr = gdb.shut_wr ∧ gdb1.packet.length = MAX_PACKET_SIZE ∧
      T.length + 5 ≤ MAX_PACKET_SIZE := by
  rw [stage_send_eq gdb T hlen hT] at h
  split at h
  · injection h with h
    subst h
    exact ⟨rfl, rfl, rfl, rfl, rfl, sent_packet_length _ _ hlen ‹_›, ‹_›⟩
  · exact absurd h (by simp)

theorem gdb_send_data_some (gdb gdb1 : gdb_protocol_data R M) (T : List Nat)
    (hlen : gdb.packet.length = MAX_PACKET_SIZE) (hT : ∀ c ∈ T, c ≠ 0)
    (h : gdb_send_data gdb T = some gdb1) :
    gdb1.written = gdb.written ++ framed T ∧ gdb1.len = T.length + 4 ∧
      gdb1.arm = gdb.arm ∧ gdb1.target_exception = gdb.target_exception ∧
      gdb1.shut_wr = gdb.shut_wr ∧ gdb1.packet.length = MAX_PACKET_SIZE ∧
      T.length + 5 ≤ MAX_PACKET_SIZE :=
  stage_send_some gdb gdb1 T hlen hT h

/-- A short NUL-free text is sent whole. -/
theorem gdb_send_data_short (gdb : gdb_protocol_data R M) (T : List Nat)
    (hlen : gdb.packet.length = MAX_PACKET_SIZE) (hT : ∀ c ∈ T, c ≠ 0)
    (hfit : T.length + 5 ≤ MAX_PACKET_SIZE) :
    ∃ gdb1, gdb_send_data gdb T = some gdb1 ∧
      gdb1.written = gdb.written ++ framed T ∧ gdb1.len = T.length + 4 ∧
      gdb1.arm = gdb.arm ∧ gdb1.target_exception = gdb.target_exception ∧
      gdb1.shut_wr = gdb.shut_wr ∧ gdb1.packet.length = MAX_PACKET_SIZE := by
  rw [gdb_send_data_eq gdb T hlen hT, if_pos hfit]
  exact ⟨_, rfl, rfl, rfl, rfl, rfl, rfl, sent_packet_length _ _ hlen hfit⟩

theorem gdb_send_stop_reason_some (gdb : gdb_protocol_data R M)
    (hlen : gdb.packet.length = MAX_PACKET_SIZE) :
    ∃ gdb1, gdb_send_stop_reason gdb = some gdb1 ∧
      gdb1.written = gdb.written ++ framed (stop_text gdb.target_exception) ∧
      gdb1.len = 7 ∧ gdb1.arm = gdb.arm ∧ gdb1.target_exception = gdb.target_exception ∧
      gdb1.shut_wr = gdb.shut_wr ∧ gdb1.packet.length = MAX_PACKET_SIZE := by
  obtain ⟨gdb1, h1, h2, h3, h4, h5, h6, h7⟩ := gdb_send_stop_reason_eq gdb hlen
  exact ⟨gdb1, h1, h2, h7, h3, h4, h5, h6⟩

theorem stop_text_length (e : Int) : (stop_text e).length = 3 := by
  unfold stop_text
  split
  · rfl
  · split <;> rfl

/-- C17: for every exception code e returned by the step primitive, the reply
of the `s` handler, and the reply of every `?` query handled afterwards until
the next `s` or `c`, has payload S04 if e is UNDEFINED_INSTRUCTION, S10 if e is
PREFETCH_ABORT or DATA_ABORT, and S05 for every other value of e (among them 0,
RESET, SOFTWARE_INTERRUPT, IRQ, FIQ); a `?` query changes neither the retained
code nor the processor or memory state.  Every handler other than those of `s`
and `c`, and the answer to an unknown command, keep the retained code. -/
theorem stop_reply_mapping (rf : Registers R) (mm : Memory M) (host target : Bool)
    (arm_step : arm_core_data R M → Int × arm_core_data R M) (fuel junk : Nat)
    (gdb : gdb_protocol_data R M) (data : List Nat)
    (hlen : gdb.packet.length = MAX_PACKET_SIZE) :
    (∃ gdb1, step arm_step gdb data = some gdb1 ∧
      gdb1.target_exception = (arm_step gdb.arm).1 ∧ gdb1.arm = (arm_step gdb.arm).2 ∧
      gdb1.written = gdb.written ++ framed (stop_text (arm_step gdb.arm).1) ∧
      gdb1.packet.length = MAX_PACKET_SIZE) ∧
    (∀ (session : gdb_protocol_data R M) (data2 : List Nat),
      session.packet.length = MAX_PACKET_SIZE →
      ∃ session1, reason session data2 = some session1 ∧
        session1.written = session.written ++ framed (stop_text session.target_exception) ∧
        session1.target_exception = session.target_exception ∧
        session1.arm = session.arm) ∧
    (∀ (i : Nat) (h : gdb_handler_t R M) (session session1 : gdb_protocol_data R M)
      (data2 : List Nat), i ≠ 99 → i ≠ 115 →
      gdb_init rf mm host target arm_step fuel junk i = some h →
      h session data2 = some session1 →
      session1.target_exception = session.target_exception) ∧
    (∀ (session session1 : gdb_protocol_data R M) (T : List Nat),
      gdb_send_data session T = some session1 →
      session1.target_exception = session.target_exception) ∧
    (∀ e : Int, stop_text e =
      if e = (UNDEFINED_INSTRUCTION : Int) then [83, 48, 52]
      else if e = (PREFETCH_ABORT : Int) ∨ e = (DATA_ABORT : Int) then [83, 49, 48]
      else [83, 48, 53]) ∧
    stop_text 0 = [83, 48, 53] ∧ stop_text (RESET : Int) = [83, 48, 53] ∧
    stop_text (SOFTWARE_INTERRUPT : Int) = [83, 48, 53] ∧
    stop_text (INTERRUPT : Int) = [83, 48, 53] ∧
    stop_text (FAST_INTERRUPT : Int) = [83, 48, 53] := by
  refine ⟨?_, ?_, ?_, ?_, fun e => rfl, by decide, by decide, by decide, by decide, by decide⟩
  · obtain ⟨gdb1, h1, h2, _, h4, h5, _, h7⟩ := gdb_send_stop_reason_some
      ({ gdb with target_exception := (arm_step gdb.arm).1, arm := (arm_step gdb.arm).2 })
      hlen
    exact ⟨gdb1, h1, h5, h4, h2, h7⟩
  · intro session data2 hl
    obtain ⟨s1, h1, h2, _, h4, h5, _, _⟩ := gdb_send_stop_reason_some session hl
    exact ⟨s1, h1, h2, h5, h4⟩
  · intro i h session session1 data2 hc hs hi hr
    rcases gdb_init_cases rf mm host target arm_step fuel junk i h hi with
      ⟨e, _⟩ | ⟨_, rfl⟩ | ⟨_, rfl⟩ | ⟨_, rfl⟩ | ⟨_, rfl⟩ | ⟨_, rfl⟩ | ⟨_, rfl⟩ | ⟨_, rfl⟩ |
      ⟨e, _⟩ | ⟨_, rfl⟩ | ⟨_, rfl⟩ | ⟨_, rfl⟩
    · exact absurd e hc
    · simp only [kill_request, Option.some.injEq] at hr
      subst hr
      rfl
    · simp only [query, Option.bind_eq_some] at hr
      obtain ⟨s, _, hr⟩ := hr
      split at hr
      · exact (gdb_send_data_keeps _ _ _ hr).2.1
      split at hr
      · exact (gdb_send_data_keeps _ _ _ hr).2.1
      split at hr
      · exact (gdb_send_data_keeps _ _ _ hr).2.1
      split at hr
      · exact (gdb_send_data_keeps _ _ _ hr).2.1
      · exact (gdb_send_data_keeps _ _ _ hr).2.1
    · simp only [read_general_registers, Option.bind_eq_some] at hr
      obtain ⟨_, _, _, _, _, _, _, _, _, _, hr⟩ := hr
      exact (gdb_send_buffer_keeps _ _ hr).2.1
    · simp only [read_memory, Option.bind_eq_some] at hr
      obtain ⟨_, _, _, _, _, _, hr⟩ := hr
      exact (gdb_send_buffer_keeps _ _ hr).2.1
    · simp only [read_register, Option.bind_eq_some] at hr
      obtain ⟨_, _, hr⟩ := hr
      split at hr
      · simp only [Option.bind_eq_some] at hr
        obtain ⟨_, _, hr⟩ := hr
        exact (gdb_send_buffer_keeps _ _ hr).2.1
      · exact absurd hr (by simp)
    · exact (gdb_send_stop_reason_keeps _ _ hr).2.1
    · unfold set_thread at hr
      split at hr
      · exact absurd hr (by simp)
      · simp only [Option.bind_eq_some] at hr
        obtain ⟨_, _, hr⟩ := hr
        split at hr
        · exact (gdb_send_data_keeps _ _ _ hr).2.1
        · exact (gdb_send_data_keeps _ _ _ hr).2.1
    · exact absurd e hs
    · simp only [write_general_registers, Option.bind_eq_some] at hr
      obtain ⟨_, _, _, _, _, _, _, _, hr⟩ := hr
      exact (gdb_send_data_keeps _ _ _ hr).2.1
    · simp only [write_memory_binary, Option.bind_eq_some] at hr
      obtain ⟨_, _, _, _, hr⟩ := hr
      split at hr
      · simp only [Option.bind_eq_some] at hr
        obtain ⟨_, _, hr⟩ := hr
        exact (gdb_send_data_keeps _ _ _ hr).2.1
      · exact (gdb_send_data_keeps _ _ _ hr).2.1
    · simp only [write_register, Option.bind_eq_some] at hr
      obtain ⟨_, _, _, _, _, _, hr⟩ := hr
      split at hr
      · exact (gdb_send_data_keeps _ _ _ hr).2.1
      · exact absurd hr (by simp)
  · intro session session1 T h
    exact (gdb_send_data_keeps _ _ _ h).2.1

theorem sessionOver_length (arm : arm_core_data BankedRegs (List Nat)) :
    (sessionOver arm).packet.length = MAX_PACKET_SIZE := by
  simp only [sessionOver, gdb_init_data, List.length_map, List.length_range]

theorem stop_reply_mapping_witness :
    (∃ gdb1, step (fun p => ((UNDEFINED_INSTRUCTION : Int), p)) (sessionOver (coreWithPc 0)) []
        = some gdb1 ∧
      gdb1.written = (sessionOver (coreWithPc 0)).written ++
        framed (stop_text (UNDEFINED_INSTRUCTION : Int))) ∧
    (∃ session1, reason (sessionOver (coreWithPc 0)) [] = some session1 ∧
      session1.written = (sessionOver (coreWithPc 0)).written ++
        framed (stop_text (sessionOver (coreWithPc 0)).target_exception)) ∧
    ({ sessionOver (coreWithPc 0) with shut_wr := true }
        : gdb_protocol_data BankedRegs (List Nat)).target_exception
      = (sessionOver (coreWithPc 0)).target_exception ∧
    stop_text (UNDEFINED_INSTRUCTION : Int) = [83, 48, 52] := by
  have h := stop_reply_mapping bankedRegisters flatMemory false false
    (fun p => ((UNDEFINED_INSTRUCTION : Int), p)) 1 0 (sessionOver (coreWithPc 0)) []
    (sessionOver_length _)
  obtain ⟨⟨gdb1, h1, _, _, h4, _⟩, hq, hk, _, hm, _⟩ := h
  obtain ⟨s1, q1, q2, _⟩ := hq (sessionOver (coreWithPc 0)) [] (sessionOver_length _)
  refine ⟨⟨gdb1, h1, h4⟩, ⟨s1, q1, q2⟩, ?_, ?_⟩
  · exact hk 107 kill_request (sessionOver (coreWithPc 0)) _ [] (by decide) (by decide) rfl rfl
  · rw [hm]
    decide

/-- The command byte `gdb_dispatch` looks up is the first byte of the payload,
0 for the empty payload. -/
theorem headD_payload (P rest : List Nat) : (P ++ 0 :: rest).headD 0 = P.headD 0 := by
  cases P <;> rfl

/-- C18: after `gdb_init`, for every checksum-valid packet whose first payload
byte is not one of c, k, q, g, m, p, ?, H, s, G, X, P (the empty payload
included), `gdb_packet_analysis` writes `+` followed by exactly the
empty-payload packet "$#00", runs no handler, and leaves the processor state,
the memory and the retained exception code unchanged. -/
theorem unknown_command_reply (rf : Registers R) (mm : Memory M) (host target : Bool)
    (arm_step : arm_core_data R M → Int × arm_core_data R M) (fuel junk : Nat)
    (gdb : gdb_protocol_data R M) (payload tail : List Nat) (c1 c2 : Nat)
    (hlen : gdb.packet.length = MAX_PACKET_SIZE)
    (h1 : isHexDigit c1) (h2 : isHexDigit c2)
    (hsum : 16 * hexDigitValue c1 + hexDigitValue c2 = payload.sum % 256)
    (hcmd : payload.headD 0 % 256 ∉ [99, 107, 113, 103, 109, 112, 63, 72, 115, 71, 88, 80]) :
    gdb_init rf mm host target arm_step fuel junk (payload.headD 0 % 256) = none ∧
    ∃ gdb1, gdb_packet_analysis (gdb_init rf mm host target arm_step fuel junk) junk gdb
        (36 :: (payload ++ 35 :: c1 :: c2 :: 0 :: tail)) ((payload.length + 4 : Nat) : Int)
        = some gdb1 ∧
      gdb1.written = gdb.written ++ 43 :: [36, 35, 48, 48] ∧
      gdb1.arm = gdb.arm ∧ gdb1.target_exception = gdb.target_exception ∧
      gdb1.shut_wr = gdb.shut_wr := by
  have hnone := gdb_init_none rf mm host target arm_step fuel junk _ hcmd
  refine ⟨hnone, ?_⟩
  rw [gdb_packet_analysis_eq _ junk gdb payload tail c1 c2 h1 h2, if_pos hsum.symm,
    gdb_dispatch_eq, headD_payload, hnone]
  obtain ⟨gdb1, e1, e2, _, e4, e5, e6, _⟩ := gdb_send_data_short (gdb_send_ack gdb) []
    hlen (by simp) (by decide)
  refine ⟨gdb1, e1, ?_, e4, e5, e6⟩
  rw [e2]
  simp [gdb_send_ack, framed]
  decide

theorem unknown_command_reply_witness :
    ∃ gdb1, gdb_packet_analysis
        (gdb_init bankedRegisters flatMemory false false (fun p => (0, p)) 1 0) 0
        (sessionOver (coreWithPc 0)) (36 :: ([] ++ 35 :: 48 :: 48 :: 0 :: []))
        (((([] : List Nat)).length + 4 : Nat) : Int) = some gdb1 ∧
      gdb1.written = (sessionOver (coreWithPc 0)).written ++ 43 :: [36, 35, 48, 48] :=
  have h := (unknown_command_reply bankedRegisters flatMemory false false (fun p => (0, p)) 1 0
    (sessionOver (coreWithPc 0)) [] [] 48 48 (sessionOver_length _) (by decide) (by decide)
    (by decide) (by decide)).2
  h.elim fun gdb1 hg => ⟨gdb1, hg.1, hg.2.1⟩

/-- C19: for every `H` argument made of a type character t followed by a
thread-id text whose decimal value (as parsed by `atoi`) is N, the handler
replies OK if and only if t is `c` or `g` and N is 0 or -1, and replies E01 in
every other case; it changes no processor or memory state. -/
theorem set_thread_reply (gdb : gdb_protocol_data R M) (t : Nat) (text : List Nat) (N : Int)
    (hlen : gdb.packet.length = MAX_PACKET_SIZE) (hN : atoi text = some N) :
    (∃ gdb1, set_thread gdb (t :: text) = some gdb1 ∧
      gdb1.written = gdb.written ++
        framed (if (t = 99 ∨ t = 103) ∧ (N = 0 ∨ N = -1) then [79, 75] else [69, 48, 49]) ∧
      gdb1.arm = gdb.arm ∧ gdb1.target_exception = gdb.target_exception ∧
      gdb1.shut_wr = gdb.shut_wr) ∧
    framed [79, 75] ≠ framed [69, 48, 49] := by
  refine ⟨?_, by decide⟩
  have hok : ∀ c ∈ text_OK, c ≠ 0 := by decide
  have he1 : ∀ c ∈ text_E01, c ≠ 0 := by decide
  simp only [set_thread, hN, Option.some_bind]
  by_cases hc : (t = 99 ∨ t = 103) ∧ N < 1 ∧ N > -2
  · rw [if_pos hc, if_pos ⟨hc.1, by omega⟩]
    obtain ⟨gdb1, e1, e2, _, e4, e5, e6, _⟩ := gdb_send_data_short gdb text_OK hlen hok
      (by decide)
    exact ⟨gdb1, e1, e2, e4, e5, e6⟩
  · rw [if_neg hc, if_neg (fun h => hc ⟨h.1, by omega⟩)]
    obtain ⟨gdb1, e1, e2, _, e4, e5, e6, _⟩ := gdb_send_data_short gdb text_E01 hlen he1
      (by decide)
    exact ⟨gdb1, e1, e2, e4, e5, e6⟩

theorem set_thread_reply_witness :
    (∃ gdb1, set_thread (sessionOver (coreWithPc 0)) (103 :: [45, 49, 0]) = some gdb1 ∧
      gdb1.written = (sessionOver (coreWithPc 0)).written ++
        framed (if (103 = 99 ∨ 103 = 103) ∧ ((-1 : Int) = 0 ∨ (-1 : Int) = -1) then [79, 75]
          else [69, 48, 49])) ∧
    (∃ gdb1, set_thread (sessionOver (coreWithPc 0)) (103 :: [49, 0]) = some gdb1 ∧
      gdb1.written = (sessionOver (coreWithPc 0)).written ++
        framed (if (103 = 99 ∨ 103 = 103) ∧ ((1 : Int) = 0 ∨ (1 : Int) = -1) then [79, 75]
          else [69, 48, 49])) :=
  ⟨(set_thread_reply (sessionOver (coreWithPc 0)) 103 [45, 49, 0] (-1) (sessionOver_length _)
      (by decide)).1.elim fun g hg => ⟨g, hg.1, hg.2.1⟩,
   (set_thread_reply (sessionOver (coreWithPc 0)) 103 [49, 0] 1 (sessionOver_length _)
      (by decide)).1.elim fun g hg => ⟨g, hg.1, hg.2.1⟩⟩

/-! ### Hexadecimal numbers in commands -/

theorem scanDigits_digits (ds rest : List Nat) (w acc n : Nat)
    (hds : ∀ d ∈ ds, isHexDigit d) (hw : ds.length ≤ w)
    (hrest : ∀ c ∈ rest.head?, ¬ isHexDigit c) :
    scanDigits w (ds ++ rest) acc n
      = (ds.foldl (fun a d => a * 16 + hexDigitValue d) acc, n + ds.length, rest) := by
  induction ds generalizing w acc n with
  | nil =>
    cases w with
    | zero => simp [scanDigits]
    | succ w =>
      cases rest with
      | nil => simp [scanDigits]
      | cons c cs =>
        have hc : ¬ isHexDigit c := hrest c (by simp)
        simp [scanDigits, hc]
  | cons d ds ih =>
    have hd : isHexDigit d := hds d (by simp)
    have hds1 : ∀ x ∈ ds, isHexDigit x := fun x hx => hds x (by simp [hx])
    cases w with
    | zero => simp at hw
    | succ w =>
      have hw1 : ds.length ≤ w := by simpa using hw
      have e : scanDigits (w + 1) (d :: (ds ++ rest)) acc n
          = scanDigits w (ds ++ rest) (acc * 16 + hexDigitValue d) (n + 1) := by
        simp only [scanDigits, if_pos hd]
      rw [List.cons_append, e, ih w _ _ hds1 hw1]
      simp only [List.foldl_cons, List.length_cons, Prod.mk.injEq, true_and, and_true]
      omega

/-- A `%x` conversion on a nonempty string of hexadecimal digits followed by
something that continues neither the number nor a `0x`. -/
theorem scan_x_digits (ds rest : List Nat) (w : Nat) (hne : ds ≠ [])
    (hds : ∀ d ∈ ds, isHexDigit d) (hw : ds.length ≤ w)
    (hrest : ∀ c ∈ rest.head?, ¬ isHexDigit c ∧ c ≠ 120 ∧ c ≠ 88)
    (hv : hexValue ds < U32) :
    scan_x w (ds ++ rest) = some (some (hexValue ds, rest)) := by
  obtain ⟨d, ds1, rfl⟩ := List.exists_cons_of_ne_nil hne
  have hd : isHexDigit d := hds d (by simp)
  have hsp : ¬ isSpace d := by
    unfold isHexDigit at hd
    unfold isSpace
    omega
  have hsg : d ≠ 43 ∧ d ≠ 45 := by
    unfold isHexDigit at hd
    omega
  obtain ⟨w1, rfl⟩ : ∃ w1, w = w1 + 1 := ⟨w - 1, by simp at hw; omega⟩
  have h0x : scan0x (w1 + 1) (d :: (ds1 ++ rest)) = (w1 + 1, d :: (ds1 ++ rest)) := by
    cases w1 with
    | zero => simp [scan0x]
    | succ w2 =>
      cases hl : ds1 ++ rest with
      | nil => simp [scan0x]
      | cons x r =>
        have hx : x ≠ 120 ∧ x ≠ 88 := by
          cases ds1 with
          | nil =>
            simp only [List.nil_append] at hl
            have := hrest x (by simp [hl])
            exact this.2
          | cons y ys =>
            simp only [List.cons_append, List.cons.injEq] at hl
            have hy : isHexDigit x := hl.1 ▸ hds y (by simp)
            unfold isHexDigit at hy
            omega
        simp [scan0x, hx.1, hx.2]
  have hsd := scanDigits_digits (d :: ds1) rest (w1 + 1) 0 0 hds hw
    (fun c hc => (hrest c hc).1)
  simp only [List.cons_append] at hsd
  have e1 : dropSpaces (d :: (ds1 ++ rest)) = d :: (ds1 ++ rest) := by
    simp only [dropSpaces, if_neg hsp]
  have e2 : scanSign (w1 + 1) (d :: (ds1 ++ rest)) = (false, w1 + 1, d :: (ds1 ++ rest)) := by
    simp only [scanSign, if_neg hsg.1, if_neg hsg.2]
  have hv1 : List.foldl (fun a d => a * 16 + hexDigitValue d) 0 (d :: ds1) < U32 := hv
  unfold scan_x
  rw [List.cons_append, e1, e2]
  simp only [h0x, hsd]
  rw [if_neg (by simp), if_pos hv1]
  simp [hexValue]

theorem c_string_append (pre rest : List Nat) (hpre : ∀ c ∈ pre, c ≠ 0) :
    c_string (pre ++ rest) = (c_string rest).map (fun s => pre ++ s) := by
  induction pre with
  | nil => simp
  | cons a pre ih =>
    have ha : a ≠ 0 := hpre a (by simp)
    rw [List.cons_append, c_string_cons a _ ha, ih (fun c hc => hpre c (by simp [hc]))]
    cases c_string rest <;> simp

theorem c_string_isSome (body tail : List Nat) :
    ∃ s, c_string (body ++ 0 :: tail) = some s := by
  unfold c_string
  rw [if_pos (by simp)]
  exact ⟨_, rfl⟩

theorem digits_ne_zero (ds : List Nat) (hds : ∀ d ∈ ds, isHexDigit d) : ∀ c ∈ ds, c ≠ 0 :=
  fun c hc => isHexDigit_ne_zero c (hds c hc)

/-- The two numbers `sscanf(data, "%x,%x", ...)` reads from `A,L` followed by a
character that continues neither number, in a NUL-terminated string. -/
theorem sscanf_x_x_eq (da dl more : List Nat) (t old_a old_b : Nat)
    (hda : da ≠ [] ∧ ∀ d ∈ da, isHexDigit d) (hdl : dl ≠ [] ∧ ∀ d ∈ dl, isHexDigit d)
    (ht : ¬ isHexDigit t ∧ t ≠ 120 ∧ t ≠ 88) (h0 : 0 ∈ t :: more)
    (hA : hexValue da < U32) (hL : hexValue dl < U32) :
    sscanf_x_x (da ++ 44 :: (dl ++ t :: more)) old_a old_b
      = some (hexValue da, hexValue dl) := by
  have hpre : ∀ c ∈ da ++ 44 :: dl, c ≠ 0 := by
    intro c hc
    simp only [List.mem_append, List.mem_cons] at hc
    rcases hc with h | rfl | h
    · exact digits_ne_zero da hda.2 c h
    · decide
    · exact digits_ne_zero dl hdl.2 c h
  have hcs : ∃ s1, c_string (da ++ 44 :: (dl ++ t :: more))
      = some (da ++ 44 :: (dl ++ s1)) ∧ ∀ c ∈ s1.head?, ¬ isHexDigit c ∧ c ≠ 120 ∧ c ≠ 88 := by
    have e : da ++ 44 :: (dl ++ t :: more) = (da ++ 44 :: dl) ++ (t :: more) := by simp
    rw [e, c_string_append _ _ hpre]
    unfold c_string
    rw [if_pos h0]
    by_cases ht0 : t = 0
    · subst ht0
      exact ⟨[], by simp [List.takeWhile], by simp⟩
    · refine ⟨t :: more.takeWhile (fun c => c ≠ 0), by simp [List.takeWhile, ht0], ?_⟩
      intro c hc
      simp only [List.head?_cons, Option.mem_def, Option.some.injEq] at hc
      exact hc ▸ ht
  obtain ⟨s1, hs, hs1⟩ := hcs
  unfold sscanf_x_x
  rw [hs]
  simp only [Option.some_bind]
  have h1 := scan_x_digits da (44 :: (dl ++ s1)) (da ++ 44 :: (dl ++ s1)).length hda.1 hda.2
    (by simp) (by
      intro c hc
      simp only [List.head?_cons, Option.mem_def, Option.some.injEq] at hc
      subst hc
      exact ⟨by decide, by decide, by decide⟩) hA
  have h2 := scan_x_digits dl s1 (dl ++ s1).length hdl.1 hdl.2 (by simp) hs1 hL
  rw [h1]
  simp only [Option.some_bind, if_true, h2, Option.map_some']

/-! ### The `m` reply -/

theorem read_memory_loop_bind {α : Type} (mm : Memory M) (m : M) (size a v : Nat)
    (b : List Nat) (pos q : Nat) (s : List Nat) (hq : q = pos + s.length)
    (F : List Nat → Option α) :
    (poke b pos (s ++ [0])).bind (fun b1 => (read_memory_loop mm m size a v b1 q).bind F)
      = (poke b pos (s ++ memory_text mm m size a v ++ [0])).bind F := by
  induction size generalizing a v s q with
  | zero => simp [read_memory_loop, memory_text]
  | succ size ih =>
    by_cases hst : (mm.memory_read_byte m a v).1 ≠ -1
    · simp only [read_memory_loop, memory_text, if_pos hst, Option.bind_assoc]
      rw [poke_poke_bind b pos q s _ (append_nul_ne_nil _) hq]
      have hl : (sprintf_02x ((mm.memory_read_byte m a v).2 % 256)).length = 2 :=
        sprintf_02x_length _ (Nat.mod_lt _ (by decide))
      have := ih ((a + 1) % U32) ((mm.memory_read_byte m a v).2 % 256)
        (q + 2) (s ++ sprintf_02x ((mm.memory_read_byte m a v).2 % 256))
        (by rw [List.length_append, hl, hq]; omega)
      simp only [List.append_assoc] at this ⊢
      exact this
    · simp only [read_memory_loop, memory_text, if_neg hst, Option.some_bind,
        List.append_nil]

theorem sprintf_02x_ne_zero (v : Nat) (hv : v < 256) : ∀ c ∈ sprintf_02x v, c ≠ 0 := by
  intro c hc
  rw [sprintf_02x_byte v hv] at hc
  simp only [List.mem_cons, List.mem_singleton, List.not_mem_nil, or_false] at hc
  rcases hc with rfl | rfl
  · exact isHexDigit_ne_zero _ (isHexDigit_hexDigitChar _ (by omega))
  · exact isHexDigit_ne_zero _ (isHexDigit_hexDigitChar _ (by omega))

theorem memory_text_ne_zero (mm : Memory M) (m : M) (size a v : Nat) :
    ∀ c ∈ memory_text mm m size a v, c ≠ 0 := by
  induction size generalizing a v with
  | zero =>
    intro c hc
    simp [memory_text] at hc
  | succ size ih =>
    intro c hc
    unfold memory_text at hc
    split at hc
    · rcases List.mem_append.mp hc with h | h
      · exact sprintf_02x_ne_zero _ (Nat.mod_lt _ (by decide)) c h
      · exact ih _ _ c h
    · simp at hc

/-- The `m` handler stages `memory_text` for the address and length read from
its argument, then sends the buffer. -/
theorem read_memory_stage (mm : Memory M) (junk : Nat) (gdb : gdb_protocol_data R M)
    (da dl tail : List Nat)
    (hda : da ≠ [] ∧ ∀ d ∈ da, isHexDigit d) (hdl : dl ≠ [] ∧ ∀ d ∈ dl, isHexDigit d)
    (hA : hexValue da < U32) (hL : hexValue dl < U32) :
    read_memory mm junk gdb (da ++ 44 :: (dl ++ 0 :: tail))
      = (poke gdb.packet 1
          (memory_text mm gdb.arm.mem (hexValue dl) (hexValue da) (junk % 256)
            ++ [0])).bind (fun b => gdb_send_buffer { gdb with packet := b }) := by
  unfold read_memory
  rw [sscanf_x_x_eq da dl tail 0 junk junk hda hdl (by decide) (by simp) hA hL]
  simp only [Option.some_bind]
  have := read_memory_loop_bind mm gdb.arm.mem (hexValue dl) (hexValue da)
    (junk % 256) gdb.packet 1 1 [] rfl (fun b => gdb_send_buffer { gdb with packet := b })
  simpa using this

theorem memory_text_eq_hex_pairs (mm : Memory M) (m : M) (size a v : Nat)
    (hc : ∀ a v, (mm.memory_read_byte m a v).1 = 0 ∨ (mm.memory_read_byte m a v).1 = -1) :
    memory_text mm m size a v = hex_pairs (read_run mm m size a v) := by
  induction size generalizing a v with
  | zero => rfl
  | succ size ih =>
    rcases hc a v with h | h
    · simp only [memory_text, read_run, h, hex_pairs, ih]
      simp
    · simp only [memory_text, read_run, h, hex_pairs]
      simp

theorem read_run_lt (mm : Memory M) (m : M) (size a v : Nat) :
    (∀ b ∈ read_run mm m size a v, b < 256) ∧ (read_run mm m size a v).length ≤ size := by
  induction size generalizing a v with
  | zero => simp [read_run]
  | succ size ih =>
    unfold read_run
    split
    · refine ⟨?_, by simpa using (ih _ _).2⟩
      intro b hb
      rcases List.mem_cons.mp hb with rfl | h
      · exact Nat.mod_lt _ (by decide)
      · exact (ih _ _).1 b h
    · simp

theorem hex_pairs_length (bs : List Nat) (h : ∀ b ∈ bs, b < 256) :
    (hex_pairs bs).length = 2 * bs.length := by
  induction bs with
  | nil => rfl
  | cons b bs ih =>
    simp only [hex_pairs, List.length_append, List.length_cons,
      sprintf_02x_length b (h b (by simp)), ih (fun x hx => h x (by simp [hx]))]
    omega

theorem flat_read_byte_status (m : List Nat) (a v : Nat) :
    (flatMemory.memory_read_byte m a v).1 = 0 ∨ (flatMemory.memory_read_byte m a v).1 = -1 := by
  simp only [flatMemory, flatRead]
  split
  · exact Or.inl rfl
  · exact Or.inr rfl

theorem read_run_flat_length (m : List Nat) (hm : m.length < U32) (L A v : Nat)
    (h : A + L ≤ m.length) : (read_run flatMemory m L A v).length = L := by
  induction L generalizing A v with
  | zero => rfl
  | succ L ih =>
    have h1 : A + 1 ≤ m.length := by omega
    have e : (flatMemory.memory_read_byte m A v).1 = 0 := by
      simp only [flatMemory, flatRead, if_pos h1]
    have e2 : (A + 1) % U32 = A + 1 := Nat.mod_eq_of_lt (by omega)
    simp only [read_run, e, if_true, List.length_cons, e2]
    rw [ih (A + 1) _ (by omega)]

theorem sessionWithMemory_length (mem : List Nat) :
    (sessionWithMemory mem).packet.length = MAX_PACKET_SIZE :=
  sessionOver_length _

/-- With a memory that refuses every read with status 1, `m` still emits a digit
pair for the refused byte: the loop only stops on status -1. -/
theorem memory_text_refusing (a v : Nat) :
    memory_text refusingMemory () 1 a v = sprintf_02x (v % 256) ∧
    read_run refusingMemory () 1 a v = [] := by
  constructor
  · simp [memory_text, refusingMemory]
  · simp [read_run, refusingMemory]

/-- C15 (as stated, refuted): on a flat memory of 512 zero bytes, which obeys
the memory contract and on which all 512 reads from address 0 succeed, the
command `m0,200` forms no reply at all: the 1024 digits do not fit the packet
buffer together with their frame. -/
theorem read_memory_512_counterexample :
    (∀ a v, (flatMemory.memory_read_byte (List.replicate 512 0) a v).1 = 0 ∨
      (flatMemory.memory_read_byte (List.replicate 512 0) a v).1 = -1) ∧
    (read_run flatMemory (List.replicate 512 0) (hexValue [50, 48, 48]) (hexValue [48])
      0).length = 512 ∧
    read_memory flatMemory 0 (sessionWithMemory (List.replicate 512 0))
      ([48] ++ 44 :: ([50, 48, 48] ++ 0 :: [])) = none := by
  have hv : hexValue [50, 48, 48] = 512 := by decide
  have hz : hexValue [48] = 0 := by decide
  have hrun : (read_run flatMemory (List.replicate 512 0) 512 0 0).length = 512 :=
    read_run_flat_length _ (by rw [List.length_replicate]; decide) 512 0 0
      (by rw [List.length_replicate])
  refine ⟨flat_read_byte_status _, by rw [hv, hz]; exact hrun, ?_⟩
  rw [read_memory_stage flatMemory 0 _ [48] [50, 48, 48] [] (by decide) (by decide)
      (by decide) (by decide),
    stage_send_eq _ _ (sessionWithMemory_length _) (memory_text_ne_zero _ _ _ _ _)]
  have hm : (sessionWithMemory (List.replicate 512 0)).arm.mem = List.replicate 512 0 := rfl
  rw [hm, hv, hz, memory_text_eq_hex_pairs _ _ _ _ _ (flat_read_byte_status _),
    hex_pairs_length _ (read_run_lt _ _ _ _ _).1]
  have e3 : 0 % 256 = 0 := by decide
  rw [e3, hrun]
  exact if_neg (by decide)

/-- C15 (amended): for a memory whose byte reads return 0 on success and -1 on
failure, an address A and a length L given in hexadecimal, and a run of k
successful reads (at most L, ending before the first failing read) whose 2k
digits fit the packet buffer with their frame (2k + 5 at most 1024), the reply
to `m A,L` is one frame whose payload is the two lowercase hexadecimal digits
of each byte of the run in order; nothing is emitted for the failing byte or a
later one, no error reply is sent and the core is untouched. -/
theorem read_memory_reply (mm : Memory M) (junk : Nat) (gdb : gdb_protocol_data R M)
    (da dl tail : List Nat)
    (hlen : gdb.packet.length = MAX_PACKET_SIZE)
    (hda : da ≠ [] ∧ ∀ d ∈ da, isHexDigit d) (hdl : dl ≠ [] ∧ ∀ d ∈ dl, isHexDigit d)
    (hA : hexValue da < U32) (hL : hexValue dl < U32)
    (hc : ∀ a v, (mm.memory_read_byte gdb.arm.mem a v).1 = 0 ∨
      (mm.memory_read_byte gdb.arm.mem a v).1 = -1)
    (hfit : 2 * (read_run mm gdb.arm.mem (hexValue dl) (hexValue da) (junk % 256)).length + 5
      ≤ MAX_PACKET_SIZE) :
    ∃ gdb1, read_memory mm junk gdb (da ++ 44 :: (dl ++ 0 :: tail)) = some gdb1 ∧
      gdb1.written = gdb.written ++
        framed (hex_pairs (read_run mm gdb.arm.mem (hexValue dl) (hexValue da) (junk % 256))) ∧
      (read_run mm gdb.arm.mem (hexValue dl) (hexValue da) (junk % 256)).length ≤ hexValue dl ∧
      gdb1.arm = gdb.arm ∧ gdb1.target_exception = gdb.target_exception := by
  rw [read_memory_stage mm junk gdb da dl tail hda hdl hA hL,
    stage_send_eq _ _ hlen (memory_text_ne_zero _ _ _ _ _),
    memory_text_eq_hex_pairs _ _ _ _ _ hc,
    if_pos (by rw [hex_pairs_length _ (read_run_lt _ _ _ _ _).1]; exact hfit)]
  exact ⟨_, rfl, rfl, (read_run_lt _ _ _ _ _).2, rfl, rfl⟩

theorem read_memory_reply_witness :
    ∃ gdb1, read_memory flatMemory 0 (sessionWithMemory [18, 171, 125])
        ([49] ++ 44 :: ([53] ++ 0 :: [])) = some gdb1 ∧
      gdb1.written = (sessionWithMemory [18, 171, 125]).written ++
        framed (hex_pairs (read_run flatMemory (sessionWithMemory [18, 171, 125]).arm.mem
          (hexValue [53]) (hexValue [49]) (0 % 256))) ∧
      hex_pairs (read_run flatMemory [18, 171, 125] 5 1 0) = [97, 98, 55, 100] :=
  (read_memory_reply flatMemory 0 (sessionWithMemory [18, 171, 125]) [49] [53] []
    (sessionWithMemory_length _) (by decide) (by decide) (by decide) (by decide)
    (flat_read_byte_status _) (by decide)).elim
    fun g hg => ⟨g, hg.1, hg.2.1, by decide⟩

/-! ### The `X` command -/

theorem dropWhile_append_of_all (p : Nat → Bool) (pre l : List Nat)
    (h : ∀ x ∈ pre, p x = true) : (pre ++ l).dropWhile p = l.dropWhile p := by
  induction pre with
  | nil => rfl
  | cons a pre ih =>
    rw [List.cons_append, List.dropWhile_cons, if_pos (h a (by simp))]
    exact ih (fun x hx => h x (by simp [hx]))

/-- Where `index` finds the separator `sep` that follows a number made of
hexadecimal digits and separator-free text `pre`. -/
theorem index_after (pre body tail : List Nat) (sep : Nat) (hsep : sep ≠ 0)
    (hpre : ∀ c ∈ pre, c ≠ 0 ∧ c ≠ sep) :
    index (pre ++ sep :: (body ++ 0 :: tail)) sep = some (sep :: (body ++ 0 :: tail)) := by
  obtain ⟨s, hs⟩ := c_string_isSome body tail
  unfold index
  rw [c_string_append pre _ (fun c hc => (hpre c hc).1), c_string_cons sep _ hsep, hs]
  simp only [Option.map_some', Option.some_bind]
  rw [if_pos (by simp)]
  rw [dropWhile_append_of_all _ pre _ (fun x hx => by simpa using (hpre x hx).2)]
  simp

theorem xor_32_32 (b : Nat) : (b ^^^ 32) ^^^ 32 = b := by
  rw [Nat.xor_assoc, Nat.xor_self, Nat.xor_zero]

/-- The loop of `X` on a well-formed body performs the successive byte writes
of the bytes the body carries. -/
theorem write_memory_binary_loop_eq (mm : Memory M) (items : List (Nat × Bool))
    (rest : List Nat)
    (hitems : ∀ it ∈ items, it.1 < 256 ∧ (it.2 = false → it.1 ≠ 0x7d)) (a : Nat) (m : M) :
    write_memory_binary_loop mm items.length a (escape_body items ++ rest) m
      = some (store_bytes mm m a (items.map Prod.fst)) := by
  induction items generalizing a m with
  | nil => simp [write_memory_binary_loop, store_bytes]
  | cons it items ih =>
    obtain ⟨b, e⟩ := it
    have hb : b < 256 := (hitems (b, e) (by simp)).1
    have hrest : ∀ it ∈ items, it.1 < 256 ∧ (it.2 = false → it.1 ≠ 0x7d) :=
      fun it h => hitems it (by simp [h])
    have hmod : b % 256 = b := Nat.mod_eq_of_lt hb
    cases e with
    | true =>
      have e1 : escape_body ((b, true) :: items) ++ rest
          = 0x7d :: (b ^^^ 0x20) :: (escape_body items ++ rest) := by
        simp [escape_body, escape_item]
      rw [e1]
      simp only [List.length_cons, write_memory_binary_loop, if_true, xor_32_32, hmod,
        List.map_cons, store_bytes]
      by_cases hs : (mm.memory_write_byte m a b).1 = 0
      · rw [if_pos hs, if_pos hs, ih hrest]
      · rw [if_neg hs, if_neg hs]
    | false =>
      have hne : b ≠ 0x7d := (hitems (b, false) (by simp)).2 rfl
      have e1 : escape_body ((b, false) :: items) ++ rest
          = b :: (escape_body items ++ rest) := by
        simp [escape_body, escape_item]
      rw [e1]
      simp only [List.length_cons, write_memory_binary_loop, if_neg hne, hmod,
        List.map_cons, store_bytes]
      by_cases hs : (mm.memory_write_byte m a b).1 = 0
      · rw [if_pos hs, if_pos hs, ih hrest]
      · rw [if_neg hs, if_neg hs]

theorem store_bytes_append (mm : Memory M) (pre l : List Nat) (m : M) (a : Nat)
    (ha : a < U32) (h : (store_bytes mm m a pre).1 = true) :
    store_bytes mm m a (pre ++ l)
      = store_bytes mm (store_bytes mm m a pre).2 ((a + pre.length) % U32) l := by
  induction pre generalizing m a with
  | nil => simp [store_bytes, Nat.mod_eq_of_lt ha]
  | cons b pre ih =>
    by_cases hs : (mm.memory_write_byte m a b).1 = 0
    · have e1 : store_bytes mm m a (b :: (pre ++ l))
          = store_bytes mm (mm.memory_write_byte m a b).2 ((a + 1) % U32) (pre ++ l) := by
        simp only [store_bytes, if_pos hs]
      have e2 : store_bytes mm m a (b :: pre)
          = store_bytes mm (mm.memory_write_byte m a b).2 ((a + 1) % U32) pre := by
        simp only [store_bytes, if_pos hs]
      rw [e2] at h
      rw [List.cons_append, e1, e2, ih _ _ (Nat.mod_lt _ (by decide)) h]
      congr 1
      rw [List.length_cons, Nat.add_mod, Nat.mod_mod, ← Nat.add_mod]
      congr 1
      omega
    · simp [store_bytes, if_neg hs] at h

/-- What the `X` handler does with a well-formed command: the header `A,L:` and
a body carrying L bytes. -/
theorem write_memory_binary_eq (mm : Memory M) (junk : Nat) (gdb : gdb_protocol_data R M)
    (da dl tail : List Nat) (items : List (Nat × Bool))
    (hda : da ≠ [] ∧ ∀ d ∈ da, isHexDigit d) (hdl : dl ≠ [] ∧ ∀ d ∈ dl, isHexDigit d)
    (hA : hexValue da < U32) (hL : hexValue dl = items.length) (hL32 : items.length < U32)
    (hitems : ∀ it ∈ items, it.1 < 256 ∧ (it.2 = false → it.1 ≠ 0x7d)) :
    write_memory_binary mm junk gdb (da ++ 44 :: (dl ++ 58 :: (escape_body items ++ 0 :: tail)))
      = if hexValue da < mm.memory_get_size gdb.arm.mem then
          gdb_send_data
            { gdb with arm := { gdb.arm with
                mem := (store_bytes mm gdb.arm.mem (hexValue da) (items.map Prod.fst)).2 } }
            (if (store_bytes mm gdb.arm.mem (hexValue da) (items.map Prod.fst)).1 then text_OK
              else text_E02)
        else gdb_send_data gdb text_E02 := by
  unfold write_memory_binary
  rw [sscanf_x_x_eq da dl (escape_body items ++ 0 :: tail) 58 junk junk hda hdl (by decide)
    (by simp) hA (by rw [hL]; exact hL32)]
  have hidx : index (da ++ 44 :: (dl ++ 58 :: (escape_body items ++ 0 :: tail))) 58
      = some (58 :: (escape_body items ++ 0 :: tail)) := by
    have := index_after (da ++ 44 :: dl) (escape_body items) tail 58 (by decide) (by
      intro c hc
      rcases List.mem_append.mp hc with h | h
      · have := hda.2 c h
        unfold isHexDigit at this
        omega
      · rcases List.mem_cons.mp h with rfl | h
        · decide
        · have := hdl.2 c h
          unfold isHexDigit at this
          omega)
    simpa using this
  rw [hidx]
  simp only [Option.some_bind, List.drop_succ_cons, List.drop_zero, hL]
  rw [write_memory_binary_loop_eq mm items _ hitems]
  simp only [Option.some_bind]

theorem store_bytes_fails (mm : Memory M) (l : List Nat) (m : M) (a : Nat) (ha : a < U32)
    (h : (store_bytes mm m a l).1 = false) :
    ∃ pre b post, l = pre ++ b :: post ∧ (store_bytes mm m a pre).1 = true ∧
      (mm.memory_write_byte (store_bytes mm m a pre).2 ((a + pre.length) % U32) b).1 ≠ 0 := by
  induction l generalizing m a with
  | nil => simp [store_bytes] at h
  | cons b l ih =>
    by_cases hs : (mm.memory_write_byte m a b).1 = 0
    · have e : ∀ t, store_bytes mm m a (b :: t)
          = store_bytes mm (mm.memory_write_byte m a b).2 ((a + 1) % U32) t := by
        intro t
        simp only [store_bytes, if_pos hs]
      rw [e] at h
      obtain ⟨pre, c, post, h1, h2, h3⟩ := ih _ _ (Nat.mod_lt _ (by decide)) h
      refine ⟨b :: pre, c, post, by rw [h1]; rfl, by rw [e]; exact h2, ?_⟩
      rw [e]
      have ea : ((a + 1) % U32 + pre.length) % U32 = (a + (b :: pre).length) % U32 := by
        rw [List.length_cons, Nat.add_mod, Nat.mod_mod, ← Nat.add_mod]
        congr 1
        omega
      rw [← ea]
      exact h3
    · refine ⟨[], b, l, rfl, rfl, ?_⟩
      simpa [store_bytes, Nat.mod_eq_of_lt ha] using hs

/-- C13: for a start address A below the memory size and bytes b_0..b_(L-1)
whose successive byte writes from A on all succeed, the `X` handler given
`A,L:` and a body carrying each byte either literally (a byte other than 0x7d)
or as 0x7d followed by the byte XOR 0x20 replies OK and leaves the memory that
these L byte writes, and no other write, produce; registers, cycle counter and
retained exception code are untouched. -/
theorem write_memory_binary_stores (mm : Memory M) (junk : Nat) (gdb : gdb_protocol_data R M)
    (da dl tail : List Nat) (items : List (Nat × Bool))
    (hlen : gdb.packet.length = MAX_PACKET_SIZE)
    (hda : da ≠ [] ∧ ∀ d ∈ da, isHexDigit d) (hdl : dl ≠ [] ∧ ∀ d ∈ dl, isHexDigit d)
    (hA : hexValue da < U32) (hL : hexValue dl = items.length) (hL32 : items.length < U32)
    (hitems : ∀ it ∈ items, it.1 < 256 ∧ (it.2 = false → it.1 ≠ 0x7d))
    (hbelow : hexValue da < mm.memory_get_size gdb.arm.mem)
    (hok : (store_bytes mm gdb.arm.mem (hexValue da) (items.map Prod.fst)).1 = true) :
    ∃ gdb1, write_memory_binary mm junk gdb
        (da ++ 44 :: (dl ++ 58 :: (escape_body items ++ 0 :: tail))) = some gdb1 ∧
      gdb1.written = gdb.written ++ framed [79, 75] ∧
      gdb1.arm.mem = (store_bytes mm gdb.arm.mem (hexValue da) (items.map Prod.fst)).2 ∧
      gdb1.arm.reg = gdb.arm.reg ∧ gdb1.arm.cycle_count = gdb.arm.cycle_count ∧
      gdb1.target_exception = gdb.target_exception := by
  rw [write_memory_binary_eq mm junk gdb da dl tail items hda hdl hA hL hL32 hitems,
    if_pos hbelow, if_pos hok]
  obtain ⟨gdb1, e1, e2, _, e4, e5, _, _⟩ := gdb_send_data_short
    { gdb with arm := { gdb.arm with
        mem := (store_bytes mm gdb.arm.mem (hexValue da) (items.map Prod.fst)).2 } }
    text_OK hlen (by decide) (by decide)
  exact ⟨gdb1, e1, e2, by rw [e4], by rw [e4], by rw [e4], e5⟩

theorem write_memory_binary_stores_witness :
    (∃ gdb1, write_memory_binary flatMemory 0 (sessionWithMemory (List.replicate 16 0))
        ([97] ++ 44 :: ([50] ++ 58 :: ([0x7d, 0x5d, 0x01] ++ 0 :: []))) = some gdb1 ∧
      gdb1.written = (sessionWithMemory (List.replicate 16 0)).written ++ framed [79, 75] ∧
      gdb1.arm.mem = [0, 0, 0, 0, 0, 0, 0, 0, 0, 0, 0x7d, 0x01, 0, 0, 0, 0]) ∧
    (∃ gdb1, write_memory_binary flatMemory 0 (sessionWithMemory [0, 0])
        ([48] ++ 44 :: ([49] ++ 58 :: ([0x7d, 0x5d] ++ 0 :: []))) = some gdb1 ∧
      gdb1.written = (sessionWithMemory [0, 0]).written ++ framed [79, 75] ∧
      gdb1.arm.mem = [0x7d, 0]) :=
  ⟨(write_memory_binary_stores flatMemory 0 (sessionWithMemory (List.replicate 16 0))
      [97] [50] [] [(0x7d, true), (0x01, false)] (sessionWithMemory_length _) (by decide)
      (by decide) (by decide) (by decide) (by decide) (by decide) (by decide) (by decide)).elim
      fun g hg => ⟨g, hg.1, hg.2.1, hg.2.2.1.trans (by decide)⟩,
   (write_memory_binary_stores flatMemory 0 (sessionWithMemory [0, 0])
      [48] [49] [] [(0x7d, true)] (sessionWithMemory_length _) (by decide)
      (by decide) (by decide) (by decide) (by decide) (by decide) (by decide) (by decide)).elim
      fun g hg => ⟨g, hg.1, hg.2.1, hg.2.2.1.trans (by decide)⟩⟩

/-- C14: on a well-formed command the `X` handler replies OK when the start
address A is below the memory size and every byte write succeeds, and E02 in
every other case, that is when A is not below the memory size or a byte write
fails; when A is not below the memory size the memory is unchanged; a failing
write ends the writes: the memory is the one left by the writes before it and
the failing attempt, no later body byte being written. -/
theorem write_memory_binary_status (mm : Memory M) (junk : Nat) (gdb : gdb_protocol_data R M)
    (da dl tail : List Nat) (items : List (Nat × Bool))
    (hlen : gdb.packet.length = MAX_PACKET_SIZE)
    (hda : da ≠ [] ∧ ∀ d ∈ da, isHexDigit d) (hdl : dl ≠ [] ∧ ∀ d ∈ dl, isHexDigit d)
    (hA : hexValue da < U32) (hL : hexValue dl = items.length) (hL32 : items.length < U32)
    (hitems : ∀ it ∈ items, it.1 < 256 ∧ (it.2 = false → it.1 ≠ 0x7d)) :
    (∃ gdb1, write_memory_binary mm junk gdb
        (da ++ 44 :: (dl ++ 58 :: (escape_body items ++ 0 :: tail))) = some gdb1 ∧
      gdb1.written = gdb.written ++
        framed (if hexValue da < mm.memory_get_size gdb.arm.mem ∧
            (store_bytes mm gdb.arm.mem (hexValue da) (items.map Prod.fst)).1 = true
          then [79, 75] else [69, 48, 50]) ∧
      gdb1.arm.mem = (if hexValue da < mm.memory_get_size gdb.arm.mem
        then (store_bytes mm gdb.arm.mem (hexValue da) (items.map Prod.fst)).2
        else gdb.arm.mem) ∧
      gdb1.arm.reg = gdb.arm.reg) ∧
    (∀ pre b post, items.map Prod.fst = pre ++ b :: post →
      (store_bytes mm gdb.arm.mem (hexValue da) pre).1 = true →
      (mm.memory_write_byte (store_bytes mm gdb.arm.mem (hexValue da) pre).2
        ((hexValue da + pre.length) % U32) b).1 ≠ 0 →
      store_bytes mm gdb.arm.mem (hexValue da) (items.map Prod.fst)
        = (false, (mm.memory_write_byte (store_bytes mm gdb.arm.mem (hexValue da) pre).2
            ((hexValue da + pre.length) % U32) b).2)) ∧
    ((store_bytes mm gdb.arm.mem (hexValue da) (items.map Prod.fst)).1 = false →
      ∃ pre b post, items.map Prod.fst = pre ++ b :: post ∧
        (store_bytes mm gdb.arm.mem (hexValue da) pre).1 = true ∧
        (mm.memory_write_byte (store_bytes mm gdb.arm.mem (hexValue da) pre).2
          ((hexValue da + pre.length) % U32) b).1 ≠ 0) ∧
    framed [79, 75] ≠ framed [69, 48, 50] := by
  refine ⟨?_, ?_, store_bytes_fails mm _ _ _ hA, by decide⟩
  · rw [write_memory_binary_eq mm junk gdb da dl tail items hda hdl hA hL hL32 hitems]
    by_cases hbelow : hexValue da < mm.memory_get_size gdb.arm.mem
    · rw [if_pos hbelow, if_pos hbelow]
      by_cases hok : (store_bytes mm gdb.arm.mem (hexValue da) (items.map Prod.fst)).1 = true
      · rw [if_pos hok, if_pos ⟨hbelow, hok⟩]
        obtain ⟨gdb1, e1, e2, _, e4, _, _, _⟩ := gdb_send_data_short
          { gdb with arm := { gdb.arm with
              mem := (store_bytes mm gdb.arm.mem (hexValue da) (items.map Prod.fst)).2 } }
          text_OK hlen (by decide) (by decide)
        exact ⟨gdb1, e1, e2, by rw [e4], by rw [e4]⟩
      · rw [if_neg hok, if_neg (fun h => hok h.2)]
        obtain ⟨gdb1, e1, e2, _, e4, _, _, _⟩ := gdb_send_data_short
          { gdb with arm := { gdb.arm with
              mem := (store_bytes mm gdb.arm.mem (hexValue da) (items.map Prod.fst)).2 } }
          text_E02 hlen (by decide) (by decide)
        exact ⟨gdb1, e1, e2, by rw [e4], by rw [e4]⟩
    · rw [if_neg hbelow, if_neg hbelow, if_neg (fun h => hbelow h.1)]
      obtain ⟨gdb1, e1, e2, _, e4, _, _, _⟩ := gdb_send_data_short gdb text_E02 hlen
        (by decide) (by decide)
      exact ⟨gdb1, e1, e2, by rw [e4], by rw [e4]⟩
  · intro pre b post hsplit hpre hfail
    rw [hsplit, store_bytes_append mm pre (b :: post) _ _ hA hpre]
    simp only [store_bytes, if_neg hfail]

theorem write_memory_binary_status_witness :
    (∃ gdb1, write_memory_binary flatMemory 0 (sessionWithMemory [1, 2, 3, 4])
        ([52] ++ 44 :: ([49] ++ 58 :: ([0] ++ 0 :: []))) = some gdb1 ∧
      gdb1.written = framed [69, 48, 50] ∧ gdb1.arm.mem = [1, 2, 3, 4]) ∧
    (∃ gdb1, write_memory_binary flatMemory 0 (sessionWithMemory [1, 2, 3, 4])
        ([51] ++ 44 :: ([50] ++ 58 :: ([97, 98] ++ 0 :: []))) = some gdb1 ∧
      gdb1.written = framed [69, 48, 50] ∧ gdb1.arm.mem = [1, 2, 3, 97]) ∧
    (∃ gdb1, write_memory_binary flatMemory 0 (sessionWithMemory [1, 2, 3, 4])
        ([50] ++ 44 :: ([50] ++ 58 :: ([97, 98] ++ 0 :: []))) = some gdb1 ∧
      gdb1.written = framed [79, 75] ∧ gdb1.arm.mem = [1, 2, 97, 98]) :=
  ⟨(write_memory_binary_status flatMemory 0 (sessionWithMemory [1, 2, 3, 4])
      [52] [49] [] [(0, false)] (sessionWithMemory_length _) (by decide)
      (by decide) (by decide) (by decide) (by decide) (by decide)).1.elim
      fun g hg => ⟨g, hg.1, hg.2.1.trans (by decide), hg.2.2.1.trans (by decide)⟩,
   (write_memory_binary_status flatMemory 0 (sessionWithMemory [1, 2, 3, 4])
      [51] [50] [] [(97, false), (98, false)] (sessionWithMemory_length _) (by decide)
      (by decide) (by decide) (by decide) (by decide) (by decide)).1.elim
      fun g hg => ⟨g, hg.1, hg.2.1.trans (by decide), hg.2.2.1.trans (by decide)⟩,
   (write_memory_binary_status flatMemory 0 (sessionWithMemory [1, 2, 3, 4])
      [50] [50] [] [(97, false), (98, false)] (sessionWithMemory_length _) (by decide)
      (by decide) (by decide) (by decide) (by decide) (by decide)).1.elim
      fun g hg => ⟨g, hg.1, hg.2.1.trans (by decide), hg.2.2.1.trans (by decide)⟩⟩

/-! ### The `c` command -/

/-- One round of the loop of `cont` when bit 1 of the stored PC is clear: the
word is read at the stored PC. -/
theorem cont_loop_succ (rf : Registers R) (mm : Memory M)
    (arm_step : arm_core_data R M → Int × arm_core_data R M) (fuel instruction : Nat)
    (gdb : gdb_protocol_data R M)
    (hpc : rf.read_register gdb.arm.reg 15 < U32)
    (hb : rf.read_register gdb.arm.reg 15 &&& 2 = 0) :
    cont_loop rf mm arm_step (fuel + 1) gdb instruction
      = if (mm.memory_read_word gdb.arm.mem (rf.read_register gdb.arm.reg 15)
            instruction).2 &&& 0xFFF000F0 = 0xE7F000F0 then gdb_send_stop_reason gdb
        else cont_loop rf mm arm_step fuel
          { gdb with target_exception := (arm_step gdb.arm).1, arm := (arm_step gdb.arm).2 }
          (mm.memory_read_word gdb.arm.mem (rf.read_register gdb.arm.reg 15) instruction).2 := by
  have e : (arm_read_register rf gdb.arm 15 + U32 - 4) % U32
      = rf.read_register gdb.arm.reg 15 := by
    simp only [arm_read_register, if_true]
    exact pc_read_minus_four _ hpc hb
  simp only [cont_loop, e, arm_read_word]

/-- One round of the loop of `cont`. -/
theorem cont_loop_step (rf : Registers R) (mm : Memory M)
    (arm_step : arm_core_data R M → Int × arm_core_data R M) (fuel instruction : Nat)
    (gdb : gdb_protocol_data R M) :
    cont_loop rf mm arm_step (fuel + 1) gdb instruction
      = if (mm.memory_read_word gdb.arm.mem ((arm_read_register rf gdb.arm 15 + U32 - 4) % U32)
            instruction).2 &&& 0xFFF000F0 = 0xE7F000F0 then gdb_send_stop_reason gdb
        else cont_loop rf mm arm_step fuel
          { gdb with target_exception := (arm_step gdb.arm).1, arm := (arm_step gdb.arm).2 }
          (mm.memory_read_word gdb.arm.mem ((arm_read_register rf gdb.arm 15 + U32 - 4) % U32)
            instruction).2 := by
  simp only [cont_loop, arm_read_word]

/-- The stop reply sent on a session whose core and retained code were just
replaced. -/
theorem stop_after_step (g : gdb_protocol_data R M) (te : Int) (a : arm_core_data R M)
    (hlen : g.packet.length = MAX_PACKET_SIZE) :
    ∃ gdb1, gdb_send_stop_reason { g with target_exception := te, arm := a } = some gdb1 ∧
      gdb1.arm = a ∧ gdb1.target_exception = te ∧
      gdb1.written = g.written ++ framed (stop_text te) := by
  obtain ⟨gdb1, h1, h2, _, h4, h5, _, _⟩ :=
    gdb_send_stop_reason_some { g with target_exception := te, arm := a } hlen
  exact ⟨gdb1, h1, h4, h5, h2⟩

theorem sessionAt_length (pc : Nat) (mem : List Nat) :
    (sessionAt pc mem).packet.length = MAX_PACKET_SIZE :=
  sessionOver_length _

/-- C16 (as stated, refuted): with stored PC 2 the word at the stored PC is
0xE7F000F0, yet `c` reads the word at address 0, which is no breakpoint, and
invokes the step primitive; with a step primitive that counts a cycle, moves
the PC to 4 and reports an undefined instruction the handler ends with cycle
count 1, retained code 2 and the reply S04 instead of S05. -/
theorem cont_pc2_counterexample :
    flatMemory.memory_read_word
      (sessionAt 2 [0, 0, 0xF0, 0, 0xF0, 0xE7, 0xF0, 0xE7]).arm.mem
      (bankedRegisters.read_register (sessionAt 2 [0, 0, 0xF0, 0, 0xF0, 0xE7, 0xF0, 0xE7]).arm.reg
        15) 0 = (0, 0xE7F000F0) ∧
    (sessionAt 2 [0, 0, 0xF0, 0, 0xF0, 0xE7, 0xF0, 0xE7]).arm.cycle_count = 0 ∧
    (sessionAt 2 [0, 0, 0xF0, 0, 0xF0, 0xE7, 0xF0, 0xE7]).target_exception = 0 ∧
    (∀ (arm_step : arm_core_data BankedRegs (List Nat) →
          Int × arm_core_data BankedRegs (List Nat)) (junk : Nat),
      cont bankedRegisters flatMemory arm_step 1 junk
        (sessionAt 2 [0, 0, 0xF0, 0, 0xF0, 0xE7, 0xF0, 0xE7]) [] = none) ∧
    ∃ gdb1, cont bankedRegisters flatMemory stepRaisingUndefined 2 0
        (sessionAt 2 [0, 0, 0xF0, 0, 0xF0, 0xE7, 0xF0, 0xE7]) [] = some gdb1 ∧
      gdb1.arm.cycle_count = 1 ∧ gdb1.target_exception = (UNDEFINED_INSTRUCTION : Int) ∧
      gdb1.written = framed [83, 48, 52] := by
  refine ⟨by decide, rfl, rfl, ?_, ?_⟩
  · intro arm_step junk
    have e : (arm_read_register bankedRegisters
        (sessionAt 2 [0, 0, 0xF0, 0, 0xF0, 0xE7, 0xF0, 0xE7]).arm 15 + U32 - 4) % U32 = 0 := by
      decide
    have hr : flatMemory.memory_read_word
        (sessionAt 2 [0, 0, 0xF0, 0, 0xF0, 0xE7, 0xF0, 0xE7]).arm.mem 0 junk
        = (0, 0x00F00000) := rfl
    unfold cont
    rw [cont_loop_step, e, hr, if_neg (by decide)]
    rfl
  · have e : (arm_read_register bankedRegisters
        (sessionAt 2 [0, 0, 0xF0, 0, 0xF0, 0xE7, 0xF0, 0xE7]).arm 15 + U32 - 4) % U32 = 0 := by
      decide
    have hr : flatMemory.memory_read_word
        (sessionAt 2 [0, 0, 0xF0, 0, 0xF0, 0xE7, 0xF0, 0xE7]).arm.mem 0 0
        = (0, 0x00F00000) := rfl
    unfold cont
    rw [cont_loop_step, e, hr, if_neg (by decide), cont_loop_step, if_pos (by decide)]
    obtain ⟨gdb1, h1, h2, h3, h4⟩ := stop_after_step
      (sessionAt 2 [0, 0, 0xF0, 0, 0xF0, 0xE7, 0xF0, 0xE7])
      (stepRaisingUndefined (sessionAt 2 [0, 0, 0xF0, 0, 0xF0, 0xE7, 0xF0, 0xE7]).arm).1
      (stepRaisingUndefined (sessionAt 2 [0, 0, 0xF0, 0, 0xF0, 0xE7, 0xF0, 0xE7]).arm).2
      (sessionAt_length _ _)
    exact ⟨gdb1, h1, by rw [h2]; rfl, h3, h4⟩

/-- C16 (amended): for every core state whose stored PC has bit 1 clear and in
which the word read at the stored PC, w, satisfies (w AND 0xFFF000F0) =
0xE7F000F0, the `c` handler does what sending the stop reply alone does,
whatever the step primitive is: it leaves the core (cycle counter, registers,
CPSR, memory) and the retained exception code unchanged and sends the stop
reply for the retained code, which is S05 when the code is 0 as on a fresh
session. -/
theorem cont_at_breakpoint (rf : Registers R) (mm : Memory M)
    (arm_step : arm_core_data R M → Int × arm_core_data R M) (fuel junk : Nat)
    (gdb : gdb_protocol_data R M) (data : List Nat)
    (hlen : gdb.packet.length = MAX_PACKET_SIZE)
    (hpc : rf.read_register gdb.arm.reg 15 < U32)
    (hb : rf.read_register gdb.arm.reg 15 &&& 2 = 0)
    (hw : (mm.memory_read_word gdb.arm.mem (rf.read_register gdb.arm.reg 15) junk).2
      &&& 0xFFF000F0 = 0xE7F000F0) :
    cont rf mm arm_step (fuel + 1) junk gdb data = gdb_send_stop_reason gdb ∧
    ∃ gdb1, cont rf mm arm_step (fuel + 1) junk gdb data = some gdb1 ∧
      gdb1.arm = gdb.arm ∧ gdb1.target_exception = gdb.target_exception ∧
      gdb1.written = gdb.written ++ framed (stop_text gdb.target_exception) ∧
      (gdb.target_exception = 0 → gdb1.written = gdb.written ++ framed [83, 48, 53]) := by
  have e : cont rf mm arm_step (fuel + 1) junk gdb data = gdb_send_stop_reason gdb := by
    unfold cont
    rw [cont_loop_succ rf mm arm_step fuel junk gdb hpc hb, if_pos hw]
  refine ⟨e, ?_⟩
  rw [e]
  obtain ⟨gdb1, h1, h2, _, h4, h5, _, _⟩ := gdb_send_stop_reason_some gdb hlen
  refine ⟨gdb1, h1, h4, h5, h2, ?_⟩
  intro h0
  rw [h2, h0]
  rfl

theorem cont_at_breakpoint_witness :
    ∃ gdb1, cont bankedRegisters flatMemory stepRaisingUndefined (0 + 1) 0
        (sessionAt 0 [0xF0, 0x00, 0xF0, 0xE7]) [] = some gdb1 ∧
      gdb1.arm = (sessionAt 0 [0xF0, 0x00, 0xF0, 0xE7]).arm ∧
      gdb1.arm.cycle_count = 0 ∧
      gdb1.target_exception = 0 ∧
      gdb1.written = framed [83, 48, 53] :=
  (cont_at_breakpoint bankedRegisters flatMemory stepRaisingUndefined 0 0
    (sessionAt 0 [0xF0, 0x00, 0xF0, 0xE7]) [] (sessionAt_length _ _) (by decide) (by decide)
    (by decide)).2.elim
    fun g hg => ⟨g, hg.1, hg.2.1, by rw [hg.2.1]; rfl, hg.2.2.1, hg.2.2.2.2 rfl⟩

/-! ### The `P` and `p` commands -/

/-- The number `sscanf(data, "%x", ...)` reads from hexadecimal digits followed
by a character that does not continue the number. -/
theorem sscanf_x_digits (ds more : List Nat) (t old : Nat)
    (hds : ds ≠ [] ∧ ∀ d ∈ ds, isHexDigit d)
    (ht : ¬ isHexDigit t ∧ t ≠ 120 ∧ t ≠ 88) (h0 : 0 ∈ t :: more)
    (hv : hexValue ds < U32) :
    sscanf_x none (ds ++ t :: more) old = some (hexValue ds) := by
  have hrest : ∀ c ∈ ((t :: more).takeWhile (fun c => c ≠ 0)).head?,
      ¬ isHexDigit c ∧ c ≠ 120 ∧ c ≠ 88 := by
    intro c hc
    by_cases h : t = 0
    · subst h
      simp [List.takeWhile] at hc
    · rw [List.takeWhile_cons_of_pos (by simpa using h)] at hc
      simp only [List.head?_cons, Option.mem_def, Option.some.injEq] at hc
      subst hc
      exact ht
  have hscan := scan_x_digits ds ((t :: more).takeWhile (fun c => c ≠ 0))
    (ds ++ (t :: more).takeWhile (fun c => c ≠ 0)).length hds.1 hds.2 (by simp) hrest hv
  unfold sscanf_x
  rw [c_string_append ds _ (digits_ne_zero ds hds.2)]
  unfold c_string
  rw [if_pos h0]
  simp only [Option.map_some', Option.some_bind, Option.getD_none]
  rw [hscan]
  rfl

theorem write_register_eq (rf : Registers R) (host target : Bool) (junk : Nat)
    (gdb : gdb_protocol_data R M) (ds tail : List Nat) (V : Nat)
    (hds : ds ≠ [] ∧ ∀ d ∈ ds, isHexDigit d) (hr : hexValue ds < 16) (hV : V < U32) :
    write_register rf host target junk gdb (ds ++ 61 :: (wire32 target V ++ 0 :: tail))
      = gdb_send_data { gdb with arm := arm_write_register rf gdb.arm (hexValue ds) V }
          text_OK := by
  have h256 : hexValue ds % 256 = hexValue ds := Nat.mod_eq_of_lt (by omega)
  unfold write_register
  rw [sscanf_x_digits ds _ 61 junk hds (by decide) (by simp) (by unfold U32; omega),
    index_after ds (wire32 target V) tail 61 (by decide) (by
      intro c hc
      have := hds.2 c hc
      unfold isHexDigit at this
      omega)]
  simp only [Option.some_bind, List.drop_succ_cons, List.drop_zero]
  rw [read_uint32_wire32 host target junk V hV (0 :: tail) (by simp)]
  simp only [Option.some_bind, h256, if_pos hr]

theorem atoi_digit (d : Nat) (tail : List Nat) (hd : 48 ≤ d ∧ d ≤ 57) :
    atoi (d :: 0 :: tail) = some ((d - 48 : Nat) : Int) := by
  have hc : c_string ([d] ++ 0 :: tail) = some [d] :=
    c_string_eq [d] tail (by intro c hc; simp at hc; omega)
  have hsp : ¬ isSpace d := by unfold isSpace; omega
  have hdg : isDigit d := by unfold isDigit; omega
  have e1 : dropSpaces [d] = [d] := by simp [dropSpaces, hsp]
  have e2 : atoiSign [d] = (false, [d]) := by
    simp only [atoiSign]
    rw [if_neg (by omega), if_neg (by omega)]
  have e3 : scanDecimal [d] 0 = d - 48 := by simp [scanDecimal, hdg]
  unfold atoi
  simp only [List.singleton_append] at hc
  rw [hc]
  simp only [Option.some_bind, e1, e2, e3]
  rw [if_pos (by constructor <;> simp <;> omega)]
  simp

/-- The `p` handler on a one-digit register number below 10 other than 15:
it stages the wire encoding of the register and sends it. -/
theorem read_register_eq (rf : Registers R) (host target : Bool)
    (gdb : gdb_protocol_data R M) (d : Nat) (tail : List Nat) (hd : 48 ≤ d ∧ d ≤ 57)
    (hv : rf.read_register gdb.arm.reg (d - 48) < U32) :
    read_register rf host target gdb (d :: 0 :: tail)
      = (poke gdb.packet 1 (wire32 target (rf.read_register gdb.arm.reg (d - 48)) ++ [0])).bind
          (fun b => gdb_send_buffer { gdb with packet := b }) := by
  unfold read_register
  rw [atoi_digit d tail hd]
  have e : (((d - 48 : Nat) : Int) % (U32 : Int)).toNat = d - 48 := by
    unfold U32
    omega
  simp only [Option.some_bind, e]
  rw [if_pos (by omega), if_neg (by omega), write_uint32_eq]
  have e2 : (d - 48) % 256 = d - 48 := Nat.mod_eq_of_lt (by omega)
  have e3 : arm_read_register rf gdb.arm (d - 48) = rf.read_register gdb.arm.reg (d - 48) := by
    unfold arm_read_register
    simp only []
    rw [if_neg (by omega)]
  rw [e2, e3]
  have e4 : (rf.read_register gdb.arm.reg (d - 48) + U32 - 0) % U32
      = rf.read_register gdb.arm.reg (d - 48) := by
    rw [Nat.sub_zero, Nat.add_mod_right, Nat.mod_eq_of_lt hv]
  rw [e4]

/-- The value whose wire encoding is the text `deadbeef`. -/
theorem wire32_deadbeef (target : Bool) :
    wire32 target (if target then 0xdeadbeef else 0xefbeadde)
      = [100, 101, 97, 100, 98, 101, 101, 102] ∧
    (if target then 0xdeadbeef else 0xefbeadde) < U32 := by
  cases target <;> exact ⟨by decide, by decide⟩

/-- The packet `$P1=deadbeef#de`: register 1 receives the value whose wire
encoding is `deadbeef` and OK is replied. -/
theorem packet_P1_deadbeef (rf : Registers R) (mm : Memory M) (host target : Bool)
    (arm_step : arm_core_data R M → Int × arm_core_data R M) (fuel junk : Nat)
    (gdb : gdb_protocol_data R M) (tail : List Nat)
    (hlen : gdb.packet.length = MAX_PACKET_SIZE) :
    ∃ gdb1, gdb_packet_analysis (gdb_init rf mm host target arm_step fuel junk) junk gdb
        (36 :: ([80, 49, 61, 100, 101, 97, 100, 98, 101, 101, 102]
          ++ 35 :: 100 :: 101 :: 0 :: tail)) ((11 + 4 : Nat) : Int) = some gdb1 ∧
      gdb1.written = gdb.written ++ 43 :: framed [79, 75] ∧
      gdb1.arm = arm_write_register rf gdb.arm 1 (if target then 0xdeadbeef else 0xefbeadde) ∧
      gdb1.packet.length = MAX_PACKET_SIZE := by
  obtain ⟨hw, hV⟩ := wire32_deadbeef target
  have hh : gdb_init rf mm host target arm_step fuel junk
      (([80, 49, 61, 100, 101, 97, 100, 98, 101, 101, 102] : List Nat).headD 0 % 256)
      = some (write_register rf host target junk) := rfl
  have hdata : ([80, 49, 61, 100, 101, 97, 100, 98, 101, 101, 102]
      ++ 0 :: 100 :: 101 :: 0 :: tail).drop 1
      = [49] ++ 61 :: (wire32 target (if target then 0xdeadbeef else 0xefbeadde)
          ++ 0 :: 100 :: 101 :: 0 :: tail) := by
    rw [hw]
    rfl
  have e := gdb_packet_analysis_eq (gdb_init rf mm host target arm_step fuel junk) junk gdb
    [80, 49, 61, 100, 101, 97, 100, 98, 101, 101, 102] tail 100 101 (by decide) (by decide)
  rw [if_pos (by decide), gdb_dispatch_eq, headD_payload, hh] at e
  simp only [] at e
  rw [hdata, write_register_eq rf host target junk _ [49] _ _ (by decide) (by decide) hV] at e
  obtain ⟨gdb1, e1, e2, _, e4, _, _, e7⟩ := gdb_send_data_short
    { gdb_send_ack gdb with
      arm := arm_write_register rf (gdb_send_ack gdb).arm (hexValue [49])
        (if target then 0xdeadbeef else 0xefbeadde) }
    text_OK hlen (by decide) (by decide)
  refine ⟨gdb1, e.trans e1, ?_, ?_, e7⟩
  · rw [e2]
    simp [gdb_send_ack, text_OK]
  · rw [e4]
    rfl

/-- The packet `$p1#a1`: the reply is the wire encoding of register 1. -/
theorem packet_p1 (rf : Registers R) (mm : Memory M) (host target : Bool)
    (arm_step : arm_core_data R M → Int × arm_core_data R M) (fuel junk : Nat)
    (gdb : gdb_protocol_data R M) (tail : List Nat)
    (hlen : gdb.packet.length = MAX_PACKET_SIZE)
    (hv : rf.read_register gdb.arm.reg 1 < U32) :
    ∃ gdb1, gdb_packet_analysis (gdb_init rf mm host target arm_step fuel junk) junk gdb
        (36 :: ([112, 49] ++ 35 :: 97 :: 49 :: 0 :: tail)) ((2 + 4 : Nat) : Int) = some gdb1 ∧
      gdb1.written = gdb.written ++
        43 :: framed (wire32 target (rf.read_register gdb.arm.reg 1)) ∧
      gdb1.arm = gdb.arm := by
  have hh : gdb_init rf mm host target arm_step fuel junk
      (([112, 49] : List Nat).headD 0 % 256) = some (read_register rf host target) := rfl
  have hdata : ([112, 49] ++ 0 :: 97 :: 49 :: 0 :: tail).drop 1
      = 49 :: 0 :: 97 :: 49 :: 0 :: tail := rfl
  have e := gdb_packet_analysis_eq (gdb_init rf mm host target arm_step fuel junk) junk gdb
    [112, 49] tail 97 49 (by decide) (by decide)
  rw [if_pos (by decide), gdb_dispatch_eq, headD_payload, hh] at e
  simp only [] at e
  rw [hdata, read_register_eq rf host target (gdb_send_ack gdb) 49 _ (by decide) hv,
    stage_send_eq (gdb_send_ack gdb) _ hlen (wire32_ne_zero target _),
    if_pos (by rw [wire32_length]; decide)] at e
  refine ⟨_, e, ?_, rfl⟩
  simp [gdb_send_ack]

/-- The packets `$P1=deadbeef#de` and `$p1#a1` handled in turn. -/
theorem packets_P1_then_p1 (rf : Registers R) (mm : Memory M) (host target : Bool)
    (arm_step : arm_core_data R M → Int × arm_core_data R M) (fuel junk : Nat)
    (gdb : gdb_protocol_data R M) (tail1 tail2 : List Nat)
    (hlen : gdb.packet.length = MAX_PACKET_SIZE) (hrf : ReadsLastWrite rf) :
    ∃ gdb1 gdb2,
      gdb_packet_analysis (gdb_init rf mm host target arm_step fuel junk) junk gdb
        (36 :: ([80, 49, 61, 100, 101, 97, 100, 98, 101, 101, 102]
          ++ 35 :: 100 :: 101 :: 0 :: tail1)) ((11 + 4 : Nat) : Int) = some gdb1 ∧
      gdb_packet_analysis (gdb_init rf mm host target arm_step fuel junk) junk gdb1
        (36 :: ([112, 49] ++ 35 :: 97 :: 49 :: 0 :: tail2)) ((2 + 4 : Nat) : Int) = some gdb2 ∧
      gdb1.written = gdb.written ++ [43, 36, 79, 75, 35, 57, 97] ∧
      gdb2.written = gdb1.written ++ 43 :: framed [100, 101, 97, 100, 98, 101, 101, 102] ∧
      rf.read_register gdb2.arm.reg 1 = (if target then 0xdeadbeef else 0xefbeadde) := by
  obtain ⟨hw, hV⟩ := wire32_deadbeef target
  obtain ⟨gdb1, a1, a2, a3, a4⟩ :=
    packet_P1_deadbeef rf mm host target arm_step fuel junk gdb tail1 hlen
  have hr : rf.read_register gdb1.arm.reg 1 = (if target then 0xdeadbeef else 0xefbeadde) := by
    rw [a3]
    exact hrf gdb.arm.reg 1 _ (by decide) hV
  obtain ⟨gdb2, b1, b2, b3⟩ :=
    packet_p1 rf mm host target arm_step fuel junk gdb1 tail2 a4 (by rw [hr]; exact hV)
  refine ⟨gdb1, gdb2, a1, b1, ?_, ?_, ?_⟩
  · rw [a2]
    rfl
  · rw [b2, hr, hw]
  · rw [b3, hr]

/-- C12 (as stated, refuted): on a little-endian target, after `P1=deadbeef`
the reply to `p1` is the packet with payload `deadbeef`, not `efbeadde`. -/
theorem P1_then_p1_counterexample :
    ∃ gdb1 gdb2,
      gdb_packet_analysis (gdb_init bankedRegisters flatMemory false false (fun p => (0, p)) 1 0)
        0 (sessionOver (coreWithPc 0))
        (36 :: ([80, 49, 61, 100, 101, 97, 100, 98, 101, 101, 102]
          ++ 35 :: 100 :: 101 :: 0 :: [])) ((11 + 4 : Nat) : Int) = some gdb1 ∧
      gdb_packet_analysis (gdb_init bankedRegisters flatMemory false false (fun p => (0, p)) 1 0)
        0 gdb1 (36 :: ([112, 49] ++ 35 :: 97 :: 49 :: 0 :: [])) ((2 + 4 : Nat) : Int)
        = some gdb2 ∧
      gdb2.written = gdb1.written ++ 43 :: framed [100, 101, 97, 100, 98, 101, 101, 102] ∧
      gdb2.written ≠ gdb1.written ++ 43 :: framed [101, 102, 98, 101, 97, 100, 100, 101] := by
  obtain ⟨gdb1, gdb2, h1, h2, _, h4, _⟩ := packets_P1_then_p1 bankedRegisters flatMemory false
    false (fun p => (0, p)) 1 0 (sessionOver (coreWithPc 0)) [] [] (sessionOver_length _)
    bankedRegisters_readsLastWrite
  refine ⟨gdb1, gdb2, h1, h2, h4, ?_⟩
  rw [h4]
  intro h
  have := List.append_cancel_left h
  revert this
  decide

/-- C12 (amended): scenario S3.  From any core state over a register file
that returns the value last written, handling the packet with payload
`P1=deadbeef` and then the packet with payload `p1` produces, after the
acknowledgement `+` of each, the replies `$OK#9a` and then the packet whose
payload is `deadbeef`, the text that was written; register 1 then holds
0xefbeadde on a little-endian target. -/
theorem write_then_read_register_scenario (rf : Registers R) (mm : Memory M)
    (host target : Bool)
    (arm_step : arm_core_data R M → Int × arm_core_data R M) (fuel junk : Nat)
    (gdb : gdb_protocol_data R M) (tail1 tail2 : List Nat)
    (hlen : gdb.packet.length = MAX_PACKET_SIZE) (hrf : ReadsLastWrite rf) :
    ∃ gdb1 gdb2,
      gdb_packet_analysis (gdb_init rf mm host target arm_step fuel junk) junk gdb
        (36 :: ([80, 49, 61, 100, 101, 97, 100, 98, 101, 101, 102]
          ++ 35 :: 100 :: 101 :: 0 :: tail1)) ((11 + 4 : Nat) : Int) = some gdb1 ∧
      gdb_packet_analysis (gdb_init rf mm host target arm_step fuel junk) junk gdb1
        (36 :: ([112, 49] ++ 35 :: 97 :: 49 :: 0 :: tail2)) ((2 + 4 : Nat) : Int) = some gdb2 ∧
      gdb1.written = gdb.written ++ [43, 36, 79, 75, 35, 57, 97] ∧
      gdb2.written = gdb1.written ++ 43 :: framed [100, 101, 97, 100, 98, 101, 101, 102] ∧
      rf.read_register gdb2.arm.reg 1 = (if target then 0xdeadbeef else 0xefbeadde) :=
  packets_P1_then_p1 rf mm host target arm_step fuel junk gdb tail1 tail2 hlen hrf

theorem write_then_read_register_scenario_witness :
    ∃ gdb1 gdb2,
      gdb_packet_analysis (gdb_init bankedRegisters flatMemory false false (fun p => (0, p)) 1 0)
        0 (sessionOver (coreWithPc 0))
        (36 :: ([80, 49, 61, 100, 101, 97, 100, 98, 101, 101, 102]
          ++ 35 :: 100 :: 101 :: 0 :: [])) ((11 + 4 : Nat) : Int) = some gdb1 ∧
      gdb_packet_analysis (gdb_init bankedRegisters flatMemory false false (fun p => (0, p)) 1 0)
        0 gdb1 (36 :: ([112, 49] ++ 35 :: 97 :: 49 :: 0 :: [])) ((2 + 4 : Nat) : Int)
        = some gdb2 ∧
      gdb1.written = [43, 36, 79, 75, 35, 57, 97] ∧
      gdb2.written = [43, 36, 79, 75, 35, 57, 97] ++
        [43, 36, 100, 101, 97, 100, 98, 101, 101, 102, 35, 50, 48] ∧
      bankedRegisters.read_register gdb2.arm.reg 1 = 0xefbeadde :=
  (write_then_read_register_scenario bankedRegisters flatMemory false false (fun p => (0, p))
    1 0 (sessionOver (coreWithPc 0)) [] [] (sessionOver_length _)
    bankedRegisters_readsLastWrite).elim fun g1 h => h.elim fun g2 hg =>
      ⟨g1, g2, hg.1, hg.2.1, hg.2.2.1, by rw [hg.2.2.2.1, hg.2.2.1]; rfl, hg.2.2.2.2⟩

/-! ### The `G` command -/

theorem zero_mem_drop_le (data : List Nat) (k m : Nat) (hkm : k ≤ m)
    (h : 0 ∈ data.drop m) : 0 ∈ data.drop k := by
  have e : data.drop m = (data.drop k).drop (m - k) := by
    rw [List.drop_drop]
    congr 1
    omega
  rw [e] at h
  exact List.mem_of_mem_drop h

/-- A `%02x` conversion on a string that starts with `x` converts nothing. -/
theorem sscanf_x_at_x (s : List Nat) (old : Nat) (h0 : 0 ∈ s) :
    sscanf_x (some 2) (120 :: s) old = some old := by
  unfold sscanf_x
  rw [c_string_cons 120 s (by decide)]
  unfold c_string
  rw [if_pos h0]
  simp only [Option.map_some', Option.some_bind, Option.getD_some]
  have hsp : ¬ isSpace 120 := by decide
  have hhx : ¬ isHexDigit 120 := by decide
  cases List.takeWhile (fun c => decide (c ≠ 0)) s with
  | nil =>
    simp [scan_x, dropSpaces, hsp, scanSign, scan0x, scanDigits, hhx]
  | cons c t =>
    simp [scan_x, dropSpaces, hsp, scanSign, scan0x, scanDigits, hhx]

/-- On the placeholder `xxxxxxxx` `read_uint32` converts nothing and returns. -/
theorem read_uint32_isSome (host target : Bool) (junk : Nat) (rest : List Nat)
    (h : 0 ∈ rest) :
    ∃ v, read_uint32 host target junk (List.replicate 8 120 ++ rest) = some v := by
  have e1 : ∀ old, sscanf_x (some 2) (List.replicate 8 120 ++ rest) old = some old :=
    fun old => sscanf_x_at_x _ old (by simp [h])
  have d2 : (List.replicate 8 120 ++ rest).drop 2 = 120 :: (List.replicate 5 120 ++ rest) :=
    rfl
  have d4 : (List.replicate 8 120 ++ rest).drop 4 = 120 :: (List.replicate 3 120 ++ rest) :=
    rfl
  have d6 : (List.replicate 8 120 ++ rest).drop 6 = 120 :: (List.replicate 1 120 ++ rest) :=
    rfl
  have e2 : ∀ old, sscanf_x (some 2) ((List.replicate 8 120 ++ rest).drop 2) old = some old :=
    fun old => by rw [d2]; exact sscanf_x_at_x _ old (by simp [h])
  have e3 : ∀ old, sscanf_x (some 2) ((List.replicate 8 120 ++ rest).drop 4) old = some old :=
    fun old => by rw [d4]; exact sscanf_x_at_x _ old (by simp [h])
  have e4 : ∀ old, sscanf_x (some 2) ((List.replicate 8 120 ++ rest).drop 6) old = some old :=
    fun old => by rw [d6]; exact sscanf_x_at_x _ old (by simp [h])
  have m3 : (3 + (U32 - 1)) % U32 = 2 := by decide
  have m2 : (2 + (U32 - 1)) % U32 = 1 := by decide
  have m1 : (1 + (U32 - 1)) % U32 = 0 := by decide
  have m0 : (0 + (U32 - 1)) % U32 = U32 - 1 := by decide
  have mU : ¬ (U32 - 1 < 4 ∧ 0 ≤ U32 - 1) := by decide
  have n1 : (0 + 1) % U32 = 1 := by decide
  have n2 : (1 + 1) % U32 = 2 := by decide
  have n3 : (2 + 1) % U32 = 3 := by decide
  have n4 : (3 + 1) % U32 = 4 := by decide
  unfold read_uint32
  by_cases hh : host = target
  · simp only [read_uint32_loop, hh, m3, m2, m1, m0, mU, n1, n2, n3, n4, if_true, if_false,
      Option.some_bind, e1, e2, e3, e4, List.drop_drop, Nat.reduceAdd,
      show (3 < 4 ∧ 0 ≤ 3) = True from by decide, show (2 < 4 ∧ 0 ≤ 2) = True from by decide,
      show (1 < 4 ∧ 0 ≤ 1) = True from by decide,
      show ((0:Nat) < 4 ∧ (0:Nat) ≤ 0) = True from by decide,
      show ((4:Nat) < 4 ∧ 0 ≤ 4) = False from by decide, Option.map_some']
    exact ⟨_, rfl⟩
  · simp only [read_uint32_loop, hh, m3, m2, m1, m0, mU, n1, n2, n3, n4, if_true, if_false,
      Option.some_bind, e1, e2, e3, e4, List.drop_drop, Nat.reduceAdd,
      show (3 < 4 ∧ 0 ≤ 3) = True from by decide, show (2 < 4 ∧ 0 ≤ 2) = True from by decide,
      show (1 < 4 ∧ 0 ≤ 1) = True from by decide,
      show ((0:Nat) < 4 ∧ (0:Nat) ≤ 0) = True from by decide,
      show ((4:Nat) < 4 ∧ 0 ≤ 4) = False from by decide, Option.map_some']
    exact ⟨_, rfl⟩

theorem read_uint32_skip_eq (host target : Bool) (junk n : Nat) (rest : List Nat)
    (h : 0 ∈ rest) :
    read_uint32_skip host target junk n (List.replicate (8 * n) 120 ++ rest) = some rest := by
  induction n with
  | zero => simp [read_uint32_skip]
  | succ n ih =>
    have e : List.replicate (8 * (n + 1)) 120 ++ rest
        = List.replicate 8 120 ++ (List.replicate (8 * n) 120 ++ rest) := by
      rw [← List.append_assoc, ← List.replicate_add]
      congr 2
      omega
    obtain ⟨v, hv⟩ := read_uint32_isSome host target junk (List.replicate (8 * n) 120 ++ rest)
      (List.mem_append_right _ h)
    rw [e]
    simp only [read_uint32_skip, hv, Option.some_bind]
    rw [List.drop_left' (List.length_replicate 8 120), ih]

theorem write_general_registers_fp_eq (host target : Bool) (junk n : Nat) (rest : List Nat)
    (h : 0 ∈ rest) :
    write_general_registers_fp host target junk n (List.replicate (24 * n) 120 ++ rest)
      = some rest := by
  induction n with
  | zero => simp [write_general_registers_fp]
  | succ n ih =>
    have e : List.replicate (24 * (n + 1)) 120 ++ rest
        = List.replicate (8 * 3) 120 ++ (List.replicate (24 * n) 120 ++ rest) := by
      rw [← List.append_assoc, ← List.replicate_add]
      congr 2
      omega
    rw [e]
    simp only [write_general_registers_fp]
    rw [read_uint32_skip_eq host target junk 3 _ (List.mem_append_right _ h)]
    simp only [Option.some_bind]
    exact ih

theorem zero_mem_fields (target : Bool) (vs rest : List Nat) (h0 : 0 ∈ rest) :
    0 ∈ vs.foldr (fun v acc => wire32 target v ++ acc) rest := by
  induction vs with
  | nil => exact h0
  | cons v vs ih => exact List.mem_append_right _ ih

/-- The loop of `G` over the registers on the wire encodings of the values
`vs`: register `i + k` receives `vs[k]`, the registers below `i` and CPSR are
left as they were. -/
theorem write_general_registers_loop_fields (rf : Registers R) (host target : Bool)
    (junk : Nat) (hrf : ReadsLastWrite rf) (hloc : WritesAreLocal rf)
    (vs rest : List Nat) (hvs : ∀ v ∈ vs, v < U32) (h0 : 0 ∈ rest)
    (i : Nat) (hi : i + vs.length ≤ 16) (arm : arm_core_data R M) :
    ∃ arm1, write_general_registers_loop rf host target junk vs.length i arm
        (vs.foldr (fun v acc => wire32 target v ++ acc) rest) = some (arm1, rest) ∧
      arm1.mem = arm.mem ∧ arm1.cycle_count = arm.cycle_count ∧
      rf.read_cpsr arm1.reg = rf.read_cpsr arm.reg ∧
      (∀ k, k < vs.length → rf.read_register arm1.reg (i + k) = vs.getD k 0) ∧
      (∀ r, r < i → rf.read_register arm1.reg r = rf.read_register arm.reg r) := by
  induction vs generalizing i arm with
  | nil => exact ⟨arm, rfl, rfl, rfl, rfl, fun k hk => by simp at hk, fun r _ => rfl⟩
  | cons v vs ih =>
    have hv : v < U32 := hvs v (by simp)
    have hil : i < 16 := by simp at hi; omega
    obtain ⟨arm1, a1, a2, a3, a4, a5, a6⟩ := ih (fun x hx => hvs x (by simp [hx])) (i + 1)
      (by simp at hi; omega) (arm_write_register rf arm i v)
    refine ⟨arm1, ?_, a2, a3, ?_, ?_, ?_⟩
    · simp only [List.foldr_cons, List.length_cons, write_general_registers_loop]
      rw [read_uint32_wire32 host target junk v hv _ (zero_mem_fields target vs rest h0)]
      simp only [Option.some_bind]
      rw [List.drop_left' (wire32_length target v)]
      exact a1
    · rw [a4]
      exact hloc.2.1 arm.reg i v hil
    · intro k hk
      cases k with
      | zero =>
        rw [Nat.add_zero, a6 i (by omega)]
        exact hrf arm.reg i v hil hv
      | succ k =>
        have := a5 k (by simpa using hk)
        rw [show i + (k + 1) = i + 1 + k from by omega, this]
        simp
    · intro r hr
      rw [a6 r (by omega)]
      exact hloc.1 arm.reg i r v hil (by omega) (by omega)

theorem slot_injective (m r r2 : Nat) (hr : r < 16) (hr2 : r2 < 16)
    (h : BankedRegs.slot m r2 = BankedRegs.slot m r) : r2 = r := by
  unfold BankedRegs.slot at h
  split_ifs at h <;> omega

theorem bankedRegisters_writesAreLocal : WritesAreLocal bankedRegisters := by
  refine ⟨?_, ?_, ?_, ?_⟩
  · intro s r r2 v hr hr2 hne
    have : BankedRegs.slot (s.cpsr % 32) r2 ≠ BankedRegs.slot (s.cpsr % 32) r :=
      fun h => hne (slot_injective _ r r2 hr hr2 h)
    simp [bankedRegisters, BankedRegs.put, this]
  · intro s r v _
    rfl
  · intro s v _
    rfl
  · intro s r _
    rfl

/-- What `G` does with a text of sixteen register fields, the placeholder
fields and a CPSR field that repeats the current CPSR: OK is replied and the
registers read the values of their fields. -/
theorem write_general_registers_fields (rf : Registers R) (host target : Bool) (junk : Nat)
    (gdb : gdb_protocol_data R M) (vs tail : List Nat)
    (hlen : gdb.packet.length = MAX_PACKET_SIZE)
    (hrf : ReadsLastWrite rf) (hloc : WritesAreLocal rf)
    (hn : vs.length = 16) (hvs : ∀ v ∈ vs, v < U32)
    (hcpsr : rf.read_cpsr gdb.arm.reg < U32) :
    ∃ gdb1, write_general_registers rf host target junk gdb
        (vs.foldr (fun v acc => wire32 target v ++ acc)
          (List.replicate (8 * 24) 120 ++ (List.replicate 8 120 ++
            (wire32 target (rf.read_cpsr gdb.arm.reg) ++ 0 :: tail)))) = some gdb1 ∧
      gdb1.written = gdb.written ++ framed [79, 75] ∧
      (∀ r, r < 16 → rf.read_register gdb1.arm.reg r = vs.getD r 0) ∧
      rf.read_cpsr gdb1.arm.reg = rf.read_cpsr gdb.arm.reg ∧
      gdb1.arm.mem = gdb.arm.mem ∧ gdb1.arm.cycle_count = gdb.arm.cycle_count ∧
      gdb1.target_exception = gdb.target_exception := by
  have h0 : (0 : Nat) ∈ (List.replicate (8 * 24) 120 ++ (List.replicate 8 120 ++
      (wire32 target (rf.read_cpsr gdb.arm.reg) ++ 0 :: tail))) :=
    List.mem_append_right _ (List.mem_append_right _ (List.mem_append_right _
      (List.mem_cons_self 0 tail)))
  obtain ⟨arm1, a1, a2, a3, a4, a5, _⟩ := write_general_registers_loop_fields rf host target junk
    hrf hloc vs _ hvs h0 0 (by omega) gdb.arm
  rw [hn] at a1 a5
  have e8 : (List.replicate 8 120 ++
      (wire32 target (rf.read_cpsr gdb.arm.reg) ++ 0 :: tail)).drop 8
      = wire32 target (rf.read_cpsr gdb.arm.reg) ++ 0 :: tail :=
    List.drop_left' (by simp only [List.length_replicate])
  have hfp : write_general_registers_fp host target junk 8
      (List.replicate (8 * 24) 120 ++ (List.replicate 8 120 ++
        (wire32 target (rf.read_cpsr gdb.arm.reg) ++ 0 :: tail)))
      = some (List.replicate 8 120 ++
        (wire32 target (rf.read_cpsr gdb.arm.reg) ++ 0 :: tail)) := by
    have e : (8 * 24 : Nat) = 24 * 8 := rfl
    rw [e]
    exact write_general_registers_fp_eq host target junk 8 _
      (List.mem_append_right _ (List.mem_append_right _ (List.mem_cons_self 0 tail)))
  obtain ⟨w, hw⟩ := read_uint32_isSome host target junk
    (wire32 target (rf.read_cpsr gdb.arm.reg) ++ 0 :: tail)
    (List.mem_append_right _ (List.mem_cons_self 0 tail))
  have hlast : read_uint32 host target junk ((List.replicate 8 120 ++
      (wire32 target (rf.read_cpsr gdb.arm.reg) ++ 0 :: tail)).drop 8)
      = some (rf.read_cpsr gdb.arm.reg) := by
    rw [e8]
    exact read_uint32_wire32 host target junk _ hcpsr _ (List.mem_cons_self 0 tail)
  have e : write_general_registers rf host target junk gdb
      (vs.foldr (fun v acc => wire32 target v ++ acc)
        (List.replicate (8 * 24) 120 ++ (List.replicate 8 120 ++
          (wire32 target (rf.read_cpsr gdb.arm.reg) ++ 0 :: tail))))
      = gdb_send_data { gdb with arm := arm_write_cpsr rf arm1 (rf.read_cpsr gdb.arm.reg) }
          text_OK := by
    unfold write_general_registers
    rw [a1]
    simp only [Option.some_bind]
    rw [hfp]
    simp only [Option.some_bind]
    rw [hw, hlast]
    simp only [Option.some_bind]
  obtain ⟨gdb1, e1, e2, _, e4, e5, _, _⟩ := gdb_send_data_short
    { gdb with arm := arm_write_cpsr rf arm1 (rf.read_cpsr gdb.arm.reg) } text_OK hlen
    (by decide) (by decide)
  refine ⟨gdb1, e.trans e1, e2, ?_, ?_, ?_, ?_, e5⟩
  · intro r hr
    rw [e4]
    show rf.read_register (rf.write_cpsr arm1.reg (rf.read_cpsr gdb.arm.reg)) r = _
    rw [← a4, hloc.2.2.2 arm1.reg r hr]
    have := a5 r hr
    rw [Nat.zero_add] at this
    exact this
  · rw [e4]
    exact hloc.2.2.1 arm1.reg _ hcpsr
  · rw [e4]
    exact a2
  · rw [e4]
    exact a3

/-- The `g` handler: the session it leaves, with the size of its packet buffer. -/
theorem read_general_registers_session (rf : Registers R) (host target : Bool)
    (gdb : gdb_protocol_data R M) (data : List Nat)
    (hlen : gdb.packet.length = MAX_PACKET_SIZE) :
    ∃ gdb1, read_general_registers rf host target gdb data = some gdb1 ∧
      gdb1.written = gdb.written ++ framed (general_registers_text rf target gdb.arm) ∧
      gdb1.len = 340 ∧
      gdb1.arm = gdb.arm ∧ gdb1.target_exception = gdb.target_exception ∧
      gdb1.packet.length = MAX_PACKET_SIZE := by
  have hl := general_registers_text_length rf target gdb.arm
  have hfit : (general_registers_text rf target gdb.arm).length + 5 ≤ MAX_PACKET_SIZE := by
    rw [hl]
    decide
  rw [read_general_registers_stage,
    stage_send_eq gdb _ hlen (general_registers_text_ne_zero rf target gdb.arm), if_pos hfit]
  exact ⟨_, rfl, rfl, by simp only [hl], rfl, rfl, sent_packet_length _ _ hlen hfit⟩

/-- What `G` does with the text `g` stages for the same core: OK is replied,
R0..R14 and CPSR read as before, R15 reads the value of the sixteenth field. -/
theorem write_general_registers_of_text (rf : Registers R) (host target : Bool) (junk : Nat)
    (gdb : gdb_protocol_data R M) (arm0 : arm_core_data R M) (tail : List Nat)
    (hlen : gdb.packet.length = MAX_PACKET_SIZE) (harm : gdb.arm = arm0)
    (hrf : ReadsLastWrite rf) (hloc : WritesAreLocal rf)
    (hregs : ∀ r, r < 15 → rf.read_register arm0.reg r < U32)
    (hcpsr : rf.read_cpsr arm0.reg < U32) :
    ∃ gdb1, write_general_registers rf host target junk gdb
        (general_registers_text rf target arm0 ++ 0 :: tail) = some gdb1 ∧
      gdb1.written = gdb.written ++ framed [79, 75] ∧
      (∀ r, r < 15 → rf.read_register gdb1.arm.reg r = rf.read_register arm0.reg r) ∧
      rf.read_register gdb1.arm.reg 15
        = ((((rf.read_register arm0.reg 15 + 4) % U32) &&& 0xFFFFFFFD) + U32 - 4) % U32 ∧
      rf.read_cpsr gdb1.arm.reg = rf.read_cpsr arm0.reg ∧
      gdb1.arm.mem = arm0.mem ∧ gdb1.arm.cycle_count = arm0.cycle_count ∧
      gdb1.target_exception = gdb.target_exception := by
  subst harm
  obtain ⟨pc1, hpc1⟩ : ∃ pc1 : Nat, pc1
      = ((((rf.read_register gdb.arm.reg 15 + 4) % U32) &&& 0xFFFFFFFD) + U32 - 4) % U32 :=
    ⟨_, rfl⟩
  rw [← hpc1]
  obtain ⟨vs, hdef⟩ : ∃ vs : List Nat, vs =
      [rf.read_register gdb.arm.reg 0, rf.read_register gdb.arm.reg 1,
        rf.read_register gdb.arm.reg 2, rf.read_register gdb.arm.reg 3,
        rf.read_register gdb.arm.reg 4, rf.read_register gdb.arm.reg 5,
        rf.read_register gdb.arm.reg 6, rf.read_register gdb.arm.reg 7,
        rf.read_register gdb.arm.reg 8, rf.read_register gdb.arm.reg 9,
        rf.read_register gdb.arm.reg 10, rf.read_register gdb.arm.reg 11,
        rf.read_register gdb.arm.reg 12, rf.read_register gdb.arm.reg 13,
        rf.read_register gdb.arm.reg 14, pc1] :=
    ⟨_, rfl⟩
  have hT : general_registers_text rf target gdb.arm ++ 0 :: tail
      = vs.foldr (fun v acc => wire32 target v ++ acc)
        (List.replicate (8 * 24) 120 ++ (List.replicate 8 120 ++
          (wire32 target (rf.read_cpsr gdb.arm.reg) ++ 0 :: tail))) := by
    rw [hdef, general_registers_text_fields, ← hpc1]
    simp only [List.foldr, List.append_assoc]
  have hn : vs.length = 16 := by
    rw [hdef]
    rfl
  have hvs : ∀ v ∈ vs, v < U32 := by
    rw [hdef]
    intro v hv
    simp only [List.mem_cons, List.mem_singleton, List.not_mem_nil, or_false] at hv
    rcases hv with h | h | h | h | h | h | h | h | h | h | h | h | h | h | h | h
    iterate 15 (rw [h]; exact hregs _ (by decide))
    rw [h, hpc1]
    exact Nat.mod_lt _ (by decide)
  rw [hT]
  obtain ⟨gdb1, b1, b2, b3, b4, b5, b6, b7⟩ := write_general_registers_fields rf host target junk
    gdb vs tail hlen hrf hloc hn hvs hcpsr
  refine ⟨gdb1, b1, b2, ?_, ?_, b4, b5, b6, b7⟩
  · intro r hr
    rw [b3 r (by omega), hdef]
    interval_cases r <;> simp only [List.getD_cons_succ, List.getD_cons_zero]
  · rw [b3 15 (by decide), hdef]
    simp only [List.getD_cons_succ, List.getD_cons_zero]

/-- The command `g` and then `G` on the payload of its reply. -/
theorem g_then_G (rf : Registers R) (host target : Bool) (junk : Nat)
    (gdb : gdb_protocol_data R M) (data tail : List Nat)
    (hlen : gdb.packet.length = MAX_PACKET_SIZE)
    (hrf : ReadsLastWrite rf) (hloc : WritesAreLocal rf)
    (hregs : ∀ r, r < 15 → rf.read_register gdb.arm.reg r < U32)
    (hcpsr : rf.read_cpsr gdb.arm.reg < U32) :
    ∃ g1 g2, read_general_registers rf host target gdb data = some g1 ∧
      g1.written = gdb.written ++ framed (general_registers_text rf target gdb.arm) ∧
      write_general_registers rf host target junk g1
        (general_registers_text rf target gdb.arm ++ 0 :: tail) = some g2 ∧
      g2.written = g1.written ++ framed [79, 75] ∧
      (∀ r, r < 15 → rf.read_register g2.arm.reg r = rf.read_register gdb.arm.reg r) ∧
      rf.read_register g2.arm.reg 15
        = ((((rf.read_register gdb.arm.reg 15 + 4) % U32) &&& 0xFFFFFFFD) + U32 - 4) % U32 ∧
      rf.read_cpsr g2.arm.reg = rf.read_cpsr gdb.arm.reg ∧
      g2.arm.mem = gdb.arm.mem ∧ g2.arm.cycle_count = gdb.arm.cycle_count := by
  obtain ⟨g1, a1, a2, _, a4, _, a6⟩ := read_general_registers_session rf host target gdb data hlen
  obtain ⟨g2, b1, b2, b3, b4, b5, b6, b7, _⟩ := write_general_registers_of_text rf host target
    junk g1 gdb.arm tail a6 a4 hrf hloc hregs hcpsr
  exact ⟨g1, g2, a1, a2, b1, b2, b3, b4, b5, b6, b7⟩



/-- C11 (as stated, refuted): with stored PC 2 the sixteenth field of the `g`
reply encodes 0, and `G` of that reply leaves the stored PC at 0. -/
theorem g_then_G_pc2_counterexample :
    ∃ g1 g2, read_general_registers bankedRegisters false false (sessionOver (coreWithPc 2)) []
        = some g1 ∧
      g1.written = (sessionOver (coreWithPc 2)).written ++
        framed (general_registers_text bankedRegisters false (sessionOver (coreWithPc 2)).arm) ∧
      write_general_registers bankedRegisters false false 0 g1
        (general_registers_text bankedRegisters false (sessionOver (coreWithPc 2)).arm
          ++ 0 :: []) = some g2 ∧
      g2.written = g1.written ++ framed [79, 75] ∧
      bankedRegisters.read_register (sessionOver (coreWithPc 2)).arm.reg 15 = 2 ∧
      bankedRegisters.read_register g2.arm.reg 15 = 0 := by
  obtain ⟨g1, g2, h1, h2, h3, h4, _, h6, _⟩ := g_then_G bankedRegisters false false 0
    (sessionOver (coreWithPc 2)) [] [] (sessionOver_length _) bankedRegisters_readsLastWrite
    bankedRegisters_writesAreLocal (by decide) (by decide)
  refine ⟨g1, g2, h1, h2, h3, h4, by decide, ?_⟩
  rw [h6]
  decide

/-- C11 (amended): for every core state whose stored PC has bit 1 clear, over
a register file whose reads return the 32-bit values last written and whose
writes touch nothing but their target, taking the reply payload of `g` and
feeding it back unchanged as the argument of `G` replies OK and leaves R0..R15
of the current mode (the stored PC included) and CPSR equal to their values
before the `g`, memory and cycle counter being untouched; the `x` placeholder
fields for FP and fps are ignored. -/
theorem g_then_G_restores (rf : Registers R) (host target : Bool) (junk : Nat)
    (gdb : gdb_protocol_data R M) (data tail : List Nat)
    (hlen : gdb.packet.length = MAX_PACKET_SIZE)
    (hrf : ReadsLastWrite rf) (hloc : WritesAreLocal rf)
    (hregs : ∀ r, r < 16 → rf.read_register gdb.arm.reg r < U32)
    (hcpsr : rf.read_cpsr gdb.arm.reg < U32)
    (hb : rf.read_register gdb.arm.reg 15 &&& 2 = 0) :
    ∃ g1 g2, read_general_registers rf host target gdb data = some g1 ∧
      g1.written = gdb.written ++ framed (general_registers_text rf target gdb.arm) ∧
      write_general_registers rf host target junk g1
        (general_registers_text rf target gdb.arm ++ 0 :: tail) = some g2 ∧
      g2.written = g1.written ++ framed [79, 75] ∧
      (∀ r, r < 16 → rf.read_register g2.arm.reg r = rf.read_register gdb.arm.reg r) ∧
      rf.read_cpsr g2.arm.reg = rf.read_cpsr gdb.arm.reg ∧
      g2.arm.mem = gdb.arm.mem ∧ g2.arm.cycle_count = gdb.arm.cycle_count := by
  obtain ⟨g1, g2, h1, h2, h3, h4, h5, h6, h7, h8, h9⟩ := g_then_G rf host target junk gdb data
    tail hlen hrf hloc (fun r hr => hregs r (by omega)) hcpsr
  refine ⟨g1, g2, h1, h2, h3, h4, ?_, h7, h8, h9⟩
  intro r hr
  by_cases h15 : r = 15
  · rw [h15, h6]
    exact pc_read_minus_four _ (hregs 15 (by decide)) hb
  · exact h5 r (by omega)

theorem g_then_G_restores_witness :
    ∃ g1 g2, read_general_registers bankedRegisters false false (sessionOver (coreWithPc 4)) []
        = some g1 ∧
      write_general_registers bankedRegisters false false 0 g1
        (general_registers_text bankedRegisters false (sessionOver (coreWithPc 4)).arm
          ++ 0 :: []) = some g2 ∧
      g2.written = g1.written ++ framed [79, 75] ∧
      bankedRegisters.read_register g2.arm.reg 15 = 4 ∧
      bankedRegisters.read_cpsr g2.arm.reg = 0x1d3 :=
  (g_then_G_restores bankedRegisters false false 0 (sessionOver (coreWithPc 4)) [] []
    (sessionOver_length _) bankedRegisters_readsLastWrite bankedRegisters_writesAreLocal
    (by decide) (by decide) (by decide)).elim fun g1 h => h.elim fun g2 hg =>
      ⟨g1, g2, hg.1, hg.2.2.1, hg.2.2.2.1, hg.2.2.2.2.1 15 (by decide), hg.2.2.2.2.2.1⟩

/-! ### The size of replies -/

theorem framed_length (T : List Nat) : (framed T).length = T.length + 4 := by
  simp only [framed, List.length_cons, List.length_append,
    sprintf_02x_length _ (Nat.mod_lt _ (show 0 < 256 by decide))]

theorem replied_stage (gdb g gdb1 : gdb_protocol_data R M) (T : List Nat) (n : Nat)
    (hlen : g.packet.length = MAX_PACKET_SIZE) (hw : g.written = gdb.written)
    (hT : ∀ c ∈ T, c ≠ 0) (hn : T.length ≤ n)
    (h : (poke g.packet 1 (T ++ [0])).bind
      (fun b => gdb_send_buffer { g with packet := b }) = some gdb1) :
    RepliedWithin n gdb gdb1 := by
  obtain ⟨h1, h2, _, _, _, h6, _⟩ := stage_send_some g gdb1 T hlen hT h
  exact ⟨h6, Or.inr ⟨T, hn, by rw [h1, hw], h2⟩⟩

theorem replied_send_data (gdb g gdb1 : gdb_protocol_data R M) (T : List Nat) (n : Nat)
    (hlen : g.packet.length = MAX_PACKET_SIZE) (hw : g.written = gdb.written)
    (hT : ∀ c ∈ T, c ≠ 0) (hn : T.length ≤ n)
    (h : gdb_send_data g T = some gdb1) : RepliedWithin n gdb gdb1 :=
  replied_stage gdb g gdb1 T n hlen hw hT hn h

theorem replied_stop_reason (gdb g gdb1 : gdb_protocol_data R M) (n : Nat)
    (hlen : g.packet.length = MAX_PACKET_SIZE) (hw : g.written = gdb.written) (hn : 3 ≤ n)
    (h : gdb_send_stop_reason g = some gdb1) : RepliedWithin n gdb gdb1 := by
  obtain ⟨g1, h1, h2, h3, _, _, _, h7⟩ := gdb_send_stop_reason_some g hlen
  rw [h1] at h
  injection h with h
  subst h
  exact ⟨h7, Or.inr ⟨stop_text g.target_exception,
    by rw [stop_text_length]; exact hn, by rw [h2, hw], by rw [h3, stop_text_length]⟩⟩

theorem replied_cont_loop (rf : Registers R) (mm : Memory M)
    (arm_step : arm_core_data R M → Int × arm_core_data R M) (fuel : Nat)
    (gdb g gdb1 : gdb_protocol_data R M) (instruction : Nat)
    (hlen : g.packet.length = MAX_PACKET_SIZE) (hw : g.written = gdb.written)
    (h : cont_loop rf mm arm_step fuel g instruction = some gdb1) :
    RepliedWithin 3 gdb gdb1 := by
  induction fuel generalizing g instruction with
  | zero => simp [cont_loop] at h
  | succ fuel ih =>
    rw [cont_loop_step] at h
    split at h
    · exact replied_stop_reason gdb g gdb1 3 hlen hw (by decide) h
    · exact ih { g with target_exception := (arm_step g.arm).1, arm := (arm_step g.arm).2 } _
        hlen hw h

theorem RepliedWithin_mono (n m : Nat) (gdb gdb1 : gdb_protocol_data R M) (hnm : n ≤ m)
    (h : RepliedWithin n gdb gdb1) : RepliedWithin m gdb gdb1 := by
  obtain ⟨h1, h2⟩ := h
  refine ⟨h1, ?_⟩
  rcases h2 with h2 | ⟨T, a, b, c⟩
  · exact Or.inl h2
  · exact Or.inr ⟨T, by omega, b, c⟩

/-- Every handler but that of `m` replies, when it replies, with at most 336
characters of payload. -/
theorem handlers_reply_within (rf : Registers R) (mm : Memory M) (host target : Bool)
    (arm_step : arm_core_data R M → Int × arm_core_data R M) (fuel junk : Nat)
    (i : Nat) (h : gdb_handler_t R M) (gdb gdb1 : gdb_protocol_data R M) (data : List Nat)
    (hlen : gdb.packet.length = MAX_PACKET_SIZE) (hm : i ≠ 109)
    (hi : gdb_init rf mm host target arm_step fuel junk i = some h)
    (hr : h gdb data = some gdb1) : RepliedWithin 336 gdb gdb1 := by
  have hok : ∀ c ∈ text_OK, c ≠ 0 := by decide
  have he1 : ∀ c ∈ text_E01, c ≠ 0 := by decide
  have he2 : ∀ c ∈ text_E02, c ≠ 0 := by decide
  rcases gdb_init_cases rf mm host target arm_step fuel junk i h hi with
    ⟨_, rfl⟩ | ⟨_, rfl⟩ | ⟨_, rfl⟩ | ⟨_, rfl⟩ | ⟨e, _⟩ | ⟨_, rfl⟩ | ⟨_, rfl⟩ | ⟨_, rfl⟩ |
    ⟨_, rfl⟩ | ⟨_, rfl⟩ | ⟨_, rfl⟩ | ⟨_, rfl⟩
  · exact RepliedWithin_mono 3 336 _ _ (by decide)
      (replied_cont_loop rf mm arm_step fuel gdb gdb gdb1 junk hlen rfl hr)
  · simp only [kill_request, Option.some.injEq] at hr
    subst hr
    exact ⟨hlen, Or.inl rfl⟩
  · simp only [query, Option.bind_eq_some] at hr
    obtain ⟨s, _, hr⟩ := hr
    split at hr
    · exact replied_send_data gdb gdb gdb1 _ 336 hlen rfl (by decide) (by decide) hr
    split at hr
    · exact replied_send_data gdb gdb gdb1 _ 336 hlen rfl (by decide) (by decide) hr
    split at hr
    · exact replied_send_data gdb gdb gdb1 _ 336 hlen rfl (by decide) (by decide) hr
    split at hr
    · exact replied_send_data gdb gdb gdb1 _ 336 hlen rfl (by simp) (by simp) hr
    · exact replied_send_data gdb gdb gdb1 _ 336 hlen rfl (by simp) (by simp) hr
  · rw [read_general_registers_stage] at hr
    exact replied_stage gdb gdb gdb1 _ 336 hlen rfl (general_registers_text_ne_zero rf target _)
      (by rw [general_registers_text_length]) hr
  · exact absurd e hm
  · simp only [read_register, Option.bind_eq_some] at hr
    obtain ⟨n, _, hr⟩ := hr
    split at hr
    · rw [write_uint32_eq] at hr
      exact replied_stage gdb gdb gdb1 _ 336 hlen rfl (wire32_ne_zero target _)
        (by rw [wire32_length]; decide) hr
    · exact absurd hr (by simp)
  · exact replied_stop_reason gdb gdb gdb1 336 hlen rfl (by decide) hr
  · unfold set_thread at hr
    split at hr
    · exact absurd hr (by simp)
    · simp only [Option.bind_eq_some] at hr
      obtain ⟨v, _, hr⟩ := hr
      split at hr
      · exact replied_send_data gdb gdb gdb1 _ 336 hlen rfl hok (by decide) hr
      · exact replied_send_data gdb gdb gdb1 _ 336 hlen rfl he1 (by decide) hr
  · exact replied_stop_reason gdb
      { gdb with target_exception := (arm_step gdb.arm).1, arm := (arm_step gdb.arm).2 }
      gdb1 336 hlen rfl (by decide) hr
  · simp only [write_general_registers, Option.bind_eq_some] at hr
    obtain ⟨r1, _, p2, _, _, _, v, _, hr⟩ := hr
    exact replied_send_data gdb { gdb with arm := arm_write_cpsr rf r1.1 v } gdb1 _ 336 hlen rfl
      hok (by decide) hr
  · simp only [write_memory_binary, Option.bind_eq_some] at hr
    obtain ⟨as, _, p, _, hr⟩ := hr
    split at hr
    · simp only [Option.bind_eq_some] at hr
      obtain ⟨r, _, hr⟩ := hr
      split at hr
      · exact replied_send_data gdb { gdb with arm := { gdb.arm with mem := r.2 } } gdb1 _ 336
          hlen rfl hok (by decide) hr
      · exact replied_send_data gdb { gdb with arm := { gdb.arm with mem := r.2 } } gdb1 _ 336
          hlen rfl he2 (by decide) hr
    · exact replied_send_data gdb gdb gdb1 _ 336 hlen rfl he2 (by decide) hr
  · simp only [write_register, Option.bind_eq_some] at hr
    obtain ⟨reg, _, p, _, v, _, hr⟩ := hr
    split at hr
    · exact replied_send_data gdb
        { gdb with arm := arm_write_register rf gdb.arm (reg % 256) v } gdb1 _ 336
        hlen rfl hok (by decide) hr
    · exact absurd hr (by simp)

/-- The `m` handler on any argument: the two numbers `sscanf` delivers decide
the text that is staged and sent. -/
theorem read_memory_general (mm : Memory M) (junk : Nat) (gdb : gdb_protocol_data R M)
    (data : List Nat) :
    read_memory mm junk gdb data
      = (sscanf_x_x data junk junk).bind fun as =>
          (poke gdb.packet 1 (memory_text mm gdb.arm.mem as.2 as.1 (junk % 256) ++ [0])).bind
            (fun b => gdb_send_buffer { gdb with packet := b }) := by
  unfold read_memory
  cases sscanf_x_x data junk junk with
  | none => rfl
  | some as =>
    simp only [Option.some_bind]
    have := read_memory_loop_bind mm gdb.arm.mem as.2 as.1 (junk % 256) gdb.packet 1 1 [] rfl
      (fun b => gdb_send_buffer { gdb with packet := b })
    simpa using this

/-! ### Replies that are produced -/

theorem memory_text_length_le (mm : Memory M) (m : M) (size a v : Nat) :
    (memory_text mm m size a v).length ≤ 2 * size := by
  induction size generalizing a v with
  | zero => simp [memory_text]
  | succ size ih =>
    unfold memory_text
    split
    · rw [List.length_append, sprintf_02x_length _ (Nat.mod_lt _ (by decide))]
      have := ih ((a + 1) % U32) ((mm.memory_read_byte m a v).2 % 256)
      omega
    · simp

theorem query_isSome (gdb : gdb_protocol_data R M) (data : List Nat)
    (hlen : gdb.packet.length = MAX_PACKET_SIZE) (h0 : 0 ∈ data) :
    ∃ gdb1, query gdb data = some gdb1 := by
  unfold query c_string
  rw [if_pos h0]
  simp only [Option.some_bind]
  split
  · exact (gdb_send_data_short gdb _ hlen (by decide) (by decide)).imp fun _ h => h.1
  split
  · exact (gdb_send_data_short gdb _ hlen (by decide) (by decide)).imp fun _ h => h.1
  split
  · exact (gdb_send_data_short gdb _ hlen (by decide) (by decide)).imp fun _ h => h.1
  split
  · exact (gdb_send_data_short gdb _ hlen (by simp) (by decide)).imp fun _ h => h.1
  · exact (gdb_send_data_short gdb _ hlen (by simp) (by decide)).imp fun _ h => h.1

theorem set_thread_isSome (gdb : gdb_protocol_data R M) (t : Nat) (text : List Nat) (N : Int)
    (hlen : gdb.packet.length = MAX_PACKET_SIZE) (hN : atoi text = some N) :
    ∃ gdb1, set_thread gdb (t :: text) = some gdb1 := by
  simp only [set_thread, hN, Option.some_bind]
  split
  · exact (gdb_send_data_short gdb _ hlen (by decide) (by decide)).imp fun _ h => h.1
  · exact (gdb_send_data_short gdb _ hlen (by decide) (by decide)).imp fun _ h => h.1

theorem read_register_isSome (rf : Registers R) (host target : Bool)
    (gdb : gdb_protocol_data R M) (data : List Nat) (n : Int)
    (hlen : gdb.packet.length = MAX_PACKET_SIZE)
    (hn : atoi data = some n) (hr : (n % (U32 : Int)).toNat < 16) :
    ∃ gdb1, read_register rf host target gdb data = some gdb1 := by
  simp only [read_register, hn, Option.some_bind]
  rw [if_pos hr, write_uint32_eq, stage_send_eq gdb _ hlen (wire32_ne_zero target _),
    if_pos (by rw [wire32_length]; decide)]
  exact ⟨_, rfl⟩

theorem write_register_isSome (rf : Registers R) (host target : Bool) (junk : Nat)
    (gdb : gdb_protocol_data R M) (ds tail : List Nat) (V : Nat)
    (hlen : gdb.packet.length = MAX_PACKET_SIZE)
    (hds : ds ≠ [] ∧ ∀ d ∈ ds, isHexDigit d) (hr : hexValue ds < 16) (hV : V < U32) :
    ∃ gdb1, write_register rf host target junk gdb (ds ++ 61 :: (wire32 target V ++ 0 :: tail))
      = some gdb1 := by
  rw [write_register_eq rf host target junk gdb ds tail V hds hr hV]
  exact (gdb_send_data_short
    { gdb with arm := arm_write_register rf gdb.arm (hexValue ds) V } text_OK hlen
    (by decide) (by decide)).imp fun _ h => h.1

theorem write_memory_binary_isSome (mm : Memory M) (junk : Nat) (gdb : gdb_protocol_data R M)
    (da dl tail : List Nat) (items : List (Nat × Bool))
    (hlen : gdb.packet.length = MAX_PACKET_SIZE)
    (hda : da ≠ [] ∧ ∀ d ∈ da, isHexDigit d) (hdl : dl ≠ [] ∧ ∀ d ∈ dl, isHexDigit d)
    (hA : hexValue da < U32) (hL : hexValue dl = items.length) (hL32 : items.length < U32)
    (hitems : ∀ it ∈ items, it.1 < 256 ∧ (it.2 = false → it.1 ≠ 0x7d)) :
    ∃ gdb1, write_memory_binary mm junk gdb
      (da ++ 44 :: (dl ++ 58 :: (escape_body items ++ 0 :: tail))) = some gdb1 := by
  rw [write_memory_binary_eq mm junk gdb da dl tail items hda hdl hA hL hL32 hitems]
  split
  · split
    · exact (gdb_send_data_short
        { gdb with arm := { gdb.arm with
            mem := (store_bytes mm gdb.arm.mem (hexValue da) (items.map Prod.fst)).2 } }
        text_OK hlen (by decide) (by decide)).imp fun _ h => h.1
    · exact (gdb_send_data_short
        { gdb with arm := { gdb.arm with
            mem := (store_bytes mm gdb.arm.mem (hexValue da) (items.map Prod.fst)).2 } }
        text_E02 hlen (by decide) (by decide)).imp fun _ h => h.1
  · exact (gdb_send_data_short gdb text_E02 hlen (by decide) (by decide)).imp fun _ h => h.1

theorem write_general_registers_loop_isSome (rf : Registers R) (host target : Bool)
    (junk : Nat) (vs rest : List Nat) (hvs : ∀ v ∈ vs, v < U32) (h0 : 0 ∈ rest)
    (i : Nat) (arm : arm_core_data R M) :
    ∃ arm1, write_general_registers_loop rf host target junk vs.length i arm
        (vs.foldr (fun v acc => wire32 target v ++ acc) rest) = some (arm1, rest) := by
  induction vs generalizing i arm with
  | nil => exact ⟨arm, rfl⟩
  | cons v vs ih =>
    have hv : v < U32 := hvs v (by simp)
    obtain ⟨arm1, a1⟩ := ih (fun x hx => hvs x (by simp [hx])) (i + 1)
      (arm_write_register rf arm i v)
    refine ⟨arm1, ?_⟩
    simp only [List.foldr_cons, List.length_cons, write_general_registers_loop]
    rw [read_uint32_wire32 host target junk v hv _ (zero_mem_fields target vs rest h0)]
    simp only [Option.some_bind]
    rw [List.drop_left' (wire32_length target v)]
    exact a1

theorem write_general_registers_isSome (rf : Registers R) (host target : Bool) (junk : Nat)
    (gdb : gdb_protocol_data R M) (vs tail : List Nat) (c : Nat)
    (hlen : gdb.packet.length = MAX_PACKET_SIZE)
    (hn : vs.length = 16) (hvs : ∀ v ∈ vs, v < U32) (hc : c < U32) :
    ∃ gdb1, write_general_registers rf host target junk gdb
        (vs.foldr (fun v acc => wire32 target v ++ acc)
          (List.replicate (8 * 24) 120 ++ (List.replicate 8 120 ++
            (wire32 target c ++ 0 :: tail)))) = some gdb1 := by
  have h0 : (0 : Nat) ∈ (List.replicate (8 * 24) 120 ++ (List.replicate 8 120 ++
      (wire32 target c ++ 0 :: tail))) :=
    List.mem_append_right _ (List.mem_append_right _ (List.mem_append_right _
      (List.mem_cons_self 0 tail)))
  obtain ⟨arm1, a1⟩ := write_general_registers_loop_isSome rf host target junk
    vs _ hvs h0 0 gdb.arm
  rw [hn] at a1
  have e8 : (List.replicate 8 120 ++ (wire32 target c ++ 0 :: tail)).drop 8
      = wire32 target c ++ 0 :: tail :=
    List.drop_left' (by simp only [List.length_replicate])
  have hfp : write_general_registers_fp host target junk 8
      (List.replicate (8 * 24) 120 ++ (List.replicate 8 120 ++ (wire32 target c ++ 0 :: tail)))
      = some (List.replicate 8 120 ++ (wire32 target c ++ 0 :: tail)) := by
    have e : (8 * 24 : Nat) = 24 * 8 := rfl
    rw [e]
    exact write_general_registers_fp_eq host target junk 8 _
      (List.mem_append_right _ (List.mem_append_right _ (List.mem_cons_self 0 tail)))
  obtain ⟨w, hw⟩ := read_uint32_isSome host target junk (wire32 target c ++ 0 :: tail)
    (List.mem_append_right _ (List.mem_cons_self 0 tail))
  have hlast : read_uint32 host target junk
      ((List.replicate 8 120 ++ (wire32 target c ++ 0 :: tail)).drop 8) = some c := by
    rw [e8]
    exact read_uint32_wire32 host target junk _ hc _ (List.mem_cons_self 0 tail)
  have e : write_general_registers rf host target junk gdb
      (vs.foldr (fun v acc => wire32 target v ++ acc)
        (List.replicate (8 * 24) 120 ++ (List.replicate 8 120 ++
          (wire32 target c ++ 0 :: tail))))
      = gdb_send_data { gdb with arm := arm_write_cpsr rf arm1 c } text_OK := by
    unfold write_general_registers
    rw [a1]
    simp only [Option.some_bind]
    rw [hfp]
    simp only [Option.some_bind]
    rw [hw, hlast]
    simp only [Option.some_bind]
  rw [e]
  exact (gdb_send_data_short { gdb with arm := arm_write_cpsr rf arm1 c } text_OK hlen
    (by decide) (by decide)).imp fun _ h => h.1

theorem cont_isSome (rf : Registers R) (mm : Memory M)
    (arm_step : arm_core_data R M → Int × arm_core_data R M) (fuel junk : Nat)
    (gdb : gdb_protocol_data R M) (data : List Nat)
    (hlen : gdb.packet.length = MAX_PACKET_SIZE)
    (hbp : (mm.memory_read_word gdb.arm.mem ((arm_read_register rf gdb.arm 15 + U32 - 4) % U32)
      junk).2 &&& 0xFFF000F0 = 0xE7F000F0) :
    ∃ gdb1, cont rf mm arm_step (fuel + 1) junk gdb data = some gdb1 := by
  unfold cont
  rw [cont_loop_step, if_pos hbp]
  exact (gdb_send_stop_reason_some gdb hlen).imp fun _ h => h.1

theorem read_memory_isSome (mm : Memory M) (junk : Nat) (gdb : gdb_protocol_data R M)
    (da dl tail : List Nat)
    (hlen : gdb.packet.length = MAX_PACKET_SIZE)
    (hda : da ≠ [] ∧ ∀ d ∈ da, isHexDigit d) (hdl : dl ≠ [] ∧ ∀ d ∈ dl, isHexDigit d)
    (hA : hexValue da < U32) (hL : hexValue dl < U32)
    (hfit : (memory_text mm gdb.arm.mem (hexValue dl) (hexValue da) (junk % 256)).length + 5
      ≤ MAX_PACKET_SIZE) :
    ∃ gdb1, read_memory mm junk gdb (da ++ 44 :: (dl ++ 0 :: tail)) = some gdb1 ∧
      gdb1.written = gdb.written ++
        framed (memory_text mm gdb.arm.mem (hexValue dl) (hexValue da) (junk % 256)) ∧
      gdb1.len
        = (memory_text mm gdb.arm.mem (hexValue dl) (hexValue da) (junk % 256)).length + 4 ∧
      gdb1.packet.length = MAX_PACKET_SIZE := by
  rw [read_memory_stage mm junk gdb da dl tail hda hdl hA hL]
  obtain ⟨g, hg⟩ : ∃ g, (poke gdb.packet 1
      (memory_text mm gdb.arm.mem (hexValue dl) (hexValue da) (junk % 256) ++ [0])).bind
      (fun b => gdb_send_buffer { gdb with packet := b }) = some g := by
    rw [stage_send_eq gdb _ hlen (memory_text_ne_zero _ _ _ _ _), if_pos hfit]
    exact ⟨_, rfl⟩
  have hs := stage_send_some gdb g _ hlen (memory_text_ne_zero _ _ _ _ _) hg
  exact ⟨g, hg, hs.1, hs.2.1, hs.2.2.2.2.2.1⟩


/-- A handler of the table other than that of `m` that produces a reply
produces one of at most 336 characters of payload. -/
theorem reply_of_isSome (rf : Registers R) (mm : Memory M) (host target : Bool)
    (arm_step : arm_core_data R M → Int × arm_core_data R M) (fuel junk : Nat)
    (i : Nat) (h : gdb_handler_t R M) (gdb : gdb_protocol_data R M) (data : List Nat)
    (hlen : gdb.packet.length = MAX_PACKET_SIZE) (hm : i ≠ 109)
    (hi : gdb_init rf mm host target arm_step fuel junk i = some h)
    (hs : ∃ gdb1, h gdb data = some gdb1) :
    ∃ gdb1, h gdb data = some gdb1 ∧ RepliedWithin 336 gdb gdb1 :=
  hs.elim fun gdb1 hr => ⟨gdb1, hr,
    handlers_reply_within rf mm host target arm_step fuel junk i h gdb gdb1 data hlen hm hi hr⟩

/-- C20 (as stated, refuted): on a flat memory of 510 zero bytes the command
`m0,1fe` reads 510 bytes; the framed reply of 1020 digits takes 1025 bytes with
its terminating NUL, one more than the packet buffer holds: the handler writes
at index 1024, outside the buffer, and has no defined result. -/
theorem read_memory_1fe_counterexample :
    read_memory flatMemory 0 (sessionWithMemory (List.replicate 510 0))
      ([48] ++ 44 :: ([49, 102, 101] ++ 0 :: [])) = none ∧
    (framed (hex_pairs (read_run flatMemory (List.replicate 510 0) (hexValue [49, 102, 101])
      (hexValue [48]) 0))).length + 1 = 1025 ∧
    MAX_PACKET_SIZE = 1024 := by
  have hv : hexValue [49, 102, 101] = 510 := by decide
  have hz : hexValue [48] = 0 := by decide
  have hrun : (read_run flatMemory (List.replicate 510 0) 510 0 0).length = 510 :=
    read_run_flat_length _ (by rw [List.length_replicate]; decide) 510 0 0
      (by rw [List.length_replicate])
  have hlen2 : (hex_pairs (read_run flatMemory (List.replicate 510 0) 510 0 0)).length
      = 1020 := by
    rw [hex_pairs_length _ (read_run_lt _ _ _ _ _).1, hrun]
  refine ⟨?_, by rw [framed_length, hv, hz, hlen2], rfl⟩
  rw [read_memory_stage flatMemory 0 _ [48] [49, 102, 101] [] (by decide) (by decide)
      (by decide) (by decide),
    stage_send_eq _ _ (sessionWithMemory_length _) (memory_text_ne_zero _ _ _ _ _)]
  have hm : (sessionWithMemory (List.replicate 510 0)).arm.mem = List.replicate 510 0 := rfl
  have e3 : 0 % 256 = 0 := by decide
  rw [hm, hv, hz, memory_text_eq_hex_pairs _ _ _ _ _ (flat_read_byte_status _), e3, hlen2]
  exact if_neg (by decide)

/-- C20 (amended): on a packet buffer of 1024 bytes, whatever the core and
memory state is, every reply to a command other than `m` (the empty reply to an
unknown command included) has a payload of at most 336 characters, and such a
reply is produced by `?`, `s`, `g`, `k` and an unknown command on any argument,
by `q` on a terminated argument, by `H` and `p` on a number, by `P`, `X` and
`G` on well-formed arguments and by `c` at a breakpoint; so the framed reply
with its terminating NUL takes at most 341 bytes, within the advertised packet
size 0x400 = 1024 = MAX_PACKET_SIZE. The reply to `m A,L`, for `A` and `L` of
32 bits, is produced with a payload of at most 1019 characters whenever the
digits the handler stages, the four frame characters and the terminating NUL
take at most 1024 bytes, in particular for every `L` of at most 509. -/
theorem replies_fit (rf : Registers R) (mm : Memory M) (host target : Bool)
    (arm_step : arm_core_data R M → Int × arm_core_data R M) (fuel junk : Nat)
    (gdb : gdb_protocol_data R M) (hlen : gdb.packet.length = MAX_PACKET_SIZE) :
    (∀ (i : Nat) (data : List Nat) (gdb1 : gdb_protocol_data R M), i ≠ 109 →
      (match gdb_init rf mm host target arm_step fuel junk i with
        | some h => h gdb data
        | none => gdb_send_data gdb []) = some gdb1 →
      RepliedWithin 336 gdb gdb1) ∧
    (∀ data : List Nat,
      (∃ gdb1, gdb_send_data gdb [] = some gdb1 ∧ RepliedWithin 336 gdb gdb1) ∧
      (∃ gdb1, reason gdb data = some gdb1 ∧ RepliedWithin 336 gdb gdb1) ∧
      (∃ gdb1, step arm_step gdb data = some gdb1 ∧ RepliedWithin 336 gdb gdb1) ∧
      (∃ gdb1, read_general_registers rf host target gdb data = some gdb1 ∧
        RepliedWithin 336 gdb gdb1) ∧
      (∃ gdb1, kill_request gdb data = some gdb1 ∧ RepliedWithin 336 gdb gdb1)) ∧
    (∀ data : List Nat, 0 ∈ data →
      ∃ gdb1, query gdb data = some gdb1 ∧ RepliedWithin 336 gdb gdb1) ∧
    (∀ (t : Nat) (text : List Nat) (N : Int), atoi text = some N →
      ∃ gdb1, set_thread gdb (t :: text) = some gdb1 ∧ RepliedWithin 336 gdb gdb1) ∧
    (∀ (data : List Nat) (n : Int), atoi data = some n → (n % (U32 : Int)).toNat < 16 →
      ∃ gdb1, read_register rf host target gdb data = some gdb1 ∧
        RepliedWithin 336 gdb gdb1) ∧
    (∀ (ds tail : List Nat) (V : Nat), (ds ≠ [] ∧ ∀ d ∈ ds, isHexDigit d) →
      hexValue ds < 16 → V < U32 →
      ∃ gdb1, write_register rf host target junk gdb
          (ds ++ 61 :: (wire32 target V ++ 0 :: tail)) = some gdb1 ∧
        RepliedWithin 336 gdb gdb1) ∧
    (∀ (da dl tail : List Nat) (items : List (Nat × Bool)),
      (da ≠ [] ∧ ∀ d ∈ da, isHexDigit d) → (dl ≠ [] ∧ ∀ d ∈ dl, isHexDigit d) →
      hexValue da < U32 → hexValue dl = items.length → items.length < U32 →
      (∀ it ∈ items, it.1 < 256 ∧ (it.2 = false → it.1 ≠ 0x7d)) →
      ∃ gdb1, write_memory_binary mm junk gdb
          (da ++ 44 :: (dl ++ 58 :: (escape_body items ++ 0 :: tail))) = some gdb1 ∧
        RepliedWithin 336 gdb gdb1) ∧
    (∀ (vs tail : List Nat) (c : Nat), vs.length = 16 → (∀ v ∈ vs, v < U32) → c < U32 →
      ∃ gdb1, write_general_registers rf host target junk gdb
          (vs.foldr (fun v acc => wire32 target v ++ acc)
            (List.replicate (8 * 24) 120 ++ (List.replicate 8 120 ++
              (wire32 target c ++ 0 :: tail)))) = some gdb1 ∧
        RepliedWithin 336 gdb gdb1) ∧
    (∀ (fuel0 : Nat) (data : List Nat),
      (mm.memory_read_word gdb.arm.mem ((arm_read_register rf gdb.arm 15 + U32 - 4) % U32)
        junk).2 &&& 0xFFF000F0 = 0xE7F000F0 →
      ∃ gdb1, cont rf mm arm_step (fuel0 + 1) junk gdb data = some gdb1 ∧
        RepliedWithin 336 gdb gdb1) ∧
    (∀ da dl tail : List Nat, (da ≠ [] ∧ ∀ d ∈ da, isHexDigit d) →
      (dl ≠ [] ∧ ∀ d ∈ dl, isHexDigit d) → hexValue da < U32 → hexValue dl < U32 →
      (memory_text mm gdb.arm.mem (hexValue dl) (hexValue da) (junk % 256)).length + 5
        ≤ MAX_PACKET_SIZE →
      ∃ gdb1, read_memory mm junk gdb (da ++ 44 :: (dl ++ 0 :: tail)) = some gdb1 ∧
        gdb1.written = gdb.written ++
          framed (memory_text mm gdb.arm.mem (hexValue dl) (hexValue da) (junk % 256)) ∧
        RepliedWithin 1019 gdb gdb1) ∧
    (∀ da dl tail : List Nat, (da ≠ [] ∧ ∀ d ∈ da, isHexDigit d) →
      (dl ≠ [] ∧ ∀ d ∈ dl, isHexDigit d) → hexValue da < U32 → hexValue dl ≤ 509 →
      ∃ gdb1, read_memory mm junk gdb (da ++ 44 :: (dl ++ 0 :: tail)) = some gdb1 ∧
        RepliedWithin 1019 gdb gdb1) ∧
    (∀ T : List Nat, (framed T).length + 1 = T.length + 5) ∧
    336 + 5 ≤ hexValue [52, 48, 48] ∧ hexValue [52, 48, 48] = MAX_PACKET_SIZE ∧
    1019 + 5 = MAX_PACKET_SIZE ∧
    text_PacketSize = [80, 97, 99, 107, 101, 116, 83, 105, 122, 101, 61] ++ [52, 48, 48] := by
  have hm : ∀ da dl tail : List Nat, (da ≠ [] ∧ ∀ d ∈ da, isHexDigit d) →
      (dl ≠ [] ∧ ∀ d ∈ dl, isHexDigit d) → hexValue da < U32 → hexValue dl < U32 →
      (memory_text mm gdb.arm.mem (hexValue dl) (hexValue da) (junk % 256)).length + 5
        ≤ MAX_PACKET_SIZE →
      ∃ gdb1, read_memory mm junk gdb (da ++ 44 :: (dl ++ 0 :: tail)) = some gdb1 ∧
        gdb1.written = gdb.written ++
          framed (memory_text mm gdb.arm.mem (hexValue dl) (hexValue da) (junk % 256)) ∧
        RepliedWithin 1019 gdb gdb1 := by
    intro da dl tail hda hdl hA hL hfit
    obtain ⟨g, h1, h2, h3, h4⟩ := read_memory_isSome mm junk gdb da dl tail hlen hda hdl hA hL
      hfit
    have hb := hfit
    unfold MAX_PACKET_SIZE at hb
    exact ⟨g, h1, h2, h4, Or.inr ⟨_, by omega, h2, h3⟩⟩
  refine ⟨?_, ?_, ?_, ?_, ?_, ?_, ?_, ?_, ?_, hm, ?_, fun T => by rw [framed_length],
    by decide, by decide, by decide, rfl⟩
  · intro i data gdb1 hm hr
    cases hgi : gdb_init rf mm host target arm_step fuel junk i with
    | none =>
      rw [hgi] at hr
      exact replied_send_data gdb gdb gdb1 [] 336 hlen rfl (by simp) (by simp) hr
    | some h =>
      rw [hgi] at hr
      exact handlers_reply_within rf mm host target arm_step fuel junk i h gdb gdb1 data hlen hm
        hgi hr
  · intro data
    refine ⟨?_, ?_, ?_, ?_, ?_⟩
    · obtain ⟨g, hg⟩ := (gdb_send_data_short gdb [] hlen (by simp) (by decide)).imp
        fun _ h => h.1
      exact ⟨g, hg, replied_send_data gdb gdb g [] 336 hlen rfl (by simp) (by simp) hg⟩
    · exact reply_of_isSome rf mm host target arm_step fuel junk 63 reason gdb data hlen
        (by decide) rfl ((gdb_send_stop_reason_some gdb hlen).imp fun _ h => h.1)
    · exact reply_of_isSome rf mm host target arm_step fuel junk 115 (step arm_step) gdb data
        hlen (by decide) rfl ((stop_after_step gdb _ _ hlen).imp fun _ h => h.1)
    · exact reply_of_isSome rf mm host target arm_step fuel junk 103
        (read_general_registers rf host target) gdb data hlen (by decide) rfl
        ((read_general_registers_session rf host target gdb data hlen).imp fun _ h => h.1)
    · exact reply_of_isSome rf mm host target arm_step fuel junk 107 kill_request gdb data hlen
        (by decide) rfl ⟨_, rfl⟩
  · intro data h0
    exact reply_of_isSome rf mm host target arm_step fuel junk 113 query gdb data hlen
      (by decide) rfl (query_isSome gdb data hlen h0)
  · intro t text N hN
    exact reply_of_isSome rf mm host target arm_step fuel junk 72 set_thread gdb (t :: text) hlen
      (by decide) rfl (set_thread_isSome gdb t text N hlen hN)
  · intro data n hn hr
    exact reply_of_isSome rf mm host target arm_step fuel junk 112
      (read_register rf host target) gdb data hlen (by decide) rfl
      (read_register_isSome rf host target gdb data n hlen hn hr)
  · intro ds tail V hds hr hV
    exact reply_of_isSome rf mm host target arm_step fuel junk 80
      (write_register rf host target junk) gdb _ hlen (by decide) rfl
      (write_register_isSome rf host target junk gdb ds tail V hlen hds hr hV)
  · intro da dl tail items hda hdl hA hL hL32 hitems
    exact reply_of_isSome rf mm host target arm_step fuel junk 88
      (write_memory_binary mm junk) gdb _ hlen (by decide) rfl
      (write_memory_binary_isSome mm junk gdb da dl tail items hlen hda hdl hA hL hL32 hitems)
  · intro vs tail c hn hvs hc
    exact reply_of_isSome rf mm host target arm_step fuel junk 71
      (write_general_registers rf host target junk) gdb _ hlen (by decide) rfl
      (write_general_registers_isSome rf host target junk gdb vs tail c hlen hn hvs hc)
  · intro fuel0 data hbp
    exact reply_of_isSome rf mm host target arm_step (fuel0 + 1) junk 99
      (cont rf mm arm_step (fuel0 + 1) junk) gdb data hlen (by decide) rfl
      (cont_isSome rf mm arm_step fuel0 junk gdb data hlen hbp)
  · intro da dl tail hda hdl hA hL
    have hL32 : hexValue dl < U32 := by unfold U32; omega
    have hle := memory_text_length_le mm gdb.arm.mem (hexValue dl) (hexValue da) (junk % 256)
    obtain ⟨g, h1, _, h3⟩ := hm da dl tail hda hdl hA hL32 (by unfold MAX_PACKET_SIZE; omega)
    exact ⟨g, h1, h3⟩

theorem replies_fit_witness :
    (sessionWithMemory [18, 171, 125]).packet.length = MAX_PACKET_SIZE ∧
    (∃ gdb1, read_memory flatMemory 0 (sessionWithMemory [18, 171, 125])
        ([49] ++ 44 :: ([53] ++ 0 :: [])) = some gdb1 ∧
      RepliedWithin 1019 (sessionWithMemory [18, 171, 125]) gdb1) ∧
    (∃ gdb1, query (sessionWithMemory [18, 171, 125]) (text_Supported ++ [0]) = some gdb1 ∧
      RepliedWithin 336 (sessionWithMemory [18, 171, 125]) gdb1) :=
  have t := replies_fit bankedRegisters flatMemory false false stepRaisingUndefined 1 0
    (sessionWithMemory [18, 171, 125]) (sessionWithMemory_length _)
  ⟨sessionWithMemory_length _,
    t.2.2.2.2.2.2.2.2.2.2.1 [49] [53] [] (by decide) (by decide) (by decide) (by decide),
    t.2.2.1 (text_Supported ++ [0]) (by decide)⟩

/-! ### The cycle counter -/

theorem arm_exception_cycle_count (rf : Registers R) (p : arm_core_data R M) (e : Nat) :
    arm_get_cycle_count (arm_exception rf p e) = arm_get_cycle_count p := by
  unfold arm_exception
  split <;> rfl

theorem arm_fetch_cycle_count (rf : Registers R) (mm : Memory M) (p : arm_core_data R M)
    (value : Nat) :
    arm_get_cycle_count (arm_fetch rf mm p value).2.2 = (arm_get_cycle_count p + 1) % U32 :=
  rfl

/-- A call other than a fetch leaves the cycle counter alone, a fetch adds one
to it modulo 2^32. -/
theorem core_after_cycle_count (rf : Registers R) (mm : Memory M) (c : facade_call)
    (p : arm_core_data R M) :
    arm_get_cycle_count (core_after rf mm c p)
      = if fetch_calls [c] = 0 then arm_get_cycle_count p
        else (arm_get_cycle_count p + 1) % U32 := by
  cases c <;> first
    | rfl
    | exact arm_exception_cycle_count rf p _

theorem cores_after_cycle_count (rf : Registers R) (mm : Memory M) (calls : List facade_call)
    (p : arm_core_data R M) (hc : arm_get_cycle_count p < U32) :
    arm_get_cycle_count (cores_after rf mm calls p)
      = (arm_get_cycle_count p + fetch_calls calls) % U32 := by
  induction calls generalizing p with
  | nil => exact (Nat.mod_eq_of_lt hc).symm
  | cons c cs ih =>
    have h1 := core_after_cycle_count rf mm c p
    have hlt : arm_get_cycle_count (core_after rf mm c p) < U32 := by
      rw [h1]
      split
      · exact hc
      · exact Nat.mod_lt _ (by decide)
    have e := ih (core_after rf mm c p) hlt
    rw [cores_after, e, h1]
    cases c <;>
      simp only [fetch_calls, if_true, Nat.add_mod_mod, Nat.mod_add_mod, Nat.zero_add,
        Nat.add_eq_zero, one_ne_zero, and_false, if_false, Nat.reduceEqDiff]
    congr 1
    omega

/-- C21: the cycle counter changes only in `arm_fetch`.  Every operation of the
facade that assigns in the core (`arm_write_register`, `arm_write_usr_register`,
`arm_write_cpsr`, `arm_write_spsr`, `arm_write_byte`, `arm_write_half`,
`arm_write_word`) and `arm_exception` with any code leave `arm_get_cycle_count`
unchanged; `arm_fetch` adds exactly 1 to it modulo 2^32 whatever the status of
the memory read is; the reading operations leave the core they are given; so
after any sequence of calls the counter has grown by the number of calls of
`arm_fetch`, modulo 2^32. -/
theorem cycle_count_only_in_fetch (rf : Registers R) (mm : Memory M) (p : arm_core_data R M)
    (hc : arm_get_cycle_count p < U32) :
    (∀ reg value, arm_get_cycle_count (arm_write_register rf p reg value)
      = arm_get_cycle_count p) ∧
    (∀ reg value, arm_get_cycle_count (arm_write_usr_register rf p reg value)
      = arm_get_cycle_count p) ∧
    (∀ value, arm_get_cycle_count (arm_write_cpsr rf p value) = arm_get_cycle_count p) ∧
    (∀ value, arm_get_cycle_count (arm_write_spsr rf p value) = arm_get_cycle_count p) ∧
    (∀ address value, arm_get_cycle_count (arm_write_byte mm p address value).2
      = arm_get_cycle_count p) ∧
    (∀ address value, arm_get_cycle_count (arm_write_half mm p address value).2
      = arm_get_cycle_count p) ∧
    (∀ address value, arm_get_cycle_count (arm_write_word mm p address value).2
      = arm_get_cycle_count p) ∧
    (∀ e, arm_get_cycle_count (arm_exception rf p e) = arm_get_cycle_count p) ∧
    (∀ value, arm_get_cycle_count (arm_fetch rf mm p value).2.2
      = (arm_get_cycle_count p + 1) % U32) ∧
    (∀ value status, (arm_fetch rf mm p value).1 = status →
      arm_get_cycle_count (arm_fetch rf mm p value).2.2 = (arm_get_cycle_count p + 1) % U32) ∧
    (∀ c, fetch_calls [c] = 0 →
      arm_get_cycle_count (core_after rf mm c p) = arm_get_cycle_count p) ∧
    (∀ calls, arm_get_cycle_count (cores_after rf mm calls p)
      = (arm_get_cycle_count p + fetch_calls calls) % U32) := by
  refine ⟨fun _ _ => rfl, fun _ _ => rfl, fun _ => rfl, fun _ => rfl, fun _ _ => rfl,
    fun _ _ => rfl, fun _ _ => rfl, arm_exception_cycle_count rf p,
    arm_fetch_cycle_count rf mm p, fun v _ _ => arm_fetch_cycle_count rf mm p v, ?_,
    fun calls => cores_after_cycle_count rf mm calls p hc⟩
  intro c h0
  rw [core_after_cycle_count, if_pos h0]

theorem cycle_count_only_in_fetch_witness :
    arm_get_cycle_count (coreWithPc 0) < U32 ∧
    (arm_fetch bankedRegisters flatMemory
      (cores_after bankedRegisters flatMemory
        [facade_call.fetch 0, facade_call.read_word 0 0, facade_call.write_word 0 5,
         facade_call.fetch 0, facade_call.write_register 3 7] (coreWithPc 0)) 0).1 = -1 ∧
    arm_get_cycle_count (cores_after bankedRegisters flatMemory
      [facade_call.fetch 0, facade_call.read_word 0 0, facade_call.write_word 0 5,
       facade_call.fetch 0, facade_call.write_register 3 7, facade_call.fetch 0]
      (coreWithPc 0)) = 3 :=
  ⟨by decide, by decide,
    ((cycle_count_only_in_fetch bankedRegisters flatMemory (coreWithPc 0)
      (by decide)).2.2.2.2.2.2.2.2.2.2.2 _).trans (by decide)⟩

/-! ### The register index of `p` and `P` -/

/-- The `p` handler on an argument whose `atoi` value is a register number
below 15: it stages the wire encoding of that register and sends it. -/
theorem read_register_of_atoi (rf : Registers R) (host target : Bool)
    (gdb : gdb_protocol_data R M) (data : List Nat) (n : Nat)
    (hn : atoi data = some ((n : Nat) : Int)) (hr : n < 15)
    (hv : rf.read_register gdb.arm.reg n < U32) :
    read_register rf host target gdb data
      = (poke gdb.packet 1 (wire32 target (rf.read_register gdb.arm.reg n) ++ [0])).bind
          (fun b => gdb_send_buffer { gdb with packet := b }) := by
  unfold read_register
  rw [hn]
  have e : (((n : Nat) : Int) % (U32 : Int)).toNat = n := by
    unfold U32
    omega
  simp only [Option.some_bind, e]
  rw [if_pos (by omega), if_neg (by omega), write_uint32_eq]
  have e2 : n % 256 = n := Nat.mod_eq_of_lt (by omega)
  have e3 : arm_read_register rf gdb.arm n = rf.read_register gdb.arm.reg n := by
    unfold arm_read_register
    simp only []
    rw [if_neg (by omega)]
  rw [e2, e3]
  have e4 : (rf.read_register gdb.arm.reg n + U32 - 0) % U32
      = rf.read_register gdb.arm.reg n := by
    rw [Nat.sub_zero, Nat.add_mod_right, Nat.mod_eq_of_lt hv]
  rw [e4]

/-- The `P` handler on an index text whose hexadecimal value is 16 or more:
the assertion `reg < 16` fails. -/
theorem write_register_abort (rf : Registers R) (host target : Bool) (junk : Nat)
    (gdb : gdb_protocol_data R M) (ds tail : List Nat) (V : Nat)
    (hds : ds ≠ [] ∧ ∀ d ∈ ds, isHexDigit d) (hr : 16 ≤ hexValue ds) (hr32 : hexValue ds < U32)
    (hV : V < U32) :
    write_register rf host target junk gdb (ds ++ 61 :: (wire32 target V ++ 0 :: tail))
      = none := by
  unfold write_register
  rw [sscanf_x_digits ds _ 61 junk hds (by decide) (by simp) hr32,
    index_after ds (wire32 target V) tail 61 (by decide) (by
      intro c hc
      have := hds.2 c hc
      unfold isHexDigit at this
      omega)]
  simp only [Option.some_bind, List.drop_succ_cons, List.drop_zero]
  rw [read_uint32_wire32 host target junk V hV (0 :: tail) (by simp)]
  simp only [Option.some_bind]
  rw [if_neg (by omega)]

/-- The packet `$P<index>=deadbeef#cc` with a one-letter index `a`..`e`, on a
little-endian target: the register 10..14 the letter names in hexadecimal
receives 0xefbeadde and OK is replied. -/
theorem packet_Pa_deadbeef (rf : Registers R) (mm : Memory M) (host : Bool)
    (arm_step : arm_core_data R M → Int × arm_core_data R M) (fuel junk : Nat)
    (gdb : gdb_protocol_data R M) (tail : List Nat)
    (hlen : gdb.packet.length = MAX_PACKET_SIZE) :
    ∃ gdb1, gdb_packet_analysis (gdb_init rf mm host false arm_step fuel junk) junk gdb
        (36 :: ([80, 97, 61, 100, 101, 97, 100, 98, 101, 101, 102]
          ++ 35 :: 48 :: 101 :: 0 :: tail)) ((11 + 4 : Nat) : Int) = some gdb1 ∧
      gdb1.written = gdb.written ++ 43 :: framed [79, 75] ∧
      gdb1.arm = arm_write_register rf gdb.arm 10 0xefbeadde ∧
      gdb1.packet.length = MAX_PACKET_SIZE := by
  have hw : wire32 false 0xefbeadde = [100, 101, 97, 100, 98, 101, 101, 102] := by decide
  have hh : gdb_init rf mm host false arm_step fuel junk
      (([80, 97, 61, 100, 101, 97, 100, 98, 101, 101, 102] : List Nat).headD 0 % 256)
      = some (write_register rf host false junk) := rfl
  have hdata : ([80, 97, 61, 100, 101, 97, 100, 98, 101, 101, 102]
      ++ 0 :: 48 :: 101 :: 0 :: tail).drop 1
      = [97] ++ 61 :: (wire32 false 0xefbeadde ++ 0 :: 48 :: 101 :: 0 :: tail) := by
    rw [hw]
    rfl
  have e := gdb_packet_analysis_eq (gdb_init rf mm host false arm_step fuel junk) junk gdb
    [80, 97, 61, 100, 101, 97, 100, 98, 101, 101, 102] tail 48 101 (by decide) (by decide)
  rw [if_pos (by decide), gdb_dispatch_eq, headD_payload, hh] at e
  simp only [] at e
  rw [hdata, write_register_eq rf host false junk _ [97] _ _ (by decide) (by decide)
    (by decide)] at e
  obtain ⟨gdb1, e1, e2, _, e4, _, _, e7⟩ := gdb_send_data_short
    { gdb_send_ack gdb with
      arm := arm_write_register rf (gdb_send_ack gdb).arm (hexValue [97]) 0xefbeadde }
    text_OK hlen (by decide) (by decide)
  refine ⟨gdb1, e.trans e1, ?_, ?_, e7⟩
  · rw [e2]
    simp [gdb_send_ack, text_OK]
  · rw [e4]
    rfl

/-- The packet `$P10=deadbeef#0e`: the index is read as 0x10 = 16 and the
assertion of the handler fails. -/
theorem packet_P10_deadbeef (rf : Registers R) (mm : Memory M) (host : Bool)
    (arm_step : arm_core_data R M → Int × arm_core_data R M) (fuel junk : Nat)
    (gdb : gdb_protocol_data R M) (tail : List Nat) :
    gdb_packet_analysis (gdb_init rf mm host false arm_step fuel junk) junk gdb
        (36 :: ([80, 49, 48, 61, 100, 101, 97, 100, 98, 101, 101, 102]
          ++ 35 :: 48 :: 101 :: 0 :: tail)) ((12 + 4 : Nat) : Int) = none := by
  have hw : wire32 false 0xefbeadde = [100, 101, 97, 100, 98, 101, 101, 102] := by decide
  have hh : gdb_init rf mm host false arm_step fuel junk
      (([80, 49, 48, 61, 100, 101, 97, 100, 98, 101, 101, 102] : List Nat).headD 0 % 256)
      = some (write_register rf host false junk) := rfl
  have hdata : ([80, 49, 48, 61, 100, 101, 97, 100, 98, 101, 101, 102]
      ++ 0 :: 48 :: 101 :: 0 :: tail).drop 1
      = [49, 48] ++ 61 :: (wire32 false 0xefbeadde ++ 0 :: 48 :: 101 :: 0 :: tail) := by
    rw [hw]
    rfl
  have e := gdb_packet_analysis_eq (gdb_init rf mm host false arm_step fuel junk) junk gdb
    [80, 49, 48, 61, 100, 101, 97, 100, 98, 101, 101, 102] tail 48 101 (by decide) (by decide)
  rw [if_pos (by decide), gdb_dispatch_eq, headD_payload, hh] at e
  simp only [] at e
  rw [hdata, write_register_abort rf host false junk _ [49, 48] _ _ (by decide) (by decide)
    (by decide) (by decide)] at e
  exact e

/-- A packet `$p<index>#cc` whose index text has the `atoi` value `n` below 15:
the reply is the wire encoding of register `n`. -/
theorem packet_p_index (rf : Registers R) (mm : Memory M) (host target : Bool)
    (arm_step : arm_core_data R M → Int × arm_core_data R M) (fuel junk : Nat)
    (gdb : gdb_protocol_data R M) (text tail : List Nat) (c1 c2 n : Nat)
    (hlen : gdb.packet.length = MAX_PACKET_SIZE)
    (h1 : isHexDigit c1) (h2 : isHexDigit c2)
    (hsum : (112 + text.sum) % 256 = 16 * hexDigitValue c1 + hexDigitValue c2)
    (hn : atoi (text ++ 0 :: c1 :: c2 :: 0 :: tail) = some ((n : Nat) : Int)) (hr : n < 15)
    (hv : rf.read_register gdb.arm.reg n < U32) :
    ∃ gdb1, gdb_packet_analysis (gdb_init rf mm host target arm_step fuel junk) junk gdb
        (36 :: ((112 :: text) ++ 35 :: c1 :: c2 :: 0 :: tail))
        (((112 :: text).length + 4 : Nat) : Int) = some gdb1 ∧
      gdb1.written = gdb.written ++
        43 :: framed (wire32 target (rf.read_register gdb.arm.reg n)) ∧
      gdb1.arm = gdb.arm := by
  have hh : gdb_init rf mm host target arm_step fuel junk
      ((112 :: text).headD 0 % 256) = some (read_register rf host target) := rfl
  have hdata : ((112 :: text) ++ 0 :: c1 :: c2 :: 0 :: tail).drop 1
      = text ++ 0 :: c1 :: c2 :: 0 :: tail := rfl
  have e := gdb_packet_analysis_eq (gdb_init rf mm host target arm_step fuel junk) junk gdb
    (112 :: text) tail c1 c2 h1 h2
  rw [if_pos (by rw [List.sum_cons]; exact hsum), gdb_dispatch_eq, headD_payload, hh] at e
  simp only [] at e
  rw [hdata, read_register_of_atoi rf host target (gdb_send_ack gdb) _ n hn hr hv,
    stage_send_eq (gdb_send_ack gdb) _ hlen (wire32_ne_zero target _),
    if_pos (by rw [wire32_length]; decide)] at e
  refine ⟨_, e, ?_, rfl⟩
  simp [gdb_send_ack]

/-- For a register index below 10, written as one decimal digit, `P` and `p`
decode the same register: `P d=H` replies OK and `p d` then replies `H`, the
wire encoding of the value written. -/
theorem P_then_p_decimal_digit (rf : Registers R) (host target : Bool) (junk : Nat)
    (gdb : gdb_protocol_data R M) (d V : Nat) (tail1 tail2 : List Nat)
    (hlen : gdb.packet.length = MAX_PACKET_SIZE) (hrf : ReadsLastWrite rf)
    (hd : 48 ≤ d ∧ d ≤ 57) (hV : V < U32) :
    ∃ g1 g2, write_register rf host target junk gdb
        ([d] ++ 61 :: (wire32 target V ++ 0 :: tail1)) = some g1 ∧
      g1.written = gdb.written ++ framed [79, 75] ∧
      read_register rf host target g1 (d :: 0 :: tail2) = some g2 ∧
      g2.written = g1.written ++ framed (wire32 target V) := by
  have hx : hexValue [d] = d - 48 := by
    simp only [hexValue, List.foldl, hexDigitValue, if_pos hd]
    omega
  have hdig : isHexDigit d := Or.inl hd
  rw [write_register_eq rf host target junk gdb [d] tail1 V
    ⟨by simp, fun x hx => by rw [List.mem_singleton.mp hx]; exact hdig⟩ (by rw [hx]; omega) hV]
  obtain ⟨g1, e1, e2, _, e4, _, _, e7⟩ := gdb_send_data_short
    { gdb with arm := arm_write_register rf gdb.arm (hexValue [d]) V } text_OK hlen
    (by decide) (by decide)
  have hr : rf.read_register g1.arm.reg (d - 48) = V := by
    rw [e4, ← hx]
    exact hrf gdb.arm.reg (hexValue [d]) V (by rw [hx]; omega) hV
  have hq := read_register_eq rf host target g1 d tail2 hd (by rw [hr]; exact hV)
  rw [stage_send_eq g1 _ e7 (wire32_ne_zero target _), if_pos (by rw [wire32_length]; decide),
    hr] at hq
  exact ⟨g1, _, e1, e2, hq, rfl⟩

/-- C22 (the code at the failing input): on a fresh session over a
little-endian target, the packet `$Pa=deadbeef#0e` is acknowledged and answered
OK and leaves 0xefbeadde in register 10, the register its index names in
hexadecimal; the packet `$pa#d1` that follows is answered with `00000000`, the
value of register 0, because `atoi` reads 0 from `a`; the value written is
read back by `$p10#d1`, while `$P10=deadbeef#0e` names register 16 and fails
the assertion of the handler. -/
theorem p_P_index_divergence :
    ∃ g1 g2 g3,
      gdb_packet_analysis (gdb_init bankedRegisters flatMemory false false (fun p => (0, p)) 1 0)
        0 (sessionOver (coreWithPc 0))
        (36 :: ([80, 97, 61, 100, 101, 97, 100, 98, 101, 101, 102]
          ++ 35 :: 48 :: 101 :: 0 :: [])) ((11 + 4 : Nat) : Int) = some g1 ∧
      g1.written = 43 :: framed [79, 75] ∧
      bankedRegisters.read_register g1.arm.reg 10 = 0xefbeadde ∧
      gdb_packet_analysis (gdb_init bankedRegisters flatMemory false false (fun p => (0, p)) 1 0)
        0 g1 (36 :: ([112, 97] ++ 35 :: 100 :: 49 :: 0 :: []))
        ((([112, 97] : List Nat).length + 4 : Nat) : Int) = some g2 ∧
      g2.written = g1.written ++ 43 :: framed [48, 48, 48, 48, 48, 48, 48, 48] ∧
      g2.written ≠ g1.written ++ 43 :: framed [100, 101, 97, 100, 98, 101, 101, 102] ∧
      gdb_packet_analysis (gdb_init bankedRegisters flatMemory false false (fun p => (0, p)) 1 0)
        0 g1 (36 :: ([112, 49, 48] ++ 35 :: 100 :: 49 :: 0 :: []))
        ((([112, 49, 48] : List Nat).length + 4 : Nat) : Int) = some g3 ∧
      g3.written = g1.written ++ 43 :: framed [100, 101, 97, 100, 98, 101, 101, 102] ∧
      gdb_packet_analysis (gdb_init bankedRegisters flatMemory false false (fun p => (0, p)) 1 0)
        0 (sessionOver (coreWithPc 0))
        (36 :: ([80, 49, 48, 61, 100, 101, 97, 100, 98, 101, 101, 102]
          ++ 35 :: 48 :: 101 :: 0 :: [])) ((12 + 4 : Nat) : Int) = none := by
  obtain ⟨g1, a1, a2, a3, a4⟩ := packet_Pa_deadbeef bankedRegisters flatMemory false
    (fun p => (0, p)) 1 0 (sessionOver (coreWithPc 0)) [] (sessionOver_length _)
  have hr10 : bankedRegisters.read_register g1.arm.reg 10 = 0xefbeadde := by
    rw [a3]
    decide
  have hr0 : bankedRegisters.read_register g1.arm.reg 0 = 0 := by
    rw [a3]
    decide
  obtain ⟨g2, b1, b2, _⟩ := packet_p_index bankedRegisters flatMemory false false
    (fun p => (0, p)) 1 0 g1 [97] [] 100 49 0 a4 (by decide) (by decide) (by decide)
    (by decide) (by decide) (by rw [hr0]; decide)
  obtain ⟨g3, c1, c2, _⟩ := packet_p_index bankedRegisters flatMemory false false
    (fun p => (0, p)) 1 0 g1 [49, 48] [] 100 49 10 a4 (by decide) (by decide) (by decide)
    (by decide) (by decide) (by rw [hr10]; decide)
  have w0 : wire32 false 0 = [48, 48, 48, 48, 48, 48, 48, 48] := by decide
  have wd : wire32 false 0xefbeadde = [100, 101, 97, 100, 98, 101, 101, 102] := by decide
  rw [hr0, w0] at b2
  rw [hr10, wd] at c2
  refine ⟨g1, g2, g3, a1, a2, hr10, b1, b2, ?_, c1, c2,
    packet_P10_deadbeef bankedRegisters flatMemory false (fun p => (0, p)) 1 0 _ []⟩
  rw [b2]
  intro h
  have := List.append_cancel_left h
  revert this
  decide

end ArmSim
